import Mathlib

/-!
Verification of the terrain triangulation engine of `gtm2/generate_terrain.py`
(heightfield loading, solid mesh building, face deduplication, mesh emission).

The embedding below mirrors the Python source: numpy float arrays become
functions into `ℚ` (arithmetic treated exactly), the zero-initialised
`polyhedron_faces_array` becomes a total function returning the zero triple
outside the populated slots, and the loops that build lists become `List`
computations in the same iteration order.  The mesh-building stage only
consumes the elevation data through the pointwise validity test
`z_a > -5000`, so the builder and deduplicator are stated over an abstract
validity function (suffix `V`) and the top-level definitions instantiate it
with the rational test, exactly as in the source.
-/

namespace TerrainModel

/-- a face is an ordered triple of vertex indices, exactly as one row of the
`polyhedron_faces_array[i][j][k][:]` slice in the source. -/
abbrev Face := Nat × Nat × Nat

/-- the zero-filled placeholder slot of the numpy array. -/
def zeroFace : Face := (0, 0, 0)

/-- in-memory model of the raster data consumed by `read_dem`: dimensions,
band values and the affine geotransform fields that the code uses. -/
structure Dem where
  rows : Nat
  cols : Nat
  z : Nat → Nat → ℚ
  xmin : ℚ
  ymax : ℚ
  xres : ℚ
  yres : ℚ

/-- the no-data masking applied by `read_dem`: values outside `[-9999, 9999]`
become the sentinel `-9999`, then values below `-500` also become `-9999`
(three sequential numpy masked assignments in the source). -/
def maskSample (v : ℚ) : ℚ :=
  let v1 := if v < -9999 then -9999 else v
  let v2 := if 9999 < v1 then -9999 else v1
  if v2 < -500 then -9999 else v2

/-- the grid after `read_dem` masking, same dimensions and geotransform. -/
def maskedDem (d : Dem) : Dem :=
  ⟨d.rows, d.cols, fun i j => maskSample (d.z i j), d.xmin, d.ymax, d.xres, d.yres⟩

/-- `true` when at least one masked sample differs from the sentinel; this is
the condition under which `np.nanmin(dem[dem != nodata])` succeeds in
`read_dem` (on an empty selection it raises and the process terminates). -/
def hasValidSample (d : Dem) : Bool :=
  (List.range d.rows).any fun i =>
    (List.range d.cols).any fun j => decide (maskSample (d.z i j) ≠ -9999)

/-- error taxonomy of the loader: the terminal empty-data exit of `read_dem`
(the spec names it EmptyDataError; the source writes an empty `.scad.empty`
file and calls `sys.exit()`). -/
inductive DemError where
  | emptyDataError
deriving DecidableEq

/-- model of `read_dem`: mask the band, and fail terminally when no valid
sample remains. -/
def read_dem (d : Dem) : Except DemError Dem :=
  if hasValidSample d then Except.ok (maskedDem d) else Except.error DemError.emptyDataError

/-- x centre of the clip extent when no clip polygon is given:
`(xmax + xmin) / 2` with `xmax = xmin + cols * xres`. -/
def xcent (d : Dem) : ℚ := ((d.xmin + d.cols * d.xres) + d.xmin) / 2

/-- y centre of the clip extent when no clip polygon is given:
`(ymax + ymin) / 2` with `ymin = ymax - rows * yres`. -/
def ycent (d : Dem) : ℚ := (d.ymax + (d.ymax - d.rows * d.yres)) / 2

/-- the z value used by the builder: `(dem_array[i][j] - zmean_total) * z_scale`
(the source subtracts `zmean_total` from the whole array first, then scales
each sample when reading it). -/
def zval (d : Dem) (s m : ℚ) (i j : Nat) : ℚ := (d.z i j - m) * s

/-- the builder validity test `z_a > -5000` applied to a sample. -/
def validB (d : Dem) (s m : ℚ) (i j : Nat) : Bool := decide (-5000 < zval d s m i j)

/-- one entry of `polyhedron_points_floor_array`: the re-centred x/y position
and the offset-and-scaled z of grid sample `(i, j)`. -/
def floorPoint (d : Dem) (s m : ℚ) (i j : Nat) : ℚ × ℚ × ℚ :=
  ((d.xmin + d.xres * j) - xcent d, (d.ymax - d.yres * i) - ycent d, zval d s m i j)

/-- content of `polyhedron_points_floor_array` in storage order: position
`i * cols + j` holds the floor point of sample `(i, j)`. -/
def pointsFloor (d : Dem) (s m : ℚ) : List (ℚ × ℚ × ℚ) :=
  (List.range d.rows).flatMap fun i => (List.range d.cols).map fun j => floorPoint d s m i j

/-- slot `k` of `polyhedron_faces_array[i][j]` over an abstract sample
validity function: populated with the triple the source assigns when the
corresponding half-cell validity test passes, and the zero triple otherwise
(the array is zero-initialised). -/
def faceSlotV (R C : Nat) (valid : Nat → Nat → Bool) (i j k : Nat) : Face :=
  if i < R - 1 ∧ j < C - 1 then
    let pointACeil := i * C + j
    let pointBCeil := (i + 1) * C + j
    let pointCCeil := i * C + (j + 1)
    let pointDCeil := (i + 1) * C + (j + 1)
    let pointAFloor := R * C + (i * C + j)
    let pointBFloor := R * C + ((i + 1) * C + j)
    let pointCFloor := R * C + (i * C + (j + 1))
    let pointDFloor := R * C + ((i + 1) * C + (j + 1))
    if k < 8 then
      if valid i j && valid (i + 1) j && valid i (j + 1) then
        match k with
        | 0 => (pointCCeil, pointBCeil, pointACeil)
        | 1 => (pointBFloor, pointAFloor, pointACeil)
        | 2 => (pointBCeil, pointBFloor, pointACeil)
        | 3 => (pointCFloor, pointBFloor, pointBCeil)
        | 4 => (pointCCeil, pointCFloor, pointBCeil)
        | 5 => (pointAFloor, pointCFloor, pointCCeil)
        | 6 => (pointACeil, pointAFloor, pointCCeil)
        | _ => (pointAFloor, pointBFloor, pointCFloor)
      else zeroFace
    else if k < 16 then
      if valid (i + 1) j && valid i (j + 1) && valid (i + 1) (j + 1) then
        match k with
        | 8 => (pointCCeil, pointDCeil, pointBCeil)
        | 9 => (pointDCeil, pointDFloor, pointBFloor)
        | 10 => (pointDCeil, pointBFloor, pointBCeil)
        | 11 => (pointCCeil, pointCFloor, pointDFloor)
        | 12 => (pointCCeil, pointDFloor, pointDCeil)
        | 13 => (pointBCeil, pointBFloor, pointCFloor)
        | 14 => (pointCCeil, pointBCeil, pointCFloor)
        | _ => (pointBFloor, pointDFloor, pointCFloor)
      else zeroFace
    else zeroFace
  else zeroFace

/-- slot `k` of `polyhedron_faces_array[i][j]` for a loaded grid: the
abstract builder instantiated with the source's test `z_a > -5000`. -/
def faceSlot (d : Dem) (s m : ℚ) (i j k : Nat) : Face :=
  faceSlotV d.rows d.cols (validB d s m) i j k

/-- the six reorderings `array1 .. array6` the deduplicator compares against,
in source order. -/
def permsOf (f : Face) : List Face :=
  [(f.1, f.2.1, f.2.2), (f.1, f.2.2, f.2.1), (f.2.1, f.1, f.2.2),
   (f.2.1, f.2.2, f.1), (f.2.2, f.2.1, f.1), (f.2.2, f.1, f.2.1)]

/-- matches of face `f` against one neighbour cell `(a, b)`: the sum over the
six reorderings of the number of slots of that cell equal to the reordering
(`len(loc1[0]) + ... + len(loc6[0])` in the source). -/
def cellMatchCountV (R C : Nat) (valid : Nat → Nat → Bool) (f : Face) (a b : Nat) : Nat :=
  ((permsOf f).map fun p =>
    ((List.range 16).filter fun l => decide (faceSlotV R C valid a b l = p)).length).sum

/-- `i_bottom = i - 1 if i > 0 else 0`. -/
def iBottom (i : Nat) : Nat := if 0 < i then i - 1 else 0

/-- `i_top = i + 1 if i < rows - 1 else rows - 1`. -/
def iTop (R i : Nat) : Nat := if i < R - 1 then i + 1 else R - 1

/-- `j_left = j - 1 if i > 0 else 0`; the guard tests `i`, not `j`, so this
can be `-1` (when `i > 0` and `j = 0`), which numpy interprets as the last
column. -/
def jLeft (i j : Nat) : Int := if 0 < i then (j : Int) - 1 else 0

/-- `j_right = j + 1 if j < cols - 1 else cols`. -/
def jRight (C j : Nat) : Nat := if j < C - 1 then j + 1 else C

/-- numpy negative-index wraparound for the column index (only `-1` can occur
for a reachable nonzero candidate; an index `≥ cols` would raise, but no
nonzero candidate lives in the last grid column, so that path is dead). -/
def wrapCol (C : Nat) (t : Int) : Nat := if t < 0 then (C + t).toNat else t.toNat

/-- inclusive integer range as a list, `lo, lo+1, ..., hi`. -/
def intRange (lo hi : Int) : List Int :=
  (List.range (hi + 1 - lo).toNat).map fun (t : Nat) => lo + (t : Int)

/-- cells visited by the deduplicator neighbour scan for a candidate in cell
`(i, j)`: the row range `i_bottom .. i_top` crossed with the column range
`j_left .. j_right`, with numpy wraparound applied to the column. -/
def visitedCells (R C i j : Nat) : List (Nat × Nat) :=
  (List.range' (iBottom i) (iTop R i + 1 - iBottom i)).flatMap fun a =>
    (intRange (jLeft i j) (jRight C j)).map fun b => (a, wrapCol C b)

/-- `polyhedron_face_cnt`: total matches of candidate `f` from cell `(i, j)`
over the scanned neighbourhood. -/
def faceNeighbourCountV (R C : Nat) (valid : Nat → Nat → Bool) (i j : Nat) (f : Face) : Nat :=
  ((visitedCells R C i j).map fun ab => cellMatchCountV R C valid f ab.1 ab.2).sum

/-- `polyhedron_faces_clean` over an abstract validity function: scan all
cells and slots in order, keep each nonzero face whose neighbourhood match
count is exactly 1. -/
def polyhedron_faces_cleanV (R C : Nat) (valid : Nat → Nat → Bool) : List Face :=
  (List.range R).flatMap fun i =>
    (List.range C).flatMap fun j =>
      (List.range 16).filterMap fun k =>
        let f := faceSlotV R C valid i j k
        if f ≠ zeroFace then
          if faceNeighbourCountV R C valid i j f = 1 then some f else none
        else none

/-- `polyhedron_faces_clean` of a loaded grid. -/
def polyhedron_faces_clean (d : Dem) (s m : ℚ) : List Face :=
  polyhedron_faces_cleanV d.rows d.cols (validB d s m)

/-- the point list the emitter writes into the `polyhedron(points=...)`
directive: `for l in [0]`, one copy of the floor array with `z - l * 10.0`. -/
def polyhedron_points (d : Dem) (s m : ℚ) : List (ℚ × ℚ × ℚ) :=
  ([0] : List Nat).flatMap fun l =>
    (pointsFloor d s m).map fun p => (p.1, p.2.1, p.2.2 - (l : ℚ) * 10)

/-- the payload of the emitted scad `polyhedron` directive. -/
structure ScadOutput where
  points : List (ℚ × ℚ × ℚ)
  faces : List Face

/-- model of `generate_terrain` (no clip polygon): load and mask the raster,
then build, deduplicate and emit; a loader failure aborts before any builder
work. -/
def generate_terrain (d : Dem) (s m : ℚ) : Except DemError ScadOutput :=
  match read_dem d with
  | Except.error e => Except.error e
  | Except.ok dem => Except.ok ⟨polyhedron_points dem s m, polyhedron_faces_clean dem s m⟩

/-- an all-flat rectangular test grid: elevation 0 everywhere, origin (0,0),
resolution 1 on both axes. -/
def flatDem (R C : Nat) : Dem := ⟨R, C, fun _ _ => 0, 0, 0, 1, 1⟩

/-- a raster whose every raw sample is 10000, outside the accepted range. -/
def outOfRangeDem : Dem := ⟨2, 2, fun _ _ => 10000, 0, 0, 1, 1⟩

/-- total occurrence count of face `f` over every cell of the whole grid,
with the same six-reordering counting the deduplicator uses; this is the
count the spec describes (occurrences across all cells' slot sets). -/
def faceGlobalCountV (R C : Nat) (valid : Nat → Nat → Bool) (f : Face) : Nat :=
  ((List.range R).map fun a =>
    ((List.range C).map fun b => cellMatchCountV R C valid f a b).sum).sum

/-- the deduplicated face list as the spec words it: scan cells and slots in
order and keep exactly the nonzero faces whose total occurrence count across
all cells (permutations identified) is exactly 1. -/
def dedupSpecV (R C : Nat) (valid : Nat → Nat → Bool) : List Face :=
  (List.range R).flatMap fun i =>
    (List.range C).flatMap fun j =>
      (List.range 16).filterMap fun k =>
        let f := faceSlotV R C valid i j k
        if f ≠ zeroFace then
          if faceGlobalCountV R C valid f = 1 then some f else none
        else none

/-- the spec-side deduplicated list of a loaded grid. -/
def dedupSpec (d : Dem) (s m : ℚ) : List Face :=
  dedupSpecV d.rows d.cols (validB d s m)

/-- number of nonzero face slots the builder populates. -/
def rawFaceCountV (R C : Nat) (valid : Nat → Nat → Bool) : Nat :=
  ((List.range R).map fun i =>
    ((List.range C).map fun j =>
      ((List.range 16).filter fun k => decide (faceSlotV R C valid i j k ≠ zeroFace)).length).sum).sum

/-- arithmetic mean of the x coordinates of the floor-layer vertex array. -/
def meanFloorX (d : Dem) (s m : ℚ) : ℚ :=
  (((pointsFloor d s m).map fun p => p.1).sum) / ((d.rows * d.cols : Nat) : ℚ)

/-- the neighbourhood the spec says the deduplicator scans for a candidate in
cell `(i, j)`: the 3 by 3 block around the cell clamped to the grid bounds. -/
def clampedCells (R C i j : Nat) : List (Nat × Nat) :=
  (List.range' (max 0 (i - 1)) (min (R - 1) (i + 1) + 1 - max 0 (i - 1))).flatMap fun a =>
    (List.range' (max 0 (j - 1)) (min (C - 1) (j + 1) + 1 - max 0 (j - 1))).map fun b => (a, b)

/-- a vertex in cell-relative form: layer (0 = ceiling-layer index block,
1 = floor block), row offset and column offset within the 2 by 2 corner
block of a cell. -/
abbrev RelV := Nat × Nat × Nat

/-- the sixteen slot triples of one cell in cell-relative vertex form,
transcribed from the assignments in the source (a = (0,0), b = (1,0),
c = (0,1), d = (1,1); first coordinate 1 marks a floor vertex). -/
def relTriple : Nat → RelV × RelV × RelV
  | 0 => ((0,0,1),(0,1,0),(0,0,0))
  | 1 => ((1,1,0),(1,0,0),(0,0,0))
  | 2 => ((0,1,0),(1,1,0),(0,0,0))
  | 3 => ((1,0,1),(1,1,0),(0,1,0))
  | 4 => ((0,0,1),(1,0,1),(0,1,0))
  | 5 => ((1,0,0),(1,0,1),(0,0,1))
  | 6 => ((0,0,0),(1,0,0),(0,0,1))
  | 7 => ((1,0,0),(1,1,0),(1,0,1))
  | 8 => ((0,0,1),(0,1,1),(0,1,0))
  | 9 => ((0,1,1),(1,1,1),(1,1,0))
  | 10 => ((0,1,1),(1,1,0),(0,1,0))
  | 11 => ((0,0,1),(1,0,1),(1,1,1))
  | 12 => ((0,0,1),(1,1,1),(0,1,1))
  | 13 => ((0,1,0),(1,1,0),(1,0,1))
  | 14 => ((0,0,1),(0,1,0),(1,0,1))
  | _ => ((1,1,0),(1,1,1),(1,0,1))

/-- shift a relative vertex by a cell offset (in coordinates translated by
one, so the offsets 0, 1, 2 stand for -1, 0, +1). -/
def shiftRel (u v : Nat) (t : RelV) : RelV := (t.1, u + t.2.1, v + t.2.2)

/-- slot triple of a cell placed at translated offset `(u, v)`. -/
def relFace (u v k : Nat) : RelV × RelV × RelV :=
  (shiftRel u v (relTriple k).1, shiftRel u v (relTriple k).2.1, shiftRel u v (relTriple k).2.2)

/-- the six reorderings at the relative level, in the same order as the
deduplicator's comparison arrays. -/
def permsOfR (f : RelV × RelV × RelV) : List (RelV × RelV × RelV) :=
  [(f.1, f.2.1, f.2.2), (f.1, f.2.2, f.2.1), (f.2.1, f.1, f.2.2),
   (f.2.1, f.2.2, f.1), (f.2.2, f.2.1, f.1), (f.2.2, f.1, f.2.1)]

/-- whether slot `kp` of the cell at translated offset `(u, v)` is one of the
six reorderings of slot `k` of the base cell (offset `(1, 1)`). -/
def relMatchB (k kp u v : Nat) : Bool := decide (relFace u v kp ∈ permsOfR (relFace 1 1 k))

/-- number of slots of the cell at translated offset `(u, v)` matching slot
`k` of the base cell up to reordering. -/
def relCount (k u v : Nat) : Nat := ((List.range 16).filter fun kp => relMatchB k kp u v).length

/-- vertex index encoding used by the builder: floor vertices live
`rows * cols` above the ceiling block, and a cell corner at row offset
`t.2.1` and column offset `t.2.2` of cell `(i, j)` has flat index
`(i + t.2.1) * cols + (j + t.2.2)` within its block. -/
def encV (R C i j : Nat) (t : RelV) : Nat :=
  (if t.1 = 0 then 0 else R * C) + ((i + t.2.1) * C + (j + t.2.2))

/-- the populated value of slot `k` of interior cell `(i, j)` as the encoding
of its relative triple. -/
def encTriple (R C i j k : Nat) : Face :=
  (encV R C i j (relTriple k).1, encV R C i j (relTriple k).2.1, encV R C i j (relTriple k).2.2)

/-- which slots survive deduplication on a fully valid grid, as a function of
the four boundary flags of the interior cell: `b1` = leftmost column of
cells, `b2` = rightmost column of cells, `b3` = top row, `b4` = bottom row. -/
def keepSlotBits (b1 b2 b3 b4 : Bool) (k : Nat) : Bool :=
  match k with
  | 0 | 7 | 8 | 15 => true
  | 3 | 4 | 13 | 14 => false
  | 1 | 2 => b1
  | 11 | 12 => b2
  | 5 | 6 => b3
  | 9 | 10 => b4
  | _ => false

/-- survivor predicate for slot `k` of interior cell `(i, j)` on a fully
valid `R` by `C` grid. -/
def keepSlot (R C i j k : Nat) : Bool :=
  keepSlotBits (decide (j = 0)) (decide (C - 1 ≤ j + 1)) (decide (i = 0))
    (decide (R - 1 ≤ i + 1)) k

/-- decoding of a vertex index into (layer, row, column); the left inverse of
`encV` on in-range indices. -/
def decodeV (R C x : Nat) : Nat × Nat × Nat := (x / (R * C), (x % (R * C)) / C, x % C)

/-- a face whose three vertices are all in the ceiling block (`< n`) or all
in the floor block (`≥ n`), where `n = rows * cols`; the top and bottom
triangles of the claimed face-count law. -/
def isTopBottomFace (n : Nat) (f : Face) : Bool :=
  (decide (f.1 < n) && decide (f.2.1 < n) && decide (f.2.2 < n)) ||
  (decide (n ≤ f.1) && decide (n ≤ f.2.1) && decide (n ≤ f.2.2))

/-- the slots whose triple lies entirely in one vertex layer: the two ceiling
and two bottom triangles of a cell. -/
def topBotSlot (k : Nat) : Bool := decide (k = 0 ∨ k = 7 ∨ k = 8 ∨ k = 15)

/-- closed table of `relCount k u v` for `k < 16` and offsets `u, v < 3`: how
many of the six reorderings of slot `k`'s triple occur among the slots of the
cell displaced by `(u - 1, v - 1)`. -/
def relCountTable (k u v : Nat) : Nat :=
  if u = 1 ∧ v = 1 then (if k = 3 ∨ k = 4 ∨ k = 13 ∨ k = 14 then 2 else 1)
  else if u = 1 ∧ v = 0 then (if k = 1 ∨ k = 2 then 1 else 0)
  else if u = 1 ∧ v = 2 then (if k = 11 ∨ k = 12 then 1 else 0)
  else if u = 0 ∧ v = 1 then (if k = 5 ∨ k = 6 then 1 else 0)
  else if u = 2 ∧ v = 1 then (if k = 9 ∨ k = 10 then 1 else 0)
  else 0

/-- number of nonzero face slots the builder populates for a loaded grid. -/
def rawFaceCount (d : Dem) (s m : ℚ) : Nat :=
  rawFaceCountV d.rows d.cols (validB d s m)

/-- both endpoints of the unordered pair `{u, v}` occur among the three
vertex indices of face `f`; the edge-incidence test of the watertightness
property. -/
def edgeInFace (u v : Nat) (f : Face) : Bool :=
  (decide (u = f.1) || decide (u = f.2.1) || decide (u = f.2.2)) &&
  (decide (v = f.1) || decide (v = f.2.1) || decide (v = f.2.2))

/-- slot `k`'s relative triple has an entry at layer `l` and cell-relative
position `(oi, oj)`. -/
def relHitB (k l oi oj : Nat) : Bool :=
  decide ((relTriple k).1.1 = l ∧ (relTriple k).1.2.1 = oi ∧ (relTriple k).1.2.2 = oj) ||
  decide ((relTriple k).2.1.1 = l ∧ (relTriple k).2.1.2.1 = oi ∧ (relTriple k).2.1.2.2 = oj) ||
  decide ((relTriple k).2.2.1 = l ∧ (relTriple k).2.2.2.1 = oi ∧ (relTriple k).2.2.2.2 = oj)

/-- number of kept slots of one interior cell (with boundary bits `b1..b4`)
whose triple contains both relative vertices `(l1, o1r, o1c)` and
`(l2, o2r, o2c)`. -/
def edgeCellCount (b1 b2 b3 b4 : Bool) (l1 o1r o1c l2 o2r o2c : Nat) : Nat :=
  ((List.range 16).filter fun k =>
    keepSlotBits b1 b2 b3 b4 k && (relHitB k l1 o1r o1c && relHitB k l2 o2r o2c)).length

/-- contribution of cell `(i, j)` to the number of surviving faces containing
the edge `{u, v}`, on a fully valid grid. -/
def edgeCellTerm (R C u v i j : Nat) : Nat :=
  if i < R - 1 ∧ j < C - 1 then
    if i ≤ (decodeV R C u).2.1 ∧ (decodeV R C u).2.1 ≤ i + 1
        ∧ j ≤ (decodeV R C u).2.2 ∧ (decodeV R C u).2.2 ≤ j + 1
        ∧ i ≤ (decodeV R C v).2.1 ∧ (decodeV R C v).2.1 ≤ i + 1
        ∧ j ≤ (decodeV R C v).2.2 ∧ (decodeV R C v).2.2 ≤ j + 1 then
      edgeCellCount (decide (j = 0)) (decide (C - 1 ≤ j + 1)) (decide (i = 0))
        (decide (R - 1 ≤ i + 1))
        (decodeV R C u).1 ((decodeV R C u).2.1 - i) ((decodeV R C u).2.2 - j)
        (decodeV R C v).1 ((decodeV R C v).2.1 - i) ((decodeV R C v).2.2 - j)
    else 0
  else 0

/-! General list and sum helper lemmas. -/

lemma list_map_range_sum {M : Type} [AddCommMonoid M] (n : Nat) (f : Nat → M) :
    ((List.range n).map f).sum = ∑ x ∈ Finset.range n, f x := by
  induction n with
  | zero => simp
  | succ n ih =>
      rw [List.range_succ, Finset.sum_range_succ, List.map_append, List.sum_append]
      simp [ih]

lemma list_sum_flatMap {α M : Type} [AddCommMonoid M] (l : List α) (f : α → List M) :
    (l.flatMap f).sum = (l.map fun a => (f a).sum).sum := by
  induction l with
  | nil => simp
  | cons a t ih => simp [List.flatMap_cons, List.sum_append, ih]

lemma list_length_flatMap2 {α β : Type} (l : List α) (f : α → List β) :
    (l.flatMap f).length = (l.map fun a => (f a).length).sum := by
  induction l with
  | nil => simp
  | cons a t ih => simp [List.flatMap_cons, ih]

/-! The Heightfield Loader: emptiness guard. -/

lemma hasValidSample_iff (d : Dem) :
    hasValidSample d = true ↔
      ∃ i, i < d.rows ∧ ∃ j, j < d.cols ∧ maskSample (d.z i j) ≠ -9999 := by
  simp [hasValidSample, List.any_eq_true, List.mem_range]

/-- C10: if after masking no valid sample remains, the loader fails
terminally (modelled as the EmptyDataError value, the spec's name for the
terminal exit) and `generate_terrain` produces no mesh output at all; if at
least one valid sample remains, loading succeeds and returns the masked
grid. -/
theorem C10_loader_empty_guard (d : Dem) (s m : ℚ) :
    ((∀ i, i < d.rows → ∀ j, j < d.cols → maskSample (d.z i j) = -9999) →
      read_dem d = Except.error DemError.emptyDataError ∧
      generate_terrain d s m = Except.error DemError.emptyDataError) ∧
    ((∃ i, i < d.rows ∧ ∃ j, j < d.cols ∧ maskSample (d.z i j) ≠ -9999) →
      read_dem d = Except.ok (maskedDem d)) := by
  constructor
  · intro h
    have hv : hasValidSample d = false := by
      rw [Bool.eq_false_iff]
      intro hcon
      obtain ⟨i, hi, j, hj, hne⟩ := (hasValidSample_iff d).mp hcon
      exact hne (h i hi j hj)
    constructor
    · simp [read_dem, hv]
    · simp [generate_terrain, read_dem, hv]
  · intro h
    have hv : hasValidSample d = true := (hasValidSample_iff d).mpr h
    simp [read_dem, hv]

lemma maskSample_ten_thousand : maskSample 10000 = -9999 := by
  norm_num [maskSample]

lemma maskSample_zero : maskSample 0 = 0 := by
  norm_num [maskSample]

/-- witness for C10: a raster with every raw value 10000 (outside the
accepted range) is rejected by the loader before any mesh building, and an
all-zero raster loads successfully. -/
theorem C10_loader_empty_guard_witness :
    (read_dem outOfRangeDem = Except.error DemError.emptyDataError ∧
      generate_terrain outOfRangeDem 1 0 = Except.error DemError.emptyDataError) ∧
    read_dem (flatDem 2 2) = Except.ok (maskedDem (flatDem 2 2)) :=
  ⟨(C10_loader_empty_guard outOfRangeDem 1 0).1
      (fun _ _ _ _ => maskSample_ten_thousand),
   (C10_loader_empty_guard (flatDem 2 2) 1 0).2
      ⟨0, by decide, 0, by decide, by
        show maskSample 0 ≠ -9999
        rw [maskSample_zero]; norm_num⟩⟩

/-! Evaluation bridge for concrete flat grids: the validity function of a
masked all-zero grid is constantly true, turning the whole pipeline into a
pure natural-number computation. -/

lemma validB_flat (R C : Nat) (s m : ℚ) (hm : (0 - m) * s > -5000) :
    validB (maskedDem (flatDem R C)) s m = fun _ _ => true := by
  funext i j
  simp only [validB, zval, maskedDem, flatDem, maskSample]
  norm_num at hm ⊢
  linarith

lemma clean_flat (R C : Nat) :
    polyhedron_faces_clean (maskedDem (flatDem R C)) 1 0 =
      polyhedron_faces_cleanV R C (fun _ _ => true) := by
  unfold polyhedron_faces_clean
  rw [validB_flat R C 1 0 (by norm_num)]
  simp [maskedDem, flatDem]

/-- C5 counterexample: on the 3 by 3 all-zero grid with unit resolution,
origin (0,0), exaggeration 1 and zero offset, the deduplicated face list
does not have 24 entries. -/
theorem C5_counterexample_not_24 :
    ¬ (polyhedron_faces_clean (maskedDem (flatDem 3 3)) 1 0).length = 24 := by
  rw [clean_flat]
  decide

/-- C5 amended: the deduplicated face list of that scenario has exactly 32
entries, in agreement with the general face-count law
2(R-1)(C-1)·2 + 2·2((R-1)+(C-1)) = 16 + 16. -/
theorem C5_amended_32_faces :
    (polyhedron_faces_clean (maskedDem (flatDem 3 3)) 1 0).length = 32 := by
  rw [clean_flat]
  decide

/-- C1 (code behaviour at the failing input): on the 3 by 3 all-zero grid
the emitter lists only the 9 surface-layer points (one copy of the floor
array, `for l in [0]`), yet the surviving face list references floor vertex
indices at or beyond 9, so not every face index is a valid index into the
emitted point list as the claim requires. -/
theorem C1_emitted_points_incomplete :
    (polyhedron_points (maskedDem (flatDem 3 3)) 1 0).length = 9 ∧
    ((polyhedron_faces_clean (maskedDem (flatDem 3 3)) 1 0).any fun f =>
      decide ((polyhedron_points (maskedDem (flatDem 3 3)) 1 0).length ≤ f.2.2)) = true := by
  have hlen : (polyhedron_points (maskedDem (flatDem 3 3)) 1 0).length = 9 := by
    decide
  refine ⟨hlen, ?_⟩
  rw [hlen, clean_flat]
  decide

/-! Centering of floor-vertex x coordinates. -/

lemma pointsFloor_x_sum (d : Dem) (s m : ℚ) :
    ((pointsFloor d s m).map fun p => p.1).sum =
      ∑ i ∈ Finset.range d.rows, ∑ j ∈ Finset.range d.cols,
        ((d.xmin + d.xres * j) - xcent d) := by
  rw [pointsFloor, List.map_flatMap, list_sum_flatMap, list_map_range_sum]
  refine Finset.sum_congr rfl fun i _ => ?_
  rw [List.map_map, list_map_range_sum]
  rfl

lemma gauss_sum_rat (n : Nat) : (∑ j ∈ Finset.range n, (j : ℚ)) * 2 = n * (n - 1) := by
  rcases Nat.eq_zero_or_pos n with h | h
  · subst h; simp
  · have hnat := Finset.sum_range_id_mul_two n
    have hcast : ((∑ i ∈ Finset.range n, i : Nat) : ℚ) = ∑ j ∈ Finset.range n, (j : ℚ) :=
      Nat.cast_sum _ _
    rw [← hcast]
    rw [show ((n : ℚ) - 1) = ((n - 1 : Nat) : ℚ) by push_cast [Nat.cast_sub h]; ring]
    exact_mod_cast congrArg (Nat.cast : Nat → ℚ) hnat

/-- C7 counterexample: on a 2 by 2 grid with unit resolution the mean of the
floor-vertex x coordinates is -1/2, not 0. -/
theorem C7_counterexample_mean_not_zero : meanFloorX (flatDem 2 2) 1 0 ≠ 0 := by
  norm_num [meanFloorX, pointsFloor, floorPoint, xcent, ycent, zval, flatDem,
    List.range_succ]

/-- C7 amended: for every grid with at least one row and column, the mean of
the floor-vertex x coordinates equals `-xres / 2` exactly: the vertices sit
at pixel corners spanning `(cols - 1) * xres` while the recentring uses the
full `cols * xres` raster extent, leaving a residual half-pixel offset. -/
theorem C7_amended_mean_half_pixel (d : Dem) (s m : ℚ)
    (hR : 1 ≤ d.rows) (hC : 1 ≤ d.cols) :
    meanFloorX d s m = -d.xres / 2 := by
  have hCq : (0 : ℚ) < (d.cols : ℚ) := by exact_mod_cast hC
  have hRq : (0 : ℚ) < (d.rows : ℚ) := by exact_mod_cast hR
  have hg := gauss_sum_rat d.cols
  have hinner : ∑ j ∈ Finset.range d.cols, ((d.xmin + d.xres * j) - xcent d) =
      -(d.xres / 2) * d.cols := by
    rw [Finset.sum_sub_distrib, Finset.sum_add_distrib, Finset.sum_const, Finset.sum_const,
      Finset.card_range, ← Finset.mul_sum, xcent]
    have hgj : (∑ j ∈ Finset.range d.cols, (j : ℚ)) = d.cols * (d.cols - 1) / 2 := by
      field_simp
      linarith [hg]
    rw [hgj]
    push_cast
    ring
  unfold meanFloorX
  rw [pointsFloor_x_sum]
  rw [Finset.sum_congr rfl fun i _ => hinner, Finset.sum_const, Finset.card_range]
  push_cast
  field_simp
  ring

/-- witness for C7 amended: a concrete 2 by 3 unit-resolution grid. -/
theorem C7_amended_mean_half_pixel_witness :
    meanFloorX (flatDem 2 3) 1 0 = -(flatDem 2 3).xres / 2 :=
  C7_amended_mean_half_pixel (flatDem 2 3) 1 0 (by decide) (by decide)

/-! The deduplicator neighbour scan window. -/

lemma faceSlot_flat (R C : Nat) :
    faceSlot (maskedDem (flatDem R C)) 1 0 = faceSlotV R C (fun _ _ => true) := by
  unfold faceSlot
  rw [validB_flat R C 1 0 (by norm_num)]
  simp [maskedDem, flatDem]

/-- C9 counterexample: in a 2 by 4 flat grid, cell (0, 2) holds a nonzero
candidate face, and the deduplicator scan for it visits cell (0, 0), which is
outside the claimed clamped 3 by 3 neighbourhood (the source's left clamp
tests the row index `i` instead of the column index `j`). -/
theorem C9_counterexample_scan_outside_window :
    faceSlot (maskedDem (flatDem 2 4)) 1 0 0 2 0 ≠ zeroFace ∧
    (0, 0) ∈ visitedCells 2 4 0 2 ∧ (0, 0) ∉ clampedCells 2 4 0 2 := by
  refine ⟨?_, by decide, by decide⟩
  rw [faceSlot_flat]
  decide

lemma wrapCol_of_nonneg (C : Nat) (t : Int) (h : 0 ≤ t) : wrapCol C t = t.toNat := by
  unfold wrapCol
  rw [if_neg (by omega)]

/-- exact characterization of the deduplicator scan window (used both by the
scan-window claim and by the proof that the scan reaches every cell that can
hold a matching face). -/
lemma visitedCells_characterization (R C i j : Nat) (hi : i < R - 1) (hj : j < C - 1) :
    visitedCells R C i j =
      (if 0 < i then [i - 1, i, i + 1] else [i, i + 1]).flatMap fun a =>
        (if 0 < i then (if 0 < j then [j - 1, j, j + 1] else [C - 1, 0, 1])
         else List.range (j + 2)).map fun b => (a, b) := by
  have hC : j + 1 < C := by omega
  unfold visitedCells iBottom iTop jLeft jRight
  simp only [if_pos hi, if_pos hj]
  by_cases h0i : 0 < i
  · simp only [if_pos h0i]
    have hrows : List.range' (i - 1) (i + 1 + 1 - (i - 1)) = [i - 1, i, i + 1] := by
      rw [show i + 1 + 1 - (i - 1) = 3 from by omega]
      simp [List.range']
      all_goals omega
    rw [hrows]
    by_cases h0j : 0 < j
    · simp only [if_pos h0j]
      have hcols : intRange ((j : Int) - 1) ((j + 1 : Nat) : Int) =
          [(j : Int) - 1, (j : Int), (j : Int) + 1] := by
        unfold intRange
        rw [show (((j + 1 : Nat) : Int) + 1 - ((j : Int) - 1)).toNat = 3 from by omega]
        simp [List.range_succ]
        all_goals omega
      rw [hcols]
      have w1 : wrapCol C ((j : Int) - 1) = j - 1 := by
        rw [wrapCol_of_nonneg C _ (by omega)]; omega
      have w2 : wrapCol C ((j : Int)) = j := by
        rw [wrapCol_of_nonneg C _ (by omega)]; omega
      have w3 : wrapCol C ((j : Int) + 1) = j + 1 := by
        rw [wrapCol_of_nonneg C _ (by omega)]; omega
      simp [w1, w2, w3]
    · have hj0 : j = 0 := by omega
      subst hj0
      simp only [if_neg h0j]
      have hcols : intRange (((0 : Nat) : Int) - 1) (((0 + 1 : Nat) : Int)) =
          [(-1 : Int), 0, 1] := by
        unfold intRange
        rw [show ((((0 + 1 : Nat) : Int)) + 1 - (((0 : Nat) : Int) - 1)).toNat = 3 from by omega]
        simp [List.range_succ]
      rw [hcols]
      have w1 : wrapCol C (-1) = C - 1 := by
        unfold wrapCol
        rw [if_pos (by omega)]
        omega
      have w2 : wrapCol C 0 = 0 := by
        rw [wrapCol_of_nonneg C _ (by omega)]; rfl
      have w3 : wrapCol C 1 = 1 := by
        rw [wrapCol_of_nonneg C _ (by omega)]; rfl
      simp [w1, w2, w3]
  · simp only [if_neg h0i]
    have h0 : i = 0 := by omega
    subst h0
    have hrows : List.range' 0 (0 + 1 + 1 - 0) = [0, 1] := by
      simp [List.range']
    have hmap : ∀ a : Nat,
        ((intRange 0 ((j + 1 : Nat) : Int)).map fun b => (a, wrapCol C b)) =
          (List.range (j + 2)).map fun b => (a, b) := by
      intro a
      unfold intRange
      rw [show (((j + 1 : Nat) : Int) + 1 - 0).toNat = j + 2 from by omega]
      rw [List.map_map]
      refine List.map_congr_left fun t ht => ?_
      simp only [Function.comp]
      rw [show (0 : Int) + (t : Int) = (t : Int) from by omega]
      rw [wrapCol_of_nonneg C _ (by omega)]
      simp
    rw [hrows]
    simp only [List.flatMap_cons, List.flatMap_nil, hmap]

/-- C9 amended: for a cell `(i, j)` that can hold a nonzero candidate
(`i < R-1`, `j < C-1`), the scan visits exactly: rows `max(0, i-1) .. i+1`;
columns `j-1 .. j+1` when `i > 0` and `j > 0`; columns `{C-1, 0, 1}` when
`i > 0` and `j = 0` (the `-1` index wraps to the last column); and columns
`0 .. j+1` when `i = 0` (the left clamp tests `i` instead of `j`). -/
theorem C9_amended_scan_window (R C i j : Nat) (hi : i < R - 1) (hj : j < C - 1) :
    visitedCells R C i j =
      (if 0 < i then [i - 1, i, i + 1] else [i, i + 1]).flatMap fun a =>
        (if 0 < i then (if 0 < j then [j - 1, j, j + 1] else [C - 1, 0, 1])
         else List.range (j + 2)).map fun b => (a, b) :=
  visitedCells_characterization R C i j hi hj

/-- witness for C9 amended: the scan window from cell (1, 0) of a 3 by 4
grid, computed by the theorem, contains the wrapped cell (0, 3). -/
theorem C9_amended_scan_window_witness :
    visitedCells 3 4 1 0 =
      ((if 0 < 1 then [1 - 1, 1, 1 + 1] else [1, 1 + 1]).flatMap fun a =>
        (if 0 < 1 then (if 0 < 0 then [0 - 1, 0, 0 + 1] else [4 - 1, 0, 1])
         else List.range (0 + 2)).map fun b => (a, b)) :=
  C9_amended_scan_window 3 4 1 0 (by decide) (by decide)

/-! The vertical offset and the builder validity classification. -/

lemma validB_congr (d : Dem) (s m : ℚ)
    (h : ∀ i j, i < d.rows → j < d.cols →
      ((-5000 : ℚ) < zval d s m i j ↔ (-5000 : ℚ) < zval d s 0 i j)) :
    ∀ i j, i < d.rows → j < d.cols → validB d s m i j = validB d s 0 i j := by
  intro i j hi hj
  unfold validB
  exact decide_eq_decide.mpr (h i j hi hj)

/-- C8 counterexample: on a flat all-zero 2 by 2 grid with z_scale 2, a mean
offset of 6000 pushes every sample below the builder's -5000 threshold, so
cell (0,0) has its slots zero-filled, while the offset-0 run populates them:
the offset changes the validity classification, contradicting the claim that
classification is identical for every offset. -/
theorem C8_counterexample_offset_changes_classification :
    faceSlot (flatDem 2 2) 2 6000 0 0 0 = zeroFace ∧
    faceSlot (flatDem 2 2) 2 0 0 0 0 ≠ zeroFace := by
  have hv1 : validB (flatDem 2 2) 2 6000 = fun _ _ => false := by
    funext i j
    simp only [validB, zval, flatDem]
    norm_num
  have hv2 : validB (flatDem 2 2) 2 0 = fun _ _ => true := by
    funext i j
    simp only [validB, zval, flatDem]
    norm_num
  constructor
  · unfold faceSlot
    rw [hv1]
    decide
  · unfold faceSlot
    rw [hv2]
    decide

/-- C8 amended: the offset is subtracted before the builder's threshold
test, so whenever no sample crosses the -5000 cutoff (the classification of
every in-range sample agrees with the offset-0 run), the face table is
identical to the offset-0 run and each floor point keeps its x and y while
its z is shifted by `m * z_scale`. -/
theorem C8_amended_offset_additive (d : Dem) (s m : ℚ)
    (h : ∀ i j, i < d.rows → j < d.cols →
      ((-5000 : ℚ) < zval d s m i j ↔ (-5000 : ℚ) < zval d s 0 i j)) :
    (∀ i j k, faceSlot d s m i j k = faceSlot d s 0 i j k) ∧
    pointsFloor d s m = (pointsFloor d s 0).map fun p => (p.1, p.2.1, p.2.2 - m * s) := by
  have hB := validB_congr d s m h
  constructor
  · intro i j k
    unfold faceSlot faceSlotV
    by_cases hin : i < d.rows - 1 ∧ j < d.cols - 1
    · have e1 := hB i j (by omega) (by omega)
      have e2 := hB (i + 1) j (by omega) (by omega)
      have e3 := hB i (j + 1) (by omega) (by omega)
      have e4 := hB (i + 1) (j + 1) (by omega) (by omega)
      simp only [if_pos hin]
      rw [e1, e2, e3, e4]
    · simp only [if_neg hin]
  · have hpt : ∀ i j, floorPoint d s m i j =
        (fun p : ℚ × ℚ × ℚ => (p.1, p.2.1, p.2.2 - m * s)) (floorPoint d s 0 i j) := by
      intro i j
      simp only [floorPoint, zval]
      refine Prod.ext rfl (Prod.ext rfl ?_)
      simp
      ring
    rw [pointsFloor, pointsFloor, List.map_flatMap]
    congr 1
    funext i
    rw [List.map_map]
    congr 1
    funext j
    exact hpt i j

/-- witness for C8 amended: offset 1 with scale 2 on a flat 2 by 2 grid
keeps the face table and shifts the floor-point z values by 2. -/
theorem C8_amended_offset_additive_witness :
    (faceSlot (flatDem 2 2) 2 1 0 0 0 = faceSlot (flatDem 2 2) 2 0 0 0 0) ∧
    pointsFloor (flatDem 2 2) 2 1 =
      (pointsFloor (flatDem 2 2) 2 0).map fun p => (p.1, p.2.1, p.2.2 - 1 * 2) := by
  have h := C8_amended_offset_additive (flatDem 2 2) 2 1 (by
    intro i j hi hj
    simp only [zval, flatDem]
    norm_num)
  exact ⟨h.1 0 0 0, h.2⟩

/-! Half-cell population of the face table. -/

lemma validB_masked_iff (d : Dem) (s m : ℚ)
    (hmask : ∀ i j, d.z i j = -9999 ∨ (-500 ≤ d.z i j ∧ d.z i j ≤ 9999))
    (hsent : ((-9999 : ℚ) - m) * s ≤ -5000)
    (hval : (-5000 : ℚ) < ((-500 : ℚ) - m) * s)
    (hs : 0 < s) :
    ∀ i j, validB d s m i j = true ↔ d.z i j ≠ -9999 := by
  intro i j
  unfold validB zval
  simp only [decide_eq_true_eq]
  rcases hmask i j with h | ⟨h1, h2⟩
  · rw [h]
    constructor
    · intro hc
      linarith
    · intro hc
      exact absurd rfl hc
  · constructor
    · intro _
      intro he
      rw [he] at h1
      linarith
    · intro _
      have hmono : ((-500 : ℚ) - m) * s ≤ (d.z i j - m) * s :=
        mul_le_mul_of_nonneg_right (by linarith) (le_of_lt hs)
      linarith

lemma faceSlotV_populated_ne (R C : Nat) (valid : Nat → Nat → Bool) (i j k : Nat)
    (hi : i < R - 1) (hj : j < C - 1) (hk : k < 16)
    (h1 : k < 8 → (valid i j && valid (i + 1) j && valid i (j + 1)) = true)
    (h2 : 8 ≤ k → (valid (i + 1) j && valid i (j + 1) && valid (i + 1) (j + 1)) = true) :
    faceSlotV R C valid i j k ≠ zeroFace := by
  have hC0 : 0 < C := by omega
  have hR0 : 0 < R := by omega
  have hBC : C ≤ (i + 1) * C := Nat.le_mul_of_pos_left C (Nat.succ_pos i)
  have hRC : 0 < R * C := Nat.mul_pos hR0 hC0
  have hin : i < R - 1 ∧ j < C - 1 := ⟨hi, hj⟩
  by_cases h8 : k < 8
  · have hcond := h1 h8
    interval_cases k <;>
      simp only [faceSlotV, if_pos hin, hcond] <;>
      simp [zeroFace, Prod.ext_iff] <;> omega
  · have hcond := h2 (by omega)
    interval_cases k <;>
      simp only [faceSlotV, if_pos hin, hcond] <;>
      simp [zeroFace, Prod.ext_iff] <;> omega

/-- C4: on a masked grid (every sample either the sentinel or in
[-500, 9999]) and for any scale and offset that keep the sentinel below and
every in-range value above the -5000 threshold (for example the defaults
z_scale = 2, offset = 0), the builder populates slots 0-7 of an interior
cell exactly when corners A, B, C are all valid (not the sentinel), and
slots 8-15 exactly when B, C, D are all valid; an invalid corner leaves that
half-cell's slots zero-filled. -/
theorem C4_half_cell_population (d : Dem) (s m : ℚ)
    (hmask : ∀ i j, d.z i j = -9999 ∨ (-500 ≤ d.z i j ∧ d.z i j ≤ 9999))
    (hsent : ((-9999 : ℚ) - m) * s ≤ -5000)
    (hval : (-5000 : ℚ) < ((-500 : ℚ) - m) * s)
    (hs : 0 < s)
    (i j : Nat) (hi : i < d.rows - 1) (hj : j < d.cols - 1) :
    (∀ k, k < 8 → (faceSlot d s m i j k ≠ zeroFace ↔
      (d.z i j ≠ -9999 ∧ d.z (i + 1) j ≠ -9999 ∧ d.z i (j + 1) ≠ -9999))) ∧
    (∀ k, 8 ≤ k → k < 16 → (faceSlot d s m i j k ≠ zeroFace ↔
      (d.z (i + 1) j ≠ -9999 ∧ d.z i (j + 1) ≠ -9999 ∧ d.z (i + 1) (j + 1) ≠ -9999))) := by
  have key := validB_masked_iff d s m hmask hsent hval hs
  have hin : i < d.rows - 1 ∧ j < d.cols - 1 := ⟨hi, hj⟩
  have c1 : (validB d s m i j && validB d s m (i + 1) j && validB d s m i (j + 1)) = true ↔
      (d.z i j ≠ -9999 ∧ d.z (i + 1) j ≠ -9999 ∧ d.z i (j + 1) ≠ -9999) := by
    simp [Bool.and_eq_true, key, and_assoc]
  have c2 : (validB d s m (i + 1) j && validB d s m i (j + 1) &&
      validB d s m (i + 1) (j + 1)) = true ↔
      (d.z (i + 1) j ≠ -9999 ∧ d.z i (j + 1) ≠ -9999 ∧ d.z (i + 1) (j + 1) ≠ -9999) := by
    simp [Bool.and_eq_true, key, and_assoc]
  constructor
  · intro k hk
    constructor
    · intro hne
      rw [← c1]
      by_contra hc
      rw [Bool.not_eq_true] at hc
      apply hne
      unfold faceSlot faceSlotV
      simp only [if_pos hin, if_pos hk, hc]
      simp
    · intro hz
      exact faceSlotV_populated_ne d.rows d.cols (validB d s m) i j k hi hj (by omega)
        (fun _ => c1.mpr hz) (fun h8 => absurd h8 (by omega))
  · intro k hk8 hk16
    constructor
    · intro hne
      rw [← c2]
      by_contra hc
      rw [Bool.not_eq_true] at hc
      apply hne
      unfold faceSlot faceSlotV
      simp only [if_pos hin, if_neg (show ¬ k < 8 by omega), if_pos hk16, hc]
      simp
    · intro hz
      exact faceSlotV_populated_ne d.rows d.cols (validB d s m) i j k hi hj (by omega)
        (fun h8 => absurd h8 (by omega)) (fun _ => c2.mpr hz)

/-- witness for C4: the masked flat 2 by 2 grid with z_scale 2 and offset 0
has both half-cells of its single interior cell populated. -/
theorem C4_half_cell_population_witness :
    (faceSlot (maskedDem (flatDem 2 2)) 2 0 0 0 0 ≠ zeroFace ↔
      ((maskedDem (flatDem 2 2)).z 0 0 ≠ -9999 ∧
        (maskedDem (flatDem 2 2)).z (0 + 1) 0 ≠ -9999 ∧
        (maskedDem (flatDem 2 2)).z 0 (0 + 1) ≠ -9999)) ∧
    (faceSlot (maskedDem (flatDem 2 2)) 2 0 0 0 8 ≠ zeroFace ↔
      ((maskedDem (flatDem 2 2)).z (0 + 1) 0 ≠ -9999 ∧
        (maskedDem (flatDem 2 2)).z 0 (0 + 1) ≠ -9999 ∧
        (maskedDem (flatDem 2 2)).z (0 + 1) (0 + 1) ≠ -9999)) := by
  have h := C4_half_cell_population (maskedDem (flatDem 2 2)) 2 0
    (by
      intro i j
      right
      show (-500 : ℚ) ≤ maskSample 0 ∧ maskSample 0 ≤ 9999
      rw [maskSample_zero]
      norm_num)
    (by norm_num) (by norm_num) (by norm_num) 0 0 (by decide) (by decide)
  exact ⟨h.1 0 (by omega), h.2 8 (by omega) (by omega)⟩

/-! Deduplication machinery: vertex encoding, the cell-relative view of
slot triples, and the equivalence of the scanned neighbourhood count with
the whole-grid occurrence count. -/

lemma relTriple_bounds (k : Nat) :
    ((relTriple k).1.1 ≤ 1 ∧ (relTriple k).1.2.1 ≤ 1 ∧ (relTriple k).1.2.2 ≤ 1) ∧
    ((relTriple k).2.1.1 ≤ 1 ∧ (relTriple k).2.1.2.1 ≤ 1 ∧ (relTriple k).2.1.2.2 ≤ 1) ∧
    ((relTriple k).2.2.1 ≤ 1 ∧ (relTriple k).2.2.2.1 ≤ 1 ∧ (relTriple k).2.2.2.2 ≤ 1) := by
  unfold relTriple
  split <;> decide

lemma decode_layer0 (R C r c : Nat) (hr : r < R) (hc : c < C) :
    decodeV R C (r * C + c) = (0, r, c) := by
  have hC0 : 0 < C := by omega
  have hy : r * C + c < R * C := by
    calc r * C + c < r * C + C := by omega
    _ = (r + 1) * C := by ring
    _ ≤ R * C := Nat.mul_le_mul_right C (by omega)
  have hy2 : (r * C + c) / C = r := by
    rw [show r * C + c = c + r * C from by ring, Nat.add_mul_div_right c r hC0,
      Nat.div_eq_of_lt hc]
    omega
  have hy3 : (r * C + c) % C = c := by
    rw [show r * C + c = c + r * C from by ring, Nat.add_mul_mod_self_right,
      Nat.mod_eq_of_lt hc]
  unfold decodeV
  rw [Nat.div_eq_of_lt hy, Nat.mod_eq_of_lt hy, hy2, hy3]

lemma decode_layer1 (R C r c : Nat) (hr : r < R) (hc : c < C) :
    decodeV R C (R * C + (r * C + c)) = (1, r, c) := by
  have hC0 : 0 < C := by omega
  have hR0 : 0 < R := by omega
  have hy : r * C + c < R * C := by
    calc r * C + c < r * C + C := by omega
    _ = (r + 1) * C := by ring
    _ ≤ R * C := Nat.mul_le_mul_right C (by omega)
  have e1 : (R * C + (r * C + c)) / (R * C) = 1 := by
    rw [show R * C + (r * C + c) = (r * C + c) + 1 * (R * C) from by ring,
      Nat.add_mul_div_right _ _ (Nat.mul_pos hR0 hC0), Nat.div_eq_of_lt hy]
  have e2 : (R * C + (r * C + c)) % (R * C) = r * C + c := by
    rw [show R * C + (r * C + c) = (r * C + c) + 1 * (R * C) from by ring,
      Nat.add_mul_mod_self_right, Nat.mod_eq_of_lt hy]
  have hy2 : (r * C + c) / C = r := by
    rw [show r * C + c = c + r * C from by ring, Nat.add_mul_div_right c r hC0,
      Nat.div_eq_of_lt hc]
    omega
  have hy3 : (r * C + c) % C = c := by
    rw [show r * C + c = c + r * C from by ring, Nat.add_mul_mod_self_right,
      Nat.mod_eq_of_lt hc]
  have e3 : (R * C + (r * C + c)) % C = c := by
    rw [show R * C + (r * C + c) = c + (R + r) * C from by ring,
      Nat.add_mul_mod_self_right, Nat.mod_eq_of_lt hc]
  unfold decodeV
  rw [e1, e2, hy2, e3]

lemma decode_encV (R C i j : Nat) (t : RelV) (hL : t.1 ≤ 1)
    (hr : i + t.2.1 < R) (hc : j + t.2.2 < C) :
    decodeV R C (encV R C i j t) = (t.1, i + t.2.1, j + t.2.2) := by
  rcases Nat.le_one_iff_eq_zero_or_eq_one.mp hL with h0 | h1
  · rw [show encV R C i j t = (i + t.2.1) * C + (j + t.2.2) from by
      unfold encV; rw [h0]; simp]
    rw [decode_layer0 R C _ _ hr hc, h0]
  · rw [show encV R C i j t = R * C + ((i + t.2.1) * C + (j + t.2.2)) from by
      unfold encV; rw [h1]; simp]
    rw [decode_layer1 R C _ _ hr hc, h1]

lemma encV_congr (R C i j a b : Nat) (t tp : RelV)
    (h1 : tp.1 = t.1) (h2 : a + tp.2.1 = i + t.2.1) (h3 : b + tp.2.2 = j + t.2.2) :
    encV R C a b tp = encV R C i j t := by
  unfold encV
  rw [h1, h2, h3]

lemma encV_inj (R C i j a b : Nat) (t tp : RelV)
    (hL : t.1 ≤ 1) (hLp : tp.1 ≤ 1)
    (hr : i + t.2.1 < R) (hc : j + t.2.2 < C)
    (hrp : a + tp.2.1 < R) (hcp : b + tp.2.2 < C)
    (h : encV R C a b tp = encV R C i j t) :
    tp.1 = t.1 ∧ a + tp.2.1 = i + t.2.1 ∧ b + tp.2.2 = j + t.2.2 := by
  have hd := congrArg (decodeV R C) h
  rw [decode_encV R C i j t hL hr hc, decode_encV R C a b tp hLp hrp hcp] at hd
  simp only [Prod.mk.injEq] at hd
  exact ⟨hd.1, hd.2.1, hd.2.2⟩

set_option maxHeartbeats 1000000 in
lemma faceSlotV_eq (R C : Nat) (valid : Nat → Nat → Bool) (i j k : Nat)
    (hin : i < R - 1 ∧ j < C - 1) (hk : k < 16) :
    faceSlotV R C valid i j k =
      if k < 8 then
        (if valid i j && valid (i + 1) j && valid i (j + 1) then encTriple R C i j k
         else zeroFace)
      else
        (if valid (i + 1) j && valid i (j + 1) && valid (i + 1) (j + 1) then encTriple R C i j k
         else zeroFace) := by
  interval_cases k <;>
    simp [faceSlotV, if_pos hin, encTriple, relTriple, encV]

lemma faceSlotV_ne_zero_struct (R C : Nat) (valid : Nat → Nat → Bool) (i j k : Nat)
    (h : faceSlotV R C valid i j k ≠ zeroFace) :
    (i < R - 1 ∧ j < C - 1) ∧ k < 16 ∧ faceSlotV R C valid i j k = encTriple R C i j k := by
  by_cases hin : i < R - 1 ∧ j < C - 1
  · by_cases hk : k < 16
    · refine ⟨hin, hk, ?_⟩
      rw [faceSlotV_eq R C valid i j k hin hk] at h ⊢
      by_cases h8 : k < 8
      · rw [if_pos h8] at h ⊢
        by_cases hc : (valid i j && valid (i + 1) j && valid i (j + 1)) = true
        · rw [if_pos hc]
        · rw [if_neg hc] at h
          exact absurd rfl h
      · rw [if_neg h8] at h ⊢
        by_cases hc : (valid (i + 1) j && valid i (j + 1) && valid (i + 1) (j + 1)) = true
        · rw [if_pos hc]
        · rw [if_neg hc] at h
          exact absurd rfl h
    · exfalso
      apply h
      unfold faceSlotV
      rw [if_pos hin, if_neg (show ¬ k < 8 by omega), if_neg (show ¬ k < 16 by omega)]
  · exfalso
    apply h
    unfold faceSlotV
    rw [if_neg hin]

lemma relTriple_pairwise_ne (k : Nat) :
    (relTriple k).1 ≠ (relTriple k).2.1 ∧ (relTriple k).1 ≠ (relTriple k).2.2 ∧
      (relTriple k).2.1 ≠ (relTriple k).2.2 := by
  unfold relTriple
  split <;> decide

lemma encTriple_comp_ne (R C i j : Nat) (t tp : RelV)
    (hL : t.1 ≤ 1) (hLp : tp.1 ≤ 1)
    (hr : i + t.2.1 < R) (hc : j + t.2.2 < C)
    (hrp : i + tp.2.1 < R) (hcp : j + tp.2.2 < C)
    (hne : tp ≠ t) : encV R C i j tp ≠ encV R C i j t := by
  intro h
  obtain ⟨e1, e2, e3⟩ := encV_inj R C i j i j t tp hL hLp hr hc hrp hcp h
  apply hne
  have : tp.2.1 = t.2.1 := by omega
  have : tp.2.2 = t.2.2 := by omega
  exact Prod.ext e1 (Prod.ext (by omega) (by omega))

lemma encTriple_distinct (R C i j k : Nat) (hi : i + 1 < R) (hj : j + 1 < C) :
    (encTriple R C i j k).1 ≠ (encTriple R C i j k).2.1 ∧
    (encTriple R C i j k).1 ≠ (encTriple R C i j k).2.2 ∧
    (encTriple R C i j k).2.1 ≠ (encTriple R C i j k).2.2 := by
  obtain ⟨⟨b1, b2, b3⟩, ⟨b4, b5, b6⟩, ⟨b7, b8, b9⟩⟩ := relTriple_bounds k
  obtain ⟨n1, n2, n3⟩ := relTriple_pairwise_ne k
  refine ⟨?_, ?_, ?_⟩
  · exact encTriple_comp_ne R C i j _ _ b4 b1 (by omega) (by omega) (by omega) (by omega) n1
  · exact encTriple_comp_ne R C i j _ _ b7 b1 (by omega) (by omega) (by omega) (by omega) n2
  · exact encTriple_comp_ne R C i j _ _ b7 b4 (by omega) (by omega) (by omega) (by omega) n3

lemma permsOf_nodup (f : Face) (h12 : f.1 ≠ f.2.1) (h13 : f.1 ≠ f.2.2)
    (h23 : f.2.1 ≠ f.2.2) : (permsOf f).Nodup := by
  simp [permsOf, List.nodup_cons, Prod.ext_iff]
  tauto

lemma zeroFace_not_mem_permsOf (f : Face) (hf : f ≠ zeroFace) : zeroFace ∉ permsOf f := by
  intro h
  apply hf
  simp [permsOf, zeroFace, Prod.ext_iff] at h ⊢
  tauto

lemma list_sum_map_add {β : Type} (l : List β) (f g : β → Nat) :
    (l.map fun y => f y + g y).sum = (l.map f).sum + (l.map g).sum := by
  induction l with
  | nil => simp
  | cons a t ih => simp [ih]; omega

lemma filter_length_eq_sum_indicator {β : Type} (l : List β) (p : β → Bool) :
    (l.filter p).length = (l.map fun y => if p y then 1 else 0).sum := by
  induction l with
  | nil => simp
  | cons a t ih =>
      by_cases h : p a = true
      · simp [List.filter_cons, h, ih]
        omega
      · simp [List.filter_cons, h, ih]

lemma exchange_count {α β : Type} [DecidableEq α] (as : List α) (bs : List β) (g : β → α) :
    (as.map fun x => (bs.filter fun y => decide (g y = x)).length).sum
      = (bs.map fun y => as.countP fun x => decide (x = g y)).sum := by
  induction as with
  | nil => simp
  | cons a t ih =>
      simp only [List.map_cons, List.sum_cons, ih]
      rw [filter_length_eq_sum_indicator]
      have step : (bs.map fun y => (a :: t).countP fun x => decide (x = g y)).sum =
          (bs.map fun y => (if g y = a then 1 else 0) +
            (t.countP fun x => decide (x = g y))).sum := by
        refine congrArg List.sum (List.map_congr_left fun y _ => ?_)
        rw [List.countP_cons]
        by_cases h : g y = a
        · simp [h]
          omega
        · simp [h, Ne.symm h]
      rw [step, list_sum_map_add]
      have hh : (bs.map fun y => if g y = a then 1 else 0).sum =
          (bs.map fun y => if decide (g y = a) = true then 1 else 0).sum := by
        refine congrArg List.sum (List.map_congr_left fun y _ => ?_)
        by_cases h : g y = a <;> simp [h]
      omega

lemma countP_eq_ite_mem {α : Type} [DecidableEq α] (l : List α) (x : α) (h : l.Nodup) :
    (l.countP fun y => decide (y = x)) = if x ∈ l then 1 else 0 := by
  induction l with
  | nil => simp
  | cons a t ih =>
      rcases List.nodup_cons.mp h with ⟨hna, hnt⟩
      rw [List.countP_cons]
      by_cases hxa : a = x
      · subst hxa
        have hzero : (t.countP fun y => decide (y = a)) = 0 := by
          rw [List.countP_eq_zero]
          intro y hy
          simp only [decide_eq_true_eq]
          intro he
          exact hna (he ▸ hy)
        simp [hzero]
      · rw [ih hnt]
        by_cases hxt : x ∈ t
        · simp [hxt, List.mem_cons, hxa]
        · simp [hxt, List.mem_cons, hxa, Ne.symm hxa]

lemma cellMatchCountV_eq_filter (R C : Nat) (valid : Nat → Nat → Bool) (f : Face) (a b : Nat)
    (h12 : f.1 ≠ f.2.1) (h13 : f.1 ≠ f.2.2) (h23 : f.2.1 ≠ f.2.2) :
    cellMatchCountV R C valid f a b =
      ((List.range 16).filter fun l =>
        decide (faceSlotV R C valid a b l ∈ permsOf f)).length := by
  unfold cellMatchCountV
  rw [exchange_count, filter_length_eq_sum_indicator]
  refine congrArg List.sum (List.map_congr_left fun l _ => ?_)
  rw [countP_eq_ite_mem _ _ (permsOf_nodup f h12 h13 h23)]
  by_cases hm : faceSlotV R C valid a b l ∈ permsOf f <;> simp [hm]

lemma mem_perms_iff_rel (R C i j a b k kp u v : Nat)
    (hi : i + 1 < R) (hj : j + 1 < C) (ha : a + 1 < R) (hb : b + 1 < C)
    (hu : a + 1 = i + u) (hv : b + 1 = j + v) :
    (encTriple R C a b kp ∈ permsOf (encTriple R C i j k)) ↔ relMatchB k kp u v = true := by
  obtain ⟨⟨c1, c2, c3⟩, ⟨c4, c5, c6⟩, ⟨c7, c8, c9⟩⟩ := relTriple_bounds k
  obtain ⟨⟨d1, d2, d3⟩, ⟨d4, d5, d6⟩, ⟨d7, d8, d9⟩⟩ := relTriple_bounds kp
  have comp : ∀ t tp : RelV, t.1 ≤ 1 → t.2.1 ≤ 1 → t.2.2 ≤ 1 →
      tp.1 ≤ 1 → tp.2.1 ≤ 1 → tp.2.2 ≤ 1 →
      ((encV R C a b tp = encV R C i j t) ↔ shiftRel u v tp = shiftRel 1 1 t) := by
    intro t tp hL hr hc hLp hrp hcp
    constructor
    · intro h
      obtain ⟨e1, e2, e3⟩ := encV_inj R C i j a b t tp hL hLp
        (by omega) (by omega) (by omega) (by omega) h
      unfold shiftRel
      refine Prod.ext e1 (Prod.ext ?_ ?_)
      · show u + tp.2.1 = 1 + t.2.1
        omega
      · show v + tp.2.2 = 1 + t.2.2
        omega
    · intro h
      have f1 := congrArg (fun p : RelV => p.1) h
      have f2 := congrArg (fun p : RelV => p.2.1) h
      have f3 := congrArg (fun p : RelV => p.2.2) h
      simp only [shiftRel] at f1 f2 f3
      exact encV_congr R C i j a b t tp f1 (by omega) (by omega)
  unfold relMatchB
  rw [decide_eq_true_eq]
  simp only [permsOf, permsOfR, encTriple, relFace, List.mem_cons, List.not_mem_nil,
    or_false, Prod.mk.injEq]
  exact or_congr
    (and_congr (comp _ _ c1 c2 c3 d1 d2 d3)
      (and_congr (comp _ _ c4 c5 c6 d4 d5 d6) (comp _ _ c7 c8 c9 d7 d8 d9)))
    (or_congr
      (and_congr (comp _ _ c1 c2 c3 d1 d2 d3)
        (and_congr (comp _ _ c7 c8 c9 d4 d5 d6) (comp _ _ c4 c5 c6 d7 d8 d9)))
      (or_congr
        (and_congr (comp _ _ c4 c5 c6 d1 d2 d3)
          (and_congr (comp _ _ c1 c2 c3 d4 d5 d6) (comp _ _ c7 c8 c9 d7 d8 d9)))
        (or_congr
          (and_congr (comp _ _ c4 c5 c6 d1 d2 d3)
            (and_congr (comp _ _ c7 c8 c9 d4 d5 d6) (comp _ _ c1 c2 c3 d7 d8 d9)))
          (or_congr
            (and_congr (comp _ _ c7 c8 c9 d1 d2 d3)
              (and_congr (comp _ _ c4 c5 c6 d4 d5 d6) (comp _ _ c1 c2 c3 d7 d8 d9)))
            (and_congr (comp _ _ c7 c8 c9 d1 d2 d3)
              (and_congr (comp _ _ c1 c2 c3 d4 d5 d6) (comp _ _ c4 c5 c6 d7 d8 d9)))))))

lemma mem_perms_offset_bound (R C i j a b k kp : Nat)
    (hi : i + 1 < R) (hj : j + 1 < C) (ha : a + 1 < R) (hb : b + 1 < C)
    (h : encTriple R C a b kp ∈ permsOf (encTriple R C i j k)) :
    i ≤ a + 1 ∧ a ≤ i + 1 ∧ j ≤ b + 1 ∧ b ≤ j + 1 := by
  obtain ⟨⟨c1, c2, c3⟩, ⟨c4, c5, c6⟩, ⟨c7, c8, c9⟩⟩ := relTriple_bounds k
  obtain ⟨⟨d1, d2, d3⟩, ⟨d4, d5, d6⟩, ⟨d7, d8, d9⟩⟩ := relTriple_bounds kp
  have get : ∀ t tp : RelV, t.1 ≤ 1 → t.2.1 ≤ 1 → t.2.2 ≤ 1 →
      tp.1 ≤ 1 → tp.2.1 ≤ 1 → tp.2.2 ≤ 1 →
      encV R C a b tp = encV R C i j t →
      i ≤ a + 1 ∧ a ≤ i + 1 ∧ j ≤ b + 1 ∧ b ≤ j + 1 := by
    intro t tp hL hr hc hLp hrp hcp he
    obtain ⟨e1, e2, e3⟩ := encV_inj R C i j a b t tp hL hLp
      (by omega) (by omega) (by omega) (by omega) he
    omega
  simp only [permsOf, encTriple, List.mem_cons, List.not_mem_nil, or_false,
    Prod.mk.injEq] at h
  rcases h with ⟨h1, _⟩ | ⟨h1, _⟩ | ⟨h1, _⟩ | ⟨h1, _⟩ | ⟨h1, _⟩ | ⟨h1, _⟩
  · exact get _ _ c1 c2 c3 d1 d2 d3 h1
  · exact get _ _ c1 c2 c3 d1 d2 d3 h1
  · exact get _ _ c4 c5 c6 d1 d2 d3 h1
  · exact get _ _ c4 c5 c6 d1 d2 d3 h1
  · exact get _ _ c7 c8 c9 d1 d2 d3 h1
  · exact get _ _ c7 c8 c9 d1 d2 d3 h1

lemma encTriple_ne_zeroFace (R C i j k : Nat) (hi : i + 1 < R) (hj : j + 1 < C) :
    encTriple R C i j k ≠ zeroFace := by
  obtain ⟨n1, _, _⟩ := encTriple_distinct R C i j k hi hj
  intro h
  apply n1
  have h1 : (encTriple R C i j k).1 = 0 := by rw [h]; rfl
  have h2 : (encTriple R C i j k).2.1 = 0 := by rw [h]; rfl
  rw [h1, h2]

lemma cellMatch_ne_zero_bounds (R C : Nat) (valid : Nat → Nat → Bool) (i j k a b : Nat)
    (hi : i + 1 < R) (hj : j + 1 < C)
    (h : cellMatchCountV R C valid (encTriple R C i j k) a b ≠ 0) :
    (a < R - 1 ∧ b < C - 1) ∧ i ≤ a + 1 ∧ a ≤ i + 1 ∧ j ≤ b + 1 ∧ b ≤ j + 1 := by
  obtain ⟨d1, d2, d3⟩ := encTriple_distinct R C i j k hi hj
  rw [cellMatchCountV_eq_filter R C valid _ a b d1 d2 d3] at h
  have hne : ((List.range 16).filter fun l =>
      decide (faceSlotV R C valid a b l ∈ permsOf (encTriple R C i j k))) ≠ [] := by
    intro hcon
    rw [hcon] at h
    exact h rfl
  obtain ⟨l, hl⟩ := List.exists_mem_of_ne_nil _ hne
  have hmem := List.mem_filter.mp hl
  have hslot : faceSlotV R C valid a b l ∈ permsOf (encTriple R C i j k) := by
    simpa using hmem.2
  have hzne : faceSlotV R C valid a b l ≠ zeroFace := by
    intro hz
    apply zeroFace_not_mem_permsOf _ (encTriple_ne_zeroFace R C i j k hi hj)
    rw [← hz]
    exact hslot
  obtain ⟨hin, hk16, heq⟩ := faceSlotV_ne_zero_struct R C valid a b l hzne
  rw [heq] at hslot
  have hb := mem_perms_offset_bound R C i j a b k l hi hj (by omega) (by omega) hslot
  exact ⟨hin, hb⟩

lemma count_cons_ite (x a : Nat) (l : List Nat) :
    (a :: l).count x = l.count x + if x = a then 1 else 0 := by
  rw [List.count_cons]
  by_cases h : a = x
  · simp [h]
  · simp [h]
    omega

lemma count_range_ite (x n : Nat) : (List.range n).count x = if x < n then 1 else 0 := by
  by_cases h : x < n
  · rw [List.count_eq_one_of_mem (List.nodup_range n) (List.mem_range.mpr h)]
    simp [h]
  · rw [List.count_eq_zero_of_not_mem (fun hc => h (List.mem_range.mp hc))]
    simp [h]

lemma list_count_sum_eq (l : List Nat) (n : Nat) (g : Nat → Nat) (hl : ∀ x ∈ l, x < n) :
    (l.map g).sum = ∑ x ∈ Finset.range n, l.count x * g x := by
  induction l with
  | nil => simp
  | cons a t ih =>
      have ha : a < n := hl a (List.mem_cons_self a t)
      have ht : ∀ x ∈ t, x < n := fun x hx => hl x (List.mem_cons_of_mem a hx)
      simp only [List.map_cons, List.sum_cons, ih ht]
      have hcongr : ∀ x ∈ Finset.range n,
          (a :: t).count x * g x = t.count x * g x + (if x = a then g x else 0) := by
        intro x _
        rw [count_cons_ite]
        by_cases hxa : x = a
        · simp [hxa]
          ring
        · simp [hxa]
      rw [Finset.sum_congr rfl hcongr, Finset.sum_add_distrib]
      have : (∑ x ∈ Finset.range n, if x = a then g x else 0) = g a := by
        rw [Finset.sum_ite_eq' (Finset.range n) a g]
        simp [Finset.mem_range, ha]
      omega

lemma list_sum_eq_range_sum_of_support (l : List Nat) (n : Nat) (g : Nat → Nat)
    (hl : ∀ x ∈ l, x < n)
    (hcnt : ∀ x, x < n → g x ≠ 0 → l.count x = 1) :
    (l.map g).sum = ∑ x ∈ Finset.range n, g x := by
  rw [list_count_sum_eq l n g hl]
  refine Finset.sum_congr rfl fun x hx => ?_
  rw [Finset.mem_range] at hx
  by_cases hz : g x = 0
  · simp [hz]
  · rw [hcnt x hx hz, one_mul]

lemma flatMap_pairs_sum (rows cols : List Nat) (g : Nat → Nat → Nat) :
    ((rows.flatMap fun a => cols.map fun b => (a, b)).map fun ab => g ab.1 ab.2).sum
      = (rows.map fun a => (cols.map fun b => g a b).sum).sum := by
  rw [List.map_flatMap, list_sum_flatMap]
  refine congrArg List.sum (List.map_congr_left fun a _ => ?_)
  rw [List.map_map]
  rfl

lemma neighbour_eq_global (R C : Nat) (valid : Nat → Nat → Bool) (i j k : Nat)
    (hiR : i < R - 1) (hjC : j < C - 1) :
    faceNeighbourCountV R C valid i j (encTriple R C i j k)
      = faceGlobalCountV R C valid (encTriple R C i j k) := by
  have hi : i + 1 < R := by omega
  have hj : j + 1 < C := by omega
  have hbnd : ∀ a b : Nat, cellMatchCountV R C valid (encTriple R C i j k) a b ≠ 0 →
      (a < R - 1 ∧ b < C - 1) ∧ i ≤ a + 1 ∧ a ≤ i + 1 ∧ j ≤ b + 1 ∧ b ≤ j + 1 :=
    fun a b h => cellMatch_ne_zero_bounds R C valid i j k a b hi hj h
  have hglob : faceGlobalCountV R C valid (encTriple R C i j k)
      = ∑ a ∈ Finset.range R, ∑ b ∈ Finset.range C,
          cellMatchCountV R C valid (encTriple R C i j k) a b := by
    unfold faceGlobalCountV
    rw [list_map_range_sum]
    exact Finset.sum_congr rfl fun a _ => by rw [list_map_range_sum]
  rw [hglob]
  unfold faceNeighbourCountV
  rw [visitedCells_characterization R C i j hiR hjC, flatMap_pairs_sum]
  have hinner : ∀ a : Nat,
      (((if 0 < i then (if 0 < j then [j - 1, j, j + 1] else [C - 1, 0, 1])
          else List.range (j + 2))).map fun b =>
        cellMatchCountV R C valid (encTriple R C i j k) a b).sum
        = ∑ b ∈ Finset.range C, cellMatchCountV R C valid (encTriple R C i j k) a b := by
    intro a
    apply list_sum_eq_range_sum_of_support
    · intro x hx
      by_cases h0i : 0 < i
      · by_cases h0j : 0 < j
        · simp only [if_pos h0i, if_pos h0j, List.mem_cons, List.not_mem_nil, or_false] at hx
          omega
        · simp only [if_pos h0i, if_neg h0j, List.mem_cons, List.not_mem_nil, or_false] at hx
          omega
      · simp only [if_neg h0i, List.mem_range] at hx
        omega
    · intro x hxC hgx
      obtain ⟨⟨_, hbC⟩, _, _, hb1, hb2⟩ := hbnd a x hgx
      by_cases h0i : 0 < i
      · by_cases h0j : 0 < j
        · simp only [if_pos h0i, if_pos h0j]
          rw [count_cons_ite, count_cons_ite, count_cons_ite, List.count_nil]
          split_ifs <;> omega
        · simp only [if_pos h0i, if_neg h0j]
          rw [count_cons_ite, count_cons_ite, count_cons_ite, List.count_nil]
          split_ifs <;> omega
      · simp only [if_neg h0i]
        rw [count_range_ite]
        split_ifs <;> omega
  calc ((if 0 < i then [i - 1, i, i + 1] else [i, i + 1]).map fun a =>
        (((if 0 < i then (if 0 < j then [j - 1, j, j + 1] else [C - 1, 0, 1])
          else List.range (j + 2))).map fun b =>
          cellMatchCountV R C valid (encTriple R C i j k) a b).sum).sum
      = ((if 0 < i then [i - 1, i, i + 1] else [i, i + 1]).map fun a =>
          ∑ b ∈ Finset.range C, cellMatchCountV R C valid (encTriple R C i j k) a b).sum :=
        congrArg List.sum (List.map_congr_left fun a _ => hinner a)
    _ = ∑ a ∈ Finset.range R, ∑ b ∈ Finset.range C,
          cellMatchCountV R C valid (encTriple R C i j k) a b := by
        apply list_sum_eq_range_sum_of_support
        · intro a ha
          by_cases h0i : 0 < i
          · simp only [if_pos h0i, List.mem_cons, List.not_mem_nil, or_false] at ha
            omega
          · simp only [if_neg h0i, List.mem_cons, List.not_mem_nil, or_false] at ha
            omega
        · intro a haR hsum
          have hex : ∃ b, b < C ∧ cellMatchCountV R C valid (encTriple R C i j k) a b ≠ 0 := by
            by_contra hall
            push_neg at hall
            apply hsum
            exact Finset.sum_eq_zero fun b hb => hall b (Finset.mem_range.mp hb)
          obtain ⟨b, hbC2, hgb⟩ := hex
          obtain ⟨⟨haR2, _⟩, ha1, ha2, _, _⟩ := hbnd a b hgb
          by_cases h0i : 0 < i
          · simp only [if_pos h0i]
            rw [count_cons_ite, count_cons_ite, count_cons_ite, List.count_nil]
            split_ifs <;> omega
          · simp only [if_neg h0i]
            rw [count_cons_ite, count_cons_ite, List.count_nil]
            split_ifs <;> omega

lemma clean_eq_dedupSpecV (R C : Nat) (valid : Nat → Nat → Bool) :
    polyhedron_faces_cleanV R C valid = dedupSpecV R C valid := by
  unfold polyhedron_faces_cleanV dedupSpecV
  refine congrArg (List.flatMap (List.range R)) (funext fun i => ?_)
  refine congrArg (List.flatMap (List.range C)) (funext fun j => ?_)
  refine congrArg (List.filterMap · (List.range 16)) (funext fun k => ?_)
  by_cases hf : faceSlotV R C valid i j k = zeroFace
  · simp [hf]
  · obtain ⟨hin, hk16, heq⟩ := faceSlotV_ne_zero_struct R C valid i j k hf
    have hcnt : faceNeighbourCountV R C valid i j (faceSlotV R C valid i j k)
        = faceGlobalCountV R C valid (faceSlotV R C valid i j k) := by
      rw [heq]
      exact neighbour_eq_global R C valid i j k hin.1 hin.2
    simp only [hcnt]

/-- C2: for every grid, scale and offset, the deduplicated face list equals
the spec-side description: the nonzero candidate faces, in cell/slot scan
order, whose total number of occurrences across all cells' slot sets
(counting all six vertex-order permutations as equal) is exactly one. -/
theorem C2_dedup_keeps_global_singletons (d : Dem) (s m : ℚ) :
    polyhedron_faces_clean d s m = dedupSpec d s m := by
  unfold polyhedron_faces_clean dedupSpec
  exact clean_eq_dedupSpecV d.rows d.cols (validB d s m)

/-! Survivor characterization and face count laws on fully valid grids. -/

lemma relCount_eq_table :
    ∀ k, k < 16 → ∀ u, u < 3 → ∀ v, v < 3 → relCount k u v = relCountTable k u v := by
  decide

lemma slot_full (R C : Nat) (valid : Nat → Nat → Bool)
    (hv : ∀ a b, a < R → b < C → valid a b = true) (a b kp : Nat)
    (ha : a < R - 1) (hb : b < C - 1) (hkp : kp < 16) :
    faceSlotV R C valid a b kp = encTriple R C a b kp := by
  rw [faceSlotV_eq R C valid a b kp ⟨ha, hb⟩ hkp]
  have v1 : valid a b = true := hv a b (by omega) (by omega)
  have v2 : valid (a + 1) b = true := hv (a + 1) b (by omega) (by omega)
  have v3 : valid a (b + 1) = true := hv a (b + 1) (by omega) (by omega)
  have v4 : valid (a + 1) (b + 1) = true := hv (a + 1) (b + 1) (by omega) (by omega)
  by_cases h8 : kp < 8 <;> simp [h8, v1, v2, v3, v4]

lemma cmc_full (R C : Nat) (valid : Nat → Nat → Bool)
    (hv : ∀ a b, a < R → b < C → valid a b = true)
    (i j k a b u v : Nat) (hiR : i < R - 1) (hjC : j < C - 1) (hk : k < 16)
    (haR : a < R - 1) (hbC : b < C - 1)
    (hu : a + 1 = i + u) (hv2 : b + 1 = j + v) :
    cellMatchCountV R C valid (encTriple R C i j k) a b = relCount k u v := by
  obtain ⟨d1, d2, d3⟩ := encTriple_distinct R C i j k (by omega) (by omega)
  rw [cellMatchCountV_eq_filter R C valid _ a b d1 d2 d3]
  unfold relCount
  congr 1
  apply List.filter_congr
  intro l hl
  rw [List.mem_range] at hl
  rw [slot_full R C valid hv a b l haR hbC hl]
  have hbr := mem_perms_iff_rel R C i j a b k l u v (by omega) (by omega) (by omega) (by omega)
    hu hv2
  by_cases hm : encTriple R C a b l ∈ permsOf (encTriple R C i j k)
  · simp [hm, hbr.mp hm]
  · have hfalse : relMatchB k l u v = false := by
      rw [← Bool.not_eq_true]
      intro hc
      exact hm (hbr.mpr hc)
    simp [hm, hfalse]

lemma grid_sum_support (R C : Nat) (g : Nat → Nat → Nat) (F : Finset (Nat × Nat))
    (hz : ∀ a b, a < R → b < C → (a, b) ∉ F → g a b = 0) :
    (∑ a ∈ Finset.range R, ∑ b ∈ Finset.range C, g a b)
      = ∑ p ∈ F, if p.1 < R ∧ p.2 < C then g p.1 p.2 else 0 := by
  rw [← Finset.sum_product']
  have h1 : ∑ x ∈ Finset.range R ×ˢ Finset.range C, g x.1 x.2
      = ∑ x ∈ (Finset.range R ×ˢ Finset.range C) ∩ F, g x.1 x.2 := by
    refine (Finset.sum_subset Finset.inter_subset_left fun x hx hnx => ?_).symm
    have hxF : x ∉ F := fun hc => hnx (Finset.mem_inter.mpr ⟨hx, hc⟩)
    obtain ⟨hx1, hx2⟩ := Finset.mem_product.mp hx
    exact hz x.1 x.2 (Finset.mem_range.mp hx1) (Finset.mem_range.mp hx2) hxF
  rw [h1, Finset.inter_comm, ← Finset.filter_mem_eq_inter, Finset.sum_filter]
  refine Finset.sum_congr rfl fun p _ => ?_
  by_cases hp : p ∈ Finset.range R ×ˢ Finset.range C
  · obtain ⟨hp1, hp2⟩ := Finset.mem_product.mp hp
    rw [if_pos hp, if_pos ⟨Finset.mem_range.mp hp1, Finset.mem_range.mp hp2⟩]
  · rw [if_neg hp, if_neg]
    intro hc
    exact hp (Finset.mem_product.mpr ⟨Finset.mem_range.mpr hc.1, Finset.mem_range.mpr hc.2⟩)

lemma faceGlobalCountV_eq_sum (R C : Nat) (valid : Nat → Nat → Bool) (f : Face) :
    faceGlobalCountV R C valid f
      = ∑ a ∈ Finset.range R, ∑ b ∈ Finset.range C, cellMatchCountV R C valid f a b := by
  unfold faceGlobalCountV
  rw [list_map_range_sum]
  exact Finset.sum_congr rfl fun a _ => by rw [list_map_range_sum]

lemma cmc_zero_of_far (R C : Nat) (valid : Nat → Nat → Bool) (i j k : Nat)
    (hiR : i < R - 1) (hjC : j < C - 1) (a b : Nat)
    (h : ¬ ((a < R - 1 ∧ b < C - 1) ∧ i ≤ a + 1 ∧ a ≤ i + 1 ∧ j ≤ b + 1 ∧ b ≤ j + 1)) :
    cellMatchCountV R C valid (encTriple R C i j k) a b = 0 := by
  by_contra hne
  exact h (cellMatch_ne_zero_bounds R C valid i j k a b (by omega) (by omega) hne)

lemma global_self_only (R C : Nat) (valid : Nat → Nat → Bool)
    (hv : ∀ a b, a < R → b < C → valid a b = true) (i j k cval : Nat)
    (hiR : i < R - 1) (hjC : j < C - 1) (hk : k < 16)
    (htab1 : relCountTable k 1 1 = cval)
    (honly : ∀ u v, u < 3 → v < 3 → relCountTable k u v ≠ 0 → (u = 1 ∧ v = 1)) :
    faceGlobalCountV R C valid (encTriple R C i j k) = cval := by
  rw [faceGlobalCountV_eq_sum]
  rw [grid_sum_support R C _ ({(i, j)} : Finset (Nat × Nat)) ?hz]
  case hz =>
    intro a b haR hbC hnF
    simp only [Finset.mem_singleton, Prod.ext_iff, not_and] at hnF
    by_contra hne
    obtain ⟨⟨haI, hbI⟩, w1, w2, w3, w4⟩ :=
      cellMatch_ne_zero_bounds R C valid i j k a b (by omega) (by omega) hne
    have hu : a + 1 = i + (a + 1 - i) := by omega
    have hvv : b + 1 = j + (b + 1 - j) := by omega
    rw [cmc_full R C valid hv i j k a b _ _ hiR hjC hk haI hbI hu hvv,
      relCount_eq_table k hk _ (by omega) _ (by omega)] at hne
    obtain ⟨e1, e2⟩ := honly _ _ (by omega) (by omega) hne
    exact hnF (by omega) (by omega)
  rw [Finset.sum_singleton]
  rw [if_pos ⟨(by omega : i < R), (by omega : j < C)⟩]
  rw [cmc_full R C valid hv i j k i j 1 1 hiR hjC hk hiR hjC (by omega) (by omega),
    relCount_eq_table k hk 1 (by omega) 1 (by omega), htab1]

lemma global_two_cells (R C : Nat) (valid : Nat → Nat → Bool)
    (hv : ∀ a b, a < R → b < C → valid a b = true) (i j k pu pv : Nat)
    (hiR : i < R - 1) (hjC : j < C - 1) (hk : k < 16)
    (hpu : pu < 3) (hpv : pv < 3)
    (htab1 : relCountTable k 1 1 = 1)
    (htabp : relCountTable k pu pv = 1)
    (hne11 : ¬ (pu = 1 ∧ pv = 1))
    (honly : ∀ u v, u < 3 → v < 3 → relCountTable k u v ≠ 0 →
      ((u = 1 ∧ v = 1) ∨ (u = pu ∧ v = pv))) :
    faceGlobalCountV R C valid (encTriple R C i j k)
      = 1 + (if 1 ≤ i + pu ∧ 1 ≤ j + pv ∧ i + pu - 1 < R - 1 ∧ j + pv - 1 < C - 1
             then 1 else 0) := by
  rw [faceGlobalCountV_eq_sum]
  rw [grid_sum_support R C _ ({(i, j), (i + pu - 1, j + pv - 1)} : Finset (Nat × Nat)) ?hz]
  case hz =>
    intro a b haR hbC hnF
    simp only [Finset.mem_insert, Finset.mem_singleton, Prod.ext_iff, not_or, not_and] at hnF
    obtain ⟨hnF1, hnF2⟩ := hnF
    by_contra hne
    obtain ⟨⟨haI, hbI⟩, w1, w2, w3, w4⟩ :=
      cellMatch_ne_zero_bounds R C valid i j k a b (by omega) (by omega) hne
    have hu : a + 1 = i + (a + 1 - i) := by omega
    have hvv : b + 1 = j + (b + 1 - j) := by omega
    rw [cmc_full R C valid hv i j k a b _ _ hiR hjC hk haI hbI hu hvv,
      relCount_eq_table k hk _ (by omega) _ (by omega)] at hne
    rcases honly _ _ (by omega) (by omega) hne with ⟨e1, e2⟩ | ⟨e1, e2⟩
    · exact hnF1 (by omega) (by omega)
    · exact hnF2 (by omega) (by omega)
  by_cases hcol : ((i + pu - 1, j + pv - 1) : Nat × Nat) = (i, j)
  · rw [hcol, Finset.insert_eq_self.mpr (Finset.mem_singleton_self _), Finset.sum_singleton]
    rw [if_pos ⟨(by omega : i < R), (by omega : j < C)⟩]
    rw [cmc_full R C valid hv i j k i j 1 1 hiR hjC hk hiR hjC (by omega) (by omega),
      relCount_eq_table k hk 1 (by omega) 1 (by omega), htab1]
    simp only [Prod.ext_iff] at hcol
    rw [if_neg (by omega)]
  · rw [Finset.sum_pair (fun h => hcol h.symm)]
    rw [if_pos ⟨(by omega : i < R), (by omega : j < C)⟩]
    rw [cmc_full R C valid hv i j k i j 1 1 hiR hjC hk hiR hjC (by omega) (by omega),
      relCount_eq_table k hk 1 (by omega) 1 (by omega), htab1]
    by_cases hpart : 1 ≤ i + pu ∧ 1 ≤ j + pv ∧ i + pu - 1 < R - 1 ∧ j + pv - 1 < C - 1
    · rw [if_pos hpart, if_pos ⟨(by omega : i + pu - 1 < R), (by omega : j + pv - 1 < C)⟩]
      rw [cmc_full R C valid hv i j k (i + pu - 1) (j + pv - 1) pu pv hiR hjC hk
        hpart.2.2.1 hpart.2.2.2 (by omega) (by omega),
        relCount_eq_table k hk pu hpu pv hpv, htabp]
    · rw [if_neg hpart]
      have hterm : (if ((i + pu - 1 : Nat) < R ∧ (j + pv - 1 : Nat) < C) then
          cellMatchCountV R C valid (encTriple R C i j k) (i + pu - 1) (j + pv - 1)
          else 0) = 0 := by
        by_cases hg : (i + pu - 1 : Nat) < R ∧ (j + pv - 1 : Nat) < C
        · rw [if_pos hg]
          by_cases hint : (i + pu - 1 : Nat) < R - 1 ∧ (j + pv - 1 : Nat) < C - 1
          · have hu2 : (i + pu - 1) + 1 = i + ((i + pu - 1) + 1 - i) := by omega
            have hv2 : (j + pv - 1) + 1 = j + ((j + pv - 1) + 1 - j) := by omega
            rw [cmc_full R C valid hv i j k _ _ _ _ hiR hjC hk hint.1 hint.2 hu2 hv2,
              relCount_eq_table k hk _ (by omega) _ (by omega)]
            by_contra hne0
            rcases honly _ _ (by omega) (by omega) hne0 with ⟨e1, e2⟩ | ⟨e1, e2⟩
            · apply hcol
              simp only [Prod.ext_iff]
              omega
            · exact hpart ⟨by omega, by omega, by omega, by omega⟩
          · rw [cmc_zero_of_far R C valid i j k hiR hjC _ _ (fun hh => hint hh.1)]
        · rw [if_neg hg]
      rw [hterm]

lemma global_count_keep (R C : Nat) (valid : Nat → Nat → Bool)
    (hv : ∀ a b, a < R → b < C → valid a b = true) (i j k : Nat)
    (hiR : i < R - 1) (hjC : j < C - 1) (hk : k < 16) :
    faceGlobalCountV R C valid (encTriple R C i j k)
      = if keepSlot R C i j k then 1 else 2 := by
  interval_cases k
  · rw [global_self_only R C valid hv i j 0 1 hiR hjC (by omega) (by decide)
      (by intro u v hu hv2; interval_cases u <;> interval_cases v <;> decide)]
    rfl
  · rw [global_two_cells R C valid hv i j 1 1 0 hiR hjC (by omega) (by omega) (by omega)
      (by decide) (by decide) (by decide)
      (by intro u v hu hv2; interval_cases u <;> interval_cases v <;> decide)]
    simp only [keepSlot, keepSlotBits, decide_eq_true_eq]
    split_ifs <;> omega
  · rw [global_two_cells R C valid hv i j 2 1 0 hiR hjC (by omega) (by omega) (by omega)
      (by decide) (by decide) (by decide)
      (by intro u v hu hv2; interval_cases u <;> interval_cases v <;> decide)]
    simp only [keepSlot, keepSlotBits, decide_eq_true_eq]
    split_ifs <;> omega
  · rw [global_self_only R C valid hv i j 3 2 hiR hjC (by omega) (by decide)
      (by intro u v hu hv2; interval_cases u <;> interval_cases v <;> decide)]
    rfl
  · rw [global_self_only R C valid hv i j 4 2 hiR hjC (by omega) (by decide)
      (by intro u v hu hv2; interval_cases u <;> interval_cases v <;> decide)]
    rfl
  · rw [global_two_cells R C valid hv i j 5 0 1 hiR hjC (by omega) (by omega) (by omega)
      (by decide) (by decide) (by decide)
      (by intro u v hu hv2; interval_cases u <;> interval_cases v <;> decide)]
    simp only [keepSlot, keepSlotBits, decide_eq_true_eq]
    split_ifs <;> omega
  · rw [global_two_cells R C valid hv i j 6 0 1 hiR hjC (by omega) (by omega) (by omega)
      (by decide) (by decide) (by decide)
      (by intro u v hu hv2; interval_cases u <;> interval_cases v <;> decide)]
    simp only [keepSlot, keepSlotBits, decide_eq_true_eq]
    split_ifs <;> omega
  · rw [global_self_only R C valid hv i j 7 1 hiR hjC (by omega) (by decide)
      (by intro u v hu hv2; interval_cases u <;> interval_cases v <;> decide)]
    rfl
  · rw [global_self_only R C valid hv i j 8 1 hiR hjC (by omega) (by decide)
      (by intro u v hu hv2; interval_cases u <;> interval_cases v <;> decide)]
    rfl
  · rw [global_two_cells R C valid hv i j 9 2 1 hiR hjC (by omega) (by omega) (by omega)
      (by decide) (by decide) (by decide)
      (by intro u v hu hv2; interval_cases u <;> interval_cases v <;> decide)]
    simp only [keepSlot, keepSlotBits, decide_eq_true_eq]
    split_ifs <;> omega
  · rw [global_two_cells R C valid hv i j 10 2 1 hiR hjC (by omega) (by omega) (by omega)
      (by decide) (by decide) (by decide)
      (by intro u v hu hv2; interval_cases u <;> interval_cases v <;> decide)]
    simp only [keepSlot, keepSlotBits, decide_eq_true_eq]
    split_ifs <;> omega
  · rw [global_two_cells R C valid hv i j 11 1 2 hiR hjC (by omega) (by omega) (by omega)
      (by decide) (by decide) (by decide)
      (by intro u v hu hv2; interval_cases u <;> interval_cases v <;> decide)]
    simp only [keepSlot, keepSlotBits, decide_eq_true_eq]
    split_ifs <;> omega
  · rw [global_two_cells R C valid hv i j 12 1 2 hiR hjC (by omega) (by omega) (by omega)
      (by decide) (by decide) (by decide)
      (by intro u v hu hv2; interval_cases u <;> interval_cases v <;> decide)]
    simp only [keepSlot, keepSlotBits, decide_eq_true_eq]
    split_ifs <;> omega
  · rw [global_self_only R C valid hv i j 13 2 hiR hjC (by omega) (by decide)
      (by intro u v hu hv2; interval_cases u <;> interval_cases v <;> decide)]
    rfl
  · rw [global_self_only R C valid hv i j 14 2 hiR hjC (by omega) (by decide)
      (by intro u v hu hv2; interval_cases u <;> interval_cases v <;> decide)]
    rfl
  · rw [global_self_only R C valid hv i j 15 1 hiR hjC (by omega) (by decide)
      (by intro u v hu hv2; interval_cases u <;> interval_cases v <;> decide)]
    rfl

lemma cell_index_lt (R C a b : Nat) (ha : a < R) (hb : b < C) : a * C + b < R * C := by
  have h2 : (a + 1) * C ≤ R * C := Nat.mul_le_mul_right C ha
  have h3 : (a + 1) * C = a * C + C := Nat.succ_mul a C
  omega

lemma encV_layer_lt (R C i j : Nat) (t : RelV) (hi : i + 1 < R) (hj : j + 1 < C)
    (h1 : t.2.1 ≤ 1) (h2 : t.2.2 ≤ 1) :
    decide (encV R C i j t < R * C) = decide (t.1 = 0) := by
  have hx : (i + t.2.1) * C + (j + t.2.2) < R * C :=
    cell_index_lt R C _ _ (by omega) (by omega)
  rw [decide_eq_decide]
  unfold encV
  by_cases hl : t.1 = 0
  · rw [if_pos hl]
    omega
  · rw [if_neg hl]
    omega

lemma encV_layer_ge (R C i j : Nat) (t : RelV) (hi : i + 1 < R) (hj : j + 1 < C)
    (h1 : t.2.1 ≤ 1) (h2 : t.2.2 ≤ 1) :
    decide (R * C ≤ encV R C i j t) = decide (t.1 ≠ 0) := by
  have hx : (i + t.2.1) * C + (j + t.2.2) < R * C :=
    cell_index_lt R C _ _ (by omega) (by omega)
  rw [decide_eq_decide]
  unfold encV
  by_cases hl : t.1 = 0
  · rw [if_pos hl]
    omega
  · rw [if_neg hl]
    omega

lemma isTopBot_encTriple (R C i j k : Nat) (hi : i + 1 < R) (hj : j + 1 < C) (hk : k < 16) :
    isTopBottomFace (R * C) (encTriple R C i j k) = topBotSlot k := by
  obtain ⟨⟨a1, a2, a3⟩, ⟨b1, b2, b3⟩, ⟨c1, c2, c3⟩⟩ := relTriple_bounds k
  simp only [isTopBottomFace, encTriple]
  rw [encV_layer_lt R C i j _ hi hj a2 a3,
      encV_layer_lt R C i j _ hi hj b2 b3,
      encV_layer_lt R C i j _ hi hj c2 c3,
      encV_layer_ge R C i j _ hi hj a2 a3,
      encV_layer_ge R C i j _ hi hj b2 b3,
      encV_layer_ge R C i j _ hi hj c2 c3]
  interval_cases k <;> rfl

lemma keepSlot_ge16 (R C i j k : Nat) (hk : 16 ≤ k) : keepSlot R C i j k = false := by
  unfold keepSlot keepSlotBits
  split <;> first | rfl | omega

lemma list_flatMap_congr {α β : Type} (l : List α) (f g : α → List β)
    (h : ∀ a ∈ l, f a = g a) : l.flatMap f = l.flatMap g := by
  induction l with
  | nil => rfl
  | cons a t ih =>
    rw [List.flatMap_cons, List.flatMap_cons, h a (List.mem_cons_self a t),
      ih fun x hx => h x (List.mem_cons_of_mem a hx)]

lemma filterMap_ite {α β : Type} (l : List α) (p : α → Prop) [DecidablePred p] (f : α → β) :
    (l.filterMap fun a => if p a then some (f a) else none)
      = (l.filter fun a => decide (p a)).map f := by
  induction l with
  | nil => rfl
  | cons a t ih =>
    by_cases h : p a
    · simp [List.filterMap_cons, List.filter_cons, h, ih]
    · simp [List.filterMap_cons, List.filter_cons, h, ih]

lemma cleanV_full_eq (R C : Nat) (valid : Nat → Nat → Bool)
    (hv : ∀ a b, a < R → b < C → valid a b = true) :
    polyhedron_faces_cleanV R C valid =
      (List.range R).flatMap fun i =>
        (List.range C).flatMap fun j =>
          (List.range 16).filterMap fun k =>
            if i < R - 1 ∧ j < C - 1 ∧ keepSlot R C i j k = true
            then some (encTriple R C i j k) else none := by
  unfold polyhedron_faces_cleanV
  refine congrArg (List.flatMap (List.range R)) (funext fun i => ?_)
  refine congrArg (List.flatMap (List.range C)) (funext fun j => ?_)
  refine congrArg (List.filterMap · (List.range 16)) (funext fun k => ?_)
  by_cases hin : (i < R - 1 ∧ j < C - 1) ∧ k < 16
  · have h1 : valid i j = true := hv i j (by omega) (by omega)
    have h2 : valid (i + 1) j = true := hv _ _ (by omega) (by omega)
    have h3 : valid i (j + 1) = true := hv _ _ (by omega) (by omega)
    have h4 : valid (i + 1) (j + 1) = true := hv _ _ (by omega) (by omega)
    have hfull : faceSlotV R C valid i j k = encTriple R C i j k := by
      rw [faceSlotV_eq R C valid i j k hin.1 hin.2]
      split <;> simp [h1, h2, h3, h4]
    have hneT : encTriple R C i j k ≠ zeroFace :=
      encTriple_ne_zeroFace R C i j k (by omega) (by omega)
    simp only [hfull]
    rw [if_pos hneT]
    rw [neighbour_eq_global R C valid i j k hin.1.1 hin.1.2,
        global_count_keep R C valid hv i j k hin.1.1 hin.1.2 hin.2]
    by_cases hks : keepSlot R C i j k = true
    · simp [hks, hin.1.1, hin.1.2]
    · simp [hks, hin.1.1, hin.1.2]
  · have hz : faceSlotV R C valid i j k = zeroFace := by
      by_contra hne
      obtain ⟨hab, hk16, _⟩ := faceSlotV_ne_zero_struct R C valid i j k hne
      exact hin ⟨hab, hk16⟩
    have hcond : ¬(i < R - 1 ∧ j < C - 1 ∧ keepSlot R C i j k = true) := by
      rintro ⟨ha, hb, hc⟩
      have h16 : 16 ≤ k := by
        by_contra h15
        exact hin ⟨⟨ha, hb⟩, by omega⟩
      rw [keepSlot_ge16 R C i j k h16] at hc
      exact Bool.false_ne_true hc
    simp [hz, hcond]

lemma list_countP_flatMap {α β : Type} (l : List α) (f : α → List β) (p : β → Bool) :
    (l.flatMap f).countP p = (l.map fun a => (f a).countP p).sum := by
  induction l with
  | nil => rfl
  | cons a t ih =>
    rw [List.flatMap_cons, List.countP_append, List.map_cons, List.sum_cons, ih]

lemma keep_topbot_bits (b1 b2 b3 b4 : Bool) :
    ((List.range 16).filter fun k => keepSlotBits b1 b2 b3 b4 k && topBotSlot k).length = 4 := by
  cases b1 <;> cases b2 <;> cases b3 <;> cases b4 <;> decide

lemma keep_wall_bits (b1 b2 b3 b4 : Bool) :
    ((List.range 16).filter fun k => keepSlotBits b1 b2 b3 b4 k && !(topBotSlot k)).length
      = (if b1 then 2 else 0) + (if b2 then 2 else 0)
        + (if b3 then 2 else 0) + (if b4 then 2 else 0) := by
  cases b1 <;> cases b2 <;> cases b3 <;> cases b4 <;> decide

lemma sum_range_interior (R C : Nat) (h : Nat → Nat → Nat) :
    (∑ i ∈ Finset.range R, ∑ j ∈ Finset.range C,
        (if i < R - 1 ∧ j < C - 1 then h i j else 0))
      = ∑ i ∈ Finset.range (R - 1), ∑ j ∈ Finset.range (C - 1), h i j := by
  have houter : (∑ i ∈ Finset.range (R - 1), ∑ j ∈ Finset.range C,
      (if i < R - 1 ∧ j < C - 1 then h i j else 0))
      = ∑ i ∈ Finset.range R, ∑ j ∈ Finset.range C,
          (if i < R - 1 ∧ j < C - 1 then h i j else 0) := by
    refine Finset.sum_subset (Finset.range_subset.mpr (by omega)) ?_
    intro i hi hni
    simp only [Finset.mem_range] at hi hni
    refine Finset.sum_eq_zero fun j hj => ?_
    rw [if_neg fun hc => hni hc.1]
  rw [← houter]
  refine Finset.sum_congr rfl fun i hi => ?_
  have hiI : i < R - 1 := Finset.mem_range.mp hi
  have hinner : (∑ j ∈ Finset.range (C - 1),
      (if i < R - 1 ∧ j < C - 1 then h i j else 0))
      = ∑ j ∈ Finset.range C, (if i < R - 1 ∧ j < C - 1 then h i j else 0) := by
    refine Finset.sum_subset (Finset.range_subset.mpr (by omega)) ?_
    intro j hj hnj
    simp only [Finset.mem_range] at hj hnj
    rw [if_neg fun hc => hnj hc.2]
  rw [← hinner]
  refine Finset.sum_congr rfl fun j hj => ?_
  rw [if_pos ⟨hiI, Finset.mem_range.mp hj⟩]

lemma raw_cell_full (R C : Nat) (valid : Nat → Nat → Bool)
    (hv : ∀ a b, a < R → b < C → valid a b = true) (i j : Nat) :
    ((List.range 16).filter fun k => decide (faceSlotV R C valid i j k ≠ zeroFace)).length
      = if i < R - 1 ∧ j < C - 1 then 16 else 0 := by
  by_cases hin : i < R - 1 ∧ j < C - 1
  · rw [if_pos hin]
    have hself : ((List.range 16).filter fun k =>
        decide (faceSlotV R C valid i j k ≠ zeroFace)) = List.range 16 := by
      rw [List.filter_eq_self]
      intro k hk
      have hk16 : k < 16 := List.mem_range.mp hk
      have h1 : valid i j = true := hv i j (by omega) (by omega)
      have h2 : valid (i + 1) j = true := hv _ _ (by omega) (by omega)
      have h3 : valid i (j + 1) = true := hv _ _ (by omega) (by omega)
      have h4 : valid (i + 1) (j + 1) = true := hv _ _ (by omega) (by omega)
      have hfull : faceSlotV R C valid i j k = encTriple R C i j k := by
        rw [faceSlotV_eq R C valid i j k hin hk16]
        split <;> simp [h1, h2, h3, h4]
      rw [hfull]
      exact decide_eq_true (encTriple_ne_zeroFace R C i j k (by omega) (by omega))
    rw [hself, List.length_range]
  · rw [if_neg hin]
    have hnil : ((List.range 16).filter fun k =>
        decide (faceSlotV R C valid i j k ≠ zeroFace)) = [] := by
      rw [List.filter_eq_nil_iff]
      intro k hk hd
      have hne := of_decide_eq_true hd
      obtain ⟨hab, _, _⟩ := faceSlotV_ne_zero_struct R C valid i j k hne
      exact hin hab
    rw [hnil]
    rfl

lemma rawFaceCountV_full (R C : Nat) (valid : Nat → Nat → Bool)
    (hv : ∀ a b, a < R → b < C → valid a b = true) :
    rawFaceCountV R C valid = 16 * ((R - 1) * (C - 1)) := by
  unfold rawFaceCountV
  rw [list_map_range_sum]
  have hrow : ∀ i, ((List.range C).map fun j =>
      ((List.range 16).filter fun k => decide (faceSlotV R C valid i j k ≠ zeroFace)).length).sum
      = ∑ j ∈ Finset.range C, (if i < R - 1 ∧ j < C - 1 then 16 else 0) := by
    intro i
    rw [list_map_range_sum]
    exact Finset.sum_congr rfl fun j _ => raw_cell_full R C valid hv i j
  rw [Finset.sum_congr rfl fun i _ => hrow i]
  rw [sum_range_interior R C fun _ _ => 16]
  simp only [Finset.sum_const, Finset.card_range, smul_eq_mul]
  ring

lemma clean_countP_full (R C : Nat) (valid : Nat → Nat → Bool)
    (hv : ∀ a b, a < R → b < C → valid a b = true)
    (p : Face → Bool) (pb : Nat → Bool)
    (hp : ∀ i j k, i < R - 1 → j < C - 1 → k < 16 → p (encTriple R C i j k) = pb k) :
    (polyhedron_faces_cleanV R C valid).countP p
      = ∑ i ∈ Finset.range R, ∑ j ∈ Finset.range C,
          (if i < R - 1 ∧ j < C - 1 then
            ((List.range 16).filter fun k => keepSlot R C i j k && pb k).length
          else 0) := by
  rw [cleanV_full_eq R C valid hv]
  rw [list_countP_flatMap, list_map_range_sum]
  refine Finset.sum_congr rfl fun i _ => ?_
  rw [list_countP_flatMap, list_map_range_sum]
  refine Finset.sum_congr rfl fun j _ => ?_
  rw [filterMap_ite (List.range 16)
    (fun k => i < R - 1 ∧ j < C - 1 ∧ keepSlot R C i j k = true)
    (fun k => encTriple R C i j k)]
  rw [List.countP_map]
  by_cases hin : i < R - 1 ∧ j < C - 1
  · rw [if_pos hin]
    rw [List.countP_eq_length_filter, List.filter_filter]
    refine congrArg List.length (List.filter_congr fun k hk => ?_)
    have hk16 : k < 16 := List.mem_range.mp hk
    have hd : decide (i < R - 1 ∧ j < C - 1 ∧ keepSlot R C i j k = true)
        = keepSlot R C i j k := by
      cases hks : keepSlot R C i j k with
      | false =>
        refine decide_eq_false fun hc => ?_
        exact Bool.false_ne_true hc.2.2
      | true => exact decide_eq_true ⟨hin.1, hin.2, rfl⟩
    simp only [Function.comp_apply]
    rw [hp i j k hin.1 hin.2 hk16, hd]
    exact Bool.and_comm _ _
  · rw [if_neg hin]
    have hq : ((List.range 16).filter fun k =>
        decide (i < R - 1 ∧ j < C - 1 ∧ keepSlot R C i j k = true)) = [] := by
      rw [List.filter_eq_nil_iff]
      intro k hk hd
      exact hin ⟨(of_decide_eq_true hd).1, (of_decide_eq_true hd).2.1⟩
    rw [hq]
    rfl

lemma wall_sum (R C : Nat) (hR : 2 ≤ R) (hC : 2 ≤ C) :
    (∑ i ∈ Finset.range (R - 1), ∑ j ∈ Finset.range (C - 1),
        ((if j = 0 then 2 else 0) + (if C - 1 ≤ j + 1 then 2 else 0)
          + (if i = 0 then 2 else 0) + (if R - 1 ≤ i + 1 then 2 else 0)))
      = 2 * 2 * ((R - 1) + (C - 1)) := by
  have hA : (∑ j ∈ Finset.range (C - 1), (if j = 0 then (2:Nat) else 0)) = 2 := by
    rw [Finset.sum_ite_eq' (Finset.range (C - 1)) 0 fun _ => (2:Nat)]
    rw [if_pos (Finset.mem_range.mpr (by omega))]
  have hB : (∑ j ∈ Finset.range (C - 1), (if C - 1 ≤ j + 1 then (2:Nat) else 0)) = 2 := by
    have hcg : ∀ j ∈ Finset.range (C - 1),
        (if C - 1 ≤ j + 1 then (2:Nat) else 0) = (if j = C - 2 then 2 else 0) := by
      intro j hj
      have := Finset.mem_range.mp hj
      split_ifs <;> omega
    rw [Finset.sum_congr rfl hcg,
      Finset.sum_ite_eq' (Finset.range (C - 1)) (C - 2) fun _ => (2:Nat)]
    rw [if_pos (Finset.mem_range.mpr (by omega))]
  have hinner : ∀ i : Nat, (∑ j ∈ Finset.range (C - 1),
      ((if j = 0 then 2 else 0) + (if C - 1 ≤ j + 1 then 2 else 0)
        + (if i = 0 then 2 else 0) + (if R - 1 ≤ i + 1 then 2 else 0)))
      = 4 + (C - 1) * ((if i = 0 then 2 else 0) + (if R - 1 ≤ i + 1 then 2 else 0)) := by
    intro i
    rw [Finset.sum_add_distrib, Finset.sum_add_distrib, Finset.sum_add_distrib, hA, hB]
    simp only [Finset.sum_const, Finset.card_range, smul_eq_mul]
    ring
  rw [Finset.sum_congr rfl fun i _ => hinner i]
  rw [Finset.sum_add_distrib]
  simp only [Finset.sum_const, Finset.card_range, smul_eq_mul]
  rw [← Finset.mul_sum]
  rw [Finset.sum_add_distrib]
  have hZ : (∑ i ∈ Finset.range (R - 1), (if i = 0 then (2:Nat) else 0)) = 2 := by
    rw [Finset.sum_ite_eq' (Finset.range (R - 1)) 0 fun _ => (2:Nat)]
    rw [if_pos (Finset.mem_range.mpr (by omega))]
  have hW : (∑ i ∈ Finset.range (R - 1), (if R - 1 ≤ i + 1 then (2:Nat) else 0)) = 2 := by
    have hcg : ∀ i ∈ Finset.range (R - 1),
        (if R - 1 ≤ i + 1 then (2:Nat) else 0) = (if i = R - 2 then 2 else 0) := by
      intro i hi
      have := Finset.mem_range.mp hi
      split_ifs <;> omega
    rw [Finset.sum_congr rfl hcg,
      Finset.sum_ite_eq' (Finset.range (R - 1)) (R - 2) fun _ => (2:Nat)]
    rw [if_pos (Finset.mem_range.mpr (by omega))]
  rw [hZ, hW]
  ring

lemma topbot_total (R C : Nat) (valid : Nat → Nat → Bool)
    (hv : ∀ a b, a < R → b < C → valid a b = true) (hR : 2 ≤ R) (hC : 2 ≤ C) :
    (polyhedron_faces_cleanV R C valid).countP (fun f => isTopBottomFace (R * C) f)
      = 2 * ((R - 1) * (C - 1)) * 2 := by
  rw [clean_countP_full R C valid hv _ topBotSlot
      (fun i j k h1 h2 h3 => isTopBot_encTriple R C i j k (by omega) (by omega) h3)]
  have hcell : ∀ i j : Nat,
      ((List.range 16).filter fun k => keepSlot R C i j k && topBotSlot k).length = 4 :=
    fun i j => keep_topbot_bits (decide (j = 0)) (decide (C - 1 ≤ j + 1))
      (decide (i = 0)) (decide (R - 1 ≤ i + 1))
  simp only [hcell]
  rw [sum_range_interior R C fun _ _ => 4]
  simp only [Finset.sum_const, Finset.card_range, smul_eq_mul]
  ring

lemma wall_total (R C : Nat) (valid : Nat → Nat → Bool)
    (hv : ∀ a b, a < R → b < C → valid a b = true) (hR : 2 ≤ R) (hC : 2 ≤ C) :
    (polyhedron_faces_cleanV R C valid).countP (fun f => !(isTopBottomFace (R * C) f))
      = 2 * 2 * ((R - 1) + (C - 1)) := by
  rw [clean_countP_full R C valid hv _ (fun k => !(topBotSlot k))
      (fun i j k h1 h2 h3 => by
        rw [isTopBot_encTriple R C i j k (by omega) (by omega) h3])]
  have hcell : ∀ i j : Nat,
      ((List.range 16).filter fun k => keepSlot R C i j k && !(topBotSlot k)).length
        = (if j = 0 then 2 else 0) + (if C - 1 ≤ j + 1 then 2 else 0)
          + (if i = 0 then 2 else 0) + (if R - 1 ≤ i + 1 then 2 else 0) := by
    intro i j
    exact (keep_wall_bits (decide (j = 0)) (decide (C - 1 ≤ j + 1))
      (decide (i = 0)) (decide (R - 1 ≤ i + 1))).trans
      (by simp only [decide_eq_true_eq])
  simp only [hcell]
  rw [sum_range_interior R C fun i j =>
    (if j = 0 then 2 else 0) + (if C - 1 ≤ j + 1 then 2 else 0)
      + (if i = 0 then 2 else 0) + (if R - 1 ≤ i + 1 then 2 else 0)]
  exact wall_sum R C hR hC

/-- C6: on a fully valid grid (every builder-shifted sample above the -5000
cutoff) with R, C at least 2, the builder populates exactly 16 (R-1) (C-1)
nonzero face slots, and the deduplicated list holds exactly
2 (R-1) (C-1) 2 top-and-bottom triangles plus 2 2 ((R-1)+(C-1)) wall
triangles. -/
theorem C6_face_count_laws (d : Dem) (s m : ℚ)
    (hR : 2 ≤ d.rows) (hC : 2 ≤ d.cols)
    (hv : ∀ i j, i < d.rows → j < d.cols → -5000 < zval d s m i j) :
    rawFaceCount d s m = 16 * ((d.rows - 1) * (d.cols - 1)) ∧
    ((polyhedron_faces_clean d s m).filter
        fun f => isTopBottomFace (d.rows * d.cols) f).length
      = 2 * ((d.rows - 1) * (d.cols - 1)) * 2 ∧
    ((polyhedron_faces_clean d s m).filter
        fun f => !(isTopBottomFace (d.rows * d.cols) f)).length
      = 2 * 2 * ((d.rows - 1) + (d.cols - 1)) := by
  have hvB : ∀ a b, a < d.rows → b < d.cols → validB d s m a b = true :=
    fun a b ha hb => decide_eq_true (hv a b ha hb)
  refine ⟨rawFaceCountV_full d.rows d.cols (validB d s m) hvB, ?_, ?_⟩
  · rw [← List.countP_eq_length_filter]
    exact topbot_total d.rows d.cols (validB d s m) hvB hR hC
  · rw [← List.countP_eq_length_filter]
    exact wall_total d.rows d.cols (validB d s m) hvB hR hC

/-- C6 witness: the flat 2 by 2 grid has 16 raw slots, 4 top-and-bottom
triangles and 8 wall triangles after deduplication. -/
theorem C6_face_count_laws_witness :
    rawFaceCount (flatDem 2 2) 1 0 = 16 ∧
    ((polyhedron_faces_clean (flatDem 2 2) 1 0).filter
        fun f => isTopBottomFace ((flatDem 2 2).rows * (flatDem 2 2).cols) f).length = 4 ∧
    ((polyhedron_faces_clean (flatDem 2 2) 1 0).filter
        fun f => !(isTopBottomFace ((flatDem 2 2).rows * (flatDem 2 2).cols) f)).length = 8 := by
  have h := C6_face_count_laws (flatDem 2 2) 1 0 (by norm_num [flatDem]) (by norm_num [flatDem])
    (fun i j hi hj => by norm_num [zval, flatDem])
  simpa [flatDem] using h

/-! Watertightness of the deduplicated mesh on fully valid grids. -/

lemma relHitB_row_big (k l oi oj : Nat) (h : 2 ≤ oi) : relHitB k l oi oj = false := by
  obtain ⟨⟨a1, a2, a3⟩, ⟨b1, b2, b3⟩, ⟨c1, c2, c3⟩⟩ := relTriple_bounds k
  simp only [relHitB, Bool.or_eq_false_iff]
  refine ⟨⟨?_, ?_⟩, ?_⟩ <;>
    (apply decide_eq_false; rintro ⟨h1, h2, h3⟩; omega)

lemma relHitB_col_big (k l oi oj : Nat) (h : 2 ≤ oj) : relHitB k l oi oj = false := by
  obtain ⟨⟨a1, a2, a3⟩, ⟨b1, b2, b3⟩, ⟨c1, c2, c3⟩⟩ := relTriple_bounds k
  simp only [relHitB, Bool.or_eq_false_iff]
  refine ⟨⟨?_, ?_⟩, ?_⟩ <;>
    (apply decide_eq_false; rintro ⟨h1, h2, h3⟩; omega)

lemma encV_eq_iff (R C i j : Nat) (t : RelV) (hi : i + 1 < R) (hj : j + 1 < C)
    (hL : t.1 ≤ 1) (h2 : t.2.1 ≤ 1) (h3 : t.2.2 ≤ 1) (u : Nat) (hu : u < 2 * (R * C)) :
    (u = encV R C i j t)
      ↔ ((decodeV R C u).1 = t.1 ∧ (decodeV R C u).2.1 = i + t.2.1
          ∧ (decodeV R C u).2.2 = j + t.2.2) := by
  constructor
  · intro h
    rw [h, decode_encV R C i j t hL (by omega) (by omega)]
    exact ⟨rfl, rfl, rfl⟩
  · intro hcomp
    obtain ⟨e1, e2, e3⟩ := hcomp
    simp only [decodeV] at e1 e2 e3
    have hC0 : 0 < C := by omega
    have hR0 : 0 < R := by omega
    have hRC : 0 < R * C := Nat.mul_pos hR0 hC0
    have hdm := Nat.div_add_mod u (R * C)
    have hdm2 := Nat.div_add_mod (u % (R * C)) C
    have hmm2 : u % (R * C) % C = u % C := Nat.mod_mod_of_dvd u ⟨R, by ring⟩
    rw [e2, hmm2, e3] at hdm2
    have hc : C * (i + t.2.1) = (i + t.2.1) * C := Nat.mul_comm _ _
    unfold encV
    rcases Nat.le_one_iff_eq_zero_or_eq_one.mp hL with h0 | h1
    · rw [if_pos h0]
      rw [h0] at e1
      rw [e1] at hdm
      omega
    · rw [if_neg (by omega : ¬ t.1 = 0)]
      rw [h1] at e1
      rw [e1] at hdm
      omega

lemma clean_countP_cells (R C : Nat) (valid : Nat → Nat → Bool)
    (hv : ∀ a b, a < R → b < C → valid a b = true) (p : Face → Bool) :
    (polyhedron_faces_cleanV R C valid).countP p
      = ∑ i ∈ Finset.range R, ∑ j ∈ Finset.range C,
          (if i < R - 1 ∧ j < C - 1 then
            ((List.range 16).filter fun k =>
              keepSlot R C i j k && p (encTriple R C i j k)).length
          else 0) := by
  rw [cleanV_full_eq R C valid hv]
  rw [list_countP_flatMap, list_map_range_sum]
  refine Finset.sum_congr rfl fun i _ => ?_
  rw [list_countP_flatMap, list_map_range_sum]
  refine Finset.sum_congr rfl fun j _ => ?_
  rw [filterMap_ite (List.range 16)
    (fun k => i < R - 1 ∧ j < C - 1 ∧ keepSlot R C i j k = true)
    (fun k => encTriple R C i j k)]
  rw [List.countP_map]
  by_cases hin : i < R - 1 ∧ j < C - 1
  · rw [if_pos hin]
    rw [List.countP_eq_length_filter, List.filter_filter]
    refine congrArg List.length (List.filter_congr fun k hk => ?_)
    have hk16 : k < 16 := List.mem_range.mp hk
    have hd : decide (i < R - 1 ∧ j < C - 1 ∧ keepSlot R C i j k = true)
        = keepSlot R C i j k := by
      cases hks : keepSlot R C i j k with
      | false =>
        refine decide_eq_false fun hc => ?_
        exact Bool.false_ne_true hc.2.2
      | true => exact decide_eq_true ⟨hin.1, hin.2, rfl⟩
    simp only [Function.comp_apply]
    rw [hd]
    exact Bool.and_comm _ _
  · rw [if_neg hin]
    have hq : ((List.range 16).filter fun k =>
        decide (i < R - 1 ∧ j < C - 1 ∧ keepSlot R C i j k = true)) = [] := by
      rw [List.filter_eq_nil_iff]
      intro k hk hd
      exact hin ⟨(of_decide_eq_true hd).1, (of_decide_eq_true hd).2.1⟩
    rw [hq]
    rfl

lemma vertHit_eq (R C i j k : Nat) (hiR : i < R - 1) (hjC : j < C - 1) (hk : k < 16)
    (u : Nat) (hu : u < 2 * (R * C)) :
    (decide (u = (encTriple R C i j k).1) || decide (u = (encTriple R C i j k).2.1)
      || decide (u = (encTriple R C i j k).2.2))
      = (decide (i ≤ (decodeV R C u).2.1 ∧ j ≤ (decodeV R C u).2.2)
          && relHitB k (decodeV R C u).1
              ((decodeV R C u).2.1 - i) ((decodeV R C u).2.2 - j)) := by
  obtain ⟨⟨a1, a2, a3⟩, ⟨b1, b2, b3⟩, ⟨c1, c2, c3⟩⟩ := relTriple_bounds k
  have hi : i + 1 < R := by omega
  have hj : j + 1 < C := by omega
  rw [Bool.eq_iff_iff]
  simp only [Bool.or_eq_true, Bool.and_eq_true, decide_eq_true_eq, relHitB, encTriple]
  constructor
  · rintro ((h | h) | h)
    · obtain ⟨e1, e2, e3⟩ :=
        (encV_eq_iff R C i j (relTriple k).1 hi hj a1 a2 a3 u hu).mp h
      exact ⟨⟨by omega, by omega⟩, Or.inl (Or.inl ⟨by omega, by omega, by omega⟩)⟩
    · obtain ⟨e1, e2, e3⟩ :=
        (encV_eq_iff R C i j (relTriple k).2.1 hi hj b1 b2 b3 u hu).mp h
      exact ⟨⟨by omega, by omega⟩, Or.inl (Or.inr ⟨by omega, by omega, by omega⟩)⟩
    · obtain ⟨e1, e2, e3⟩ :=
        (encV_eq_iff R C i j (relTriple k).2.2 hi hj c1 c2 c3 u hu).mp h
      exact ⟨⟨by omega, by omega⟩, Or.inr ⟨by omega, by omega, by omega⟩⟩
  · rintro ⟨⟨hgi, hgj⟩, ((⟨e1, e2, e3⟩ | ⟨e1, e2, e3⟩) | ⟨e1, e2, e3⟩)⟩
    · exact Or.inl (Or.inl
        ((encV_eq_iff R C i j (relTriple k).1 hi hj a1 a2 a3 u hu).mpr
          ⟨by omega, by omega, by omega⟩))
    · exact Or.inl (Or.inr
        ((encV_eq_iff R C i j (relTriple k).2.1 hi hj b1 b2 b3 u hu).mpr
          ⟨by omega, by omega, by omega⟩))
    · exact Or.inr
        ((encV_eq_iff R C i j (relTriple k).2.2 hi hj c1 c2 c3 u hu).mpr
          ⟨by omega, by omega, by omega⟩)

lemma edge_cell_bridge (R C u v i j : Nat) (hu : u < 2 * (R * C)) (hv2 : v < 2 * (R * C))
    (hiR : i < R - 1) (hjC : j < C - 1) :
    ((List.range 16).filter fun k =>
        keepSlot R C i j k && edgeInFace u v (encTriple R C i j k)).length
      = edgeCellTerm R C u v i j := by
  unfold edgeCellTerm
  rw [if_pos ⟨hiR, hjC⟩]
  by_cases hcond : i ≤ (decodeV R C u).2.1 ∧ (decodeV R C u).2.1 ≤ i + 1
      ∧ j ≤ (decodeV R C u).2.2 ∧ (decodeV R C u).2.2 ≤ j + 1
      ∧ i ≤ (decodeV R C v).2.1 ∧ (decodeV R C v).2.1 ≤ i + 1
      ∧ j ≤ (decodeV R C v).2.2 ∧ (decodeV R C v).2.2 ≤ j + 1
  · rw [if_pos hcond]
    unfold edgeCellCount
    refine congrArg List.length (List.filter_congr fun k hk => ?_)
    have hk16 := List.mem_range.mp hk
    have hhu := vertHit_eq R C i j k hiR hjC hk16 u hu
    have hhv := vertHit_eq R C i j k hiR hjC hk16 v hv2
    unfold edgeInFace
    rw [hhu, hhv]
    rw [decide_eq_true (show i ≤ (decodeV R C u).2.1 ∧ j ≤ (decodeV R C u).2.2 from
          ⟨hcond.1, hcond.2.2.1⟩),
        decide_eq_true (show i ≤ (decodeV R C v).2.1 ∧ j ≤ (decodeV R C v).2.2 from
          ⟨hcond.2.2.2.2.1, hcond.2.2.2.2.2.2.1⟩)]
    simp only [Bool.true_and]
    rfl
  · rw [if_neg hcond]
    have hall : ∀ k ∈ List.range 16,
        ¬ ((keepSlot R C i j k && edgeInFace u v (encTriple R C i j k)) = true) := by
      intro k hk hcontra
      have hk16 := List.mem_range.mp hk
      have hhu := vertHit_eq R C i j k hiR hjC hk16 u hu
      have hhv := vertHit_eq R C i j k hiR hjC hk16 v hv2
      rw [Bool.and_eq_true] at hcontra
      obtain ⟨_, hedge⟩ := hcontra
      unfold edgeInFace at hedge
      rw [hhu, hhv, Bool.and_eq_true, Bool.and_eq_true, Bool.and_eq_true] at hedge
      obtain ⟨⟨hg1, hH1⟩, ⟨hg2, hH2⟩⟩ := hedge
      have hg1' := of_decide_eq_true hg1
      have hg2' := of_decide_eq_true hg2
      have hr1 : (decodeV R C u).2.1 ≤ i + 1 := by
        by_contra hbig
        rw [relHitB_row_big _ _ _ _ (by omega)] at hH1
        exact Bool.false_ne_true hH1
      have hc1 : (decodeV R C u).2.2 ≤ j + 1 := by
        by_contra hbig
        rw [relHitB_col_big _ _ _ _ (by omega)] at hH1
        exact Bool.false_ne_true hH1
      have hr2 : (decodeV R C v).2.1 ≤ i + 1 := by
        by_contra hbig
        rw [relHitB_row_big _ _ _ _ (by omega)] at hH2
        exact Bool.false_ne_true hH2
      have hc2 : (decodeV R C v).2.2 ≤ j + 1 := by
        by_contra hbig
        rw [relHitB_col_big _ _ _ _ (by omega)] at hH2
        exact Bool.false_ne_true hH2
      exact hcond ⟨hg1'.1, hr1, hg1'.2, hc1, hg2'.1, hr2, hg2'.2, hc2⟩
    rw [List.filter_eq_nil_iff.mpr hall]
    rfl

lemma decodeV_bounds (R C u : Nat) (hR : 0 < R) (hC : 0 < C) (hu : u < 2 * (R * C)) :
    (decodeV R C u).1 ≤ 1 ∧ (decodeV R C u).2.1 < R ∧ (decodeV R C u).2.2 < C := by
  have hRC : 0 < R * C := Nat.mul_pos hR hC
  unfold decodeV
  refine ⟨?_, ?_, ?_⟩
  · have h2 : u / (R * C) < 2 := (Nat.div_lt_iff_lt_mul hRC).mpr (by omega)
    omega
  · have hm : u % (R * C) < R * C := Nat.mod_lt u hRC
    have h2 : u % (R * C) / C < R := (Nat.div_lt_iff_lt_mul hC).mpr (by
      have : R * C = C * R := Nat.mul_comm R C
      omega)
    exact h2
  · exact Nat.mod_lt u hC

lemma sum_range_pair_support (n a b : Nat) (h : Nat → Nat)
    (hz : ∀ x, x < n → x ≠ a → x ≠ b → h x = 0) :
    (∑ x ∈ Finset.range n, h x)
      = (if a < n then h a else 0)
        + (if b < n then (if b = a then 0 else h b) else 0) := by
  have hpt : ∀ x ∈ Finset.range n, h x
      = (if x = a then h a else 0)
        + (if x = b then (if b = a then 0 else h b) else 0) := by
    intro x hx
    have hxn := Finset.mem_range.mp hx
    by_cases hxa : x = a
    · subst hxa
      rw [if_pos rfl]
      by_cases hxb : x = b
      · rw [if_pos hxb, if_pos (by omega)]
        omega
      · rw [if_neg hxb]
        omega
    · rw [if_neg hxa]
      by_cases hxb : x = b
      · subst hxb
        rw [if_pos rfl, if_neg (by omega : ¬ x = a)]
        omega
      · rw [if_neg hxb, hz x hxn hxa hxb]
  rw [Finset.sum_congr rfl hpt, Finset.sum_add_distrib]
  rw [Finset.sum_ite_eq' (Finset.range n) a fun _ => h a,
      Finset.sum_ite_eq' (Finset.range n) b fun _ => if b = a then 0 else h b]
  simp only [Finset.mem_range]

lemma edgeCellTerm_row_supp (R C u v i j ru : Nat) (hru : (decodeV R C u).2.1 = ru)
    (h : ¬(i ≤ ru ∧ ru ≤ i + 1)) : edgeCellTerm R C u v i j = 0 := by
  unfold edgeCellTerm
  rw [hru]
  split
  · rw [if_neg fun hc => h ⟨hc.1, hc.2.1⟩]
  · rfl

lemma edgeCellTerm_col_supp (R C u v i j cu : Nat) (hcu : (decodeV R C u).2.2 = cu)
    (h : ¬(j ≤ cu ∧ cu ≤ j + 1)) : edgeCellTerm R C u v i j = 0 := by
  unfold edgeCellTerm
  rw [hcu]
  split
  · rw [if_neg fun hc => h ⟨hc.2.2.1, hc.2.2.2.1⟩]
  · rfl

lemma edge_total_four (R C : Nat) (valid : Nat → Nat → Bool)
    (hv : ∀ a b, a < R → b < C → valid a b = true) (hR : 2 ≤ R) (hC : 2 ≤ C)
    (u v lu ru cu : Nat) (hdu : decodeV R C u = (lu, ru, cu))
    (hu : u < 2 * (R * C)) (hv2 : v < 2 * (R * C)) :
    (polyhedron_faces_cleanV R C valid).countP (edgeInFace u v)
      = edgeCellTerm R C u v (ru - 1) (cu - 1)
        + (if cu = 0 then 0 else edgeCellTerm R C u v (ru - 1) cu)
        + (if ru = 0 then 0 else
            (edgeCellTerm R C u v ru (cu - 1)
              + (if cu = 0 then 0 else edgeCellTerm R C u v ru cu))) := by
  have hb := decodeV_bounds R C u (by omega) (by omega) hu
  rw [hdu] at hb
  simp only at hb
  obtain ⟨hlu, hruR, hcuC⟩ := hb
  rw [clean_countP_cells R C valid hv (edgeInFace u v)]
  have hcell : ∀ i ∈ Finset.range R,
      (∑ j ∈ Finset.range C,
        (if i < R - 1 ∧ j < C - 1 then
          ((List.range 16).filter fun k =>
            keepSlot R C i j k && edgeInFace u v (encTriple R C i j k)).length
        else 0))
      = ∑ j ∈ Finset.range C, edgeCellTerm R C u v i j :=
    fun i _ => Finset.sum_congr rfl fun j _ => by
      by_cases hin : i < R - 1 ∧ j < C - 1
      · rw [if_pos hin]
        exact edge_cell_bridge R C u v i j hu hv2 hin.1 hin.2
      · rw [if_neg hin]
        unfold edgeCellTerm
        rw [if_neg hin]
  rw [Finset.sum_congr rfl hcell]
  have hzr : ∀ x, x < R → x ≠ ru - 1 → x ≠ ru →
      (∑ j ∈ Finset.range C, edgeCellTerm R C u v x j) = 0 := by
    intro x hx hxa hxb
    exact Finset.sum_eq_zero fun j _ =>
      edgeCellTerm_row_supp R C u v x j ru (by rw [hdu]) (by omega)
  rw [sum_range_pair_support R (ru - 1) ru _ hzr]
  rw [if_pos (show ru - 1 < R by omega), if_pos hruR]
  rw [if_congr (show (ru = ru - 1) ↔ (ru = 0) by omega) rfl rfl]
  have hcols : ∀ i, (∑ j ∈ Finset.range C, edgeCellTerm R C u v i j)
      = edgeCellTerm R C u v i (cu - 1)
        + (if cu = 0 then 0 else edgeCellTerm R C u v i cu) := by
    intro i
    have hzc : ∀ x, x < C → x ≠ cu - 1 → x ≠ cu → edgeCellTerm R C u v i x = 0 := by
      intro x hx hxa hxb
      exact edgeCellTerm_col_supp R C u v i x cu (by rw [hdu]) (by omega)
    rw [sum_range_pair_support C (cu - 1) cu _ hzc]
    rw [if_pos (show cu - 1 < C by omega), if_pos hcuC]
    rw [if_congr (show (cu = cu - 1) ↔ (cu = 0) by omega) rfl rfl]
  rw [hcols (ru - 1), hcols ru]

lemma edgeCellTerm_eval (R C u v lu ru cu lv rv cv i j : Nat)
    (hdu : decodeV R C u = (lu, ru, cu)) (hdv : decodeV R C v = (lv, rv, cv)) :
    edgeCellTerm R C u v i j
      = if i < R - 1 ∧ j < C - 1 then
          (if i ≤ ru ∧ ru ≤ i + 1 ∧ j ≤ cu ∧ cu ≤ j + 1
              ∧ i ≤ rv ∧ rv ≤ i + 1 ∧ j ≤ cv ∧ cv ≤ j + 1 then
            edgeCellCount (decide (j = 0)) (decide (C - 1 ≤ j + 1)) (decide (i = 0))
              (decide (R - 1 ≤ i + 1)) lu (ru - i) (cu - j) lv (rv - i) (cv - j)
          else 0)
        else 0 := by
  unfold edgeCellTerm
  rw [hdu, hdv]

lemma decodeV_recompose (R C u : Nat) (hR : 0 < R) (hC : 0 < C) (hu : u < 2 * (R * C)) :
    u = (decodeV R C u).1 * (R * C) + ((decodeV R C u).2.1 * C + (decodeV R C u).2.2) := by
  unfold decodeV
  show u = u / (R * C) * (R * C) + (u % (R * C) / C * C + u % C)
  have hdm := Nat.div_add_mod u (R * C)
  have hdm2 := Nat.div_add_mod (u % (R * C)) C
  have hmm2 : u % (R * C) % C = u % C := Nat.mod_mod_of_dvd u ⟨R, by ring⟩
  have hc1 : R * C * (u / (R * C)) = (u / (R * C)) * (R * C) := Nat.mul_comm _ _
  have hc2 : C * (u % (R * C) / C) = (u % (R * C) / C) * C := Nat.mul_comm _ _
  omega

lemma cellterm_dead (P Q : Prop) [Decidable P] [Decidable Q] (n : Nat) (hQ : ¬ Q) :
    (if P then (if Q then n else 0) else 0) = 0 := by
  rw [if_neg hQ, ite_self]

lemma cellterm_alive (P Q : Prop) [Decidable P] [Decidable Q] (n : Nat) (hP : P) (hQ : Q) :
    (if P then (if Q then n else 0) else 0) = n := by
  rw [if_pos hP, if_pos hQ]

lemma cellterm_cond_true (P Q : Prop) [Decidable P] [Decidable Q] (n : Nat) (hQ : Q) :
    (if P then (if Q then n else 0) else 0) = (if P then n else 0) := by
  rw [if_pos hQ]

lemma guard_zero (a : Nat) : (if (0 : Nat) = 0 then 0 else a) = 0 := if_pos rfl

set_option maxHeartbeats 4000000 in
set_option maxRecDepth 8000 in
lemma edge_count_zero_or_two (R C : Nat) (valid : Nat → Nat → Bool)
    (hv : ∀ a b, a < R → b < C → valid a b = true) (hR : 2 ≤ R) (hC : 2 ≤ C)
    (u v : Nat) (hu : u < 2 * (R * C)) (hv2 : v < 2 * (R * C)) (hne : u ≠ v) :
    (polyhedron_faces_cleanV R C valid).countP (edgeInFace u v) = 0 ∨
    (polyhedron_faces_cleanV R C valid).countP (edgeInFace u v) = 2 := by
  rcases hdu : decodeV R C u with ⟨lu, ru, cu⟩
  rcases hdv : decodeV R C v with ⟨lv, rv, cv⟩
  have hbu := decodeV_bounds R C u (by omega) (by omega) hu
  have hbv := decodeV_bounds R C v (by omega) (by omega) hv2
  rw [hdu] at hbu
  rw [hdv] at hbv
  have hlu : lu ≤ 1 := hbu.1
  have hruR : ru < R := hbu.2.1
  have hcuC : cu < C := hbu.2.2
  have hlv2 : lv ≤ 1 := hbv.1
  have hrvR : rv < R := hbv.2.1
  have hcvC : cv < C := hbv.2.2
  have hrecu := decodeV_recompose R C u (by omega) (by omega) hu
  have hrecv := decodeV_recompose R C v (by omega) (by omega) hv2
  rw [hdu] at hrecu
  rw [hdv] at hrecv
  have hru2 : u = lu * (R * C) + (ru * C + cu) := hrecu
  have hrv2 : v = lv * (R * C) + (rv * C + cv) := hrecv
  rw [edge_total_four R C valid hv hR hC u v lu ru cu hdu hu hv2]
  rw [edgeCellTerm_eval R C u v lu ru cu lv rv cv (ru - 1) (cu - 1) hdu hdv]
  rw [edgeCellTerm_eval R C u v lu ru cu lv rv cv (ru - 1) cu hdu hdv]
  rw [edgeCellTerm_eval R C u v lu ru cu lv rv cv ru (cu - 1) hdu hdv]
  rw [edgeCellTerm_eval R C u v lu ru cu lv rv cv ru cu hdu hdv]
  by_cases hfarR : ru + 2 ≤ rv ∨ rv + 2 ≤ ru
  · left
    rw [cellterm_dead _ _ _ (show ¬(ru - 1 ≤ ru ∧ ru ≤ ru - 1 + 1 ∧ cu - 1 ≤ cu ∧ cu ≤ cu - 1 + 1 ∧ ru - 1 ≤ rv ∧ rv ≤ ru - 1 + 1 ∧ cu - 1 ≤ cv ∧ cv ≤ cu - 1 + 1) by omega)]
    rw [cellterm_dead _ _ _ (show ¬(ru - 1 ≤ ru ∧ ru ≤ ru - 1 + 1 ∧ cu ≤ cu ∧ cu ≤ cu + 1 ∧ ru - 1 ≤ rv ∧ rv ≤ ru - 1 + 1 ∧ cu ≤ cv ∧ cv ≤ cu + 1) by omega)]
    rw [cellterm_dead _ _ _ (show ¬(ru ≤ ru ∧ ru ≤ ru + 1 ∧ cu - 1 ≤ cu ∧ cu ≤ cu - 1 + 1 ∧ ru ≤ rv ∧ rv ≤ ru + 1 ∧ cu - 1 ≤ cv ∧ cv ≤ cu - 1 + 1) by omega)]
    rw [cellterm_dead _ _ _ (show ¬(ru ≤ ru ∧ ru ≤ ru + 1 ∧ cu ≤ cu ∧ cu ≤ cu + 1 ∧ ru ≤ rv ∧ rv ≤ ru + 1 ∧ cu ≤ cv ∧ cv ≤ cu + 1) by omega)]
    simp
  · by_cases hfarC : cu + 2 ≤ cv ∨ cv + 2 ≤ cu
    · left
      rw [cellterm_dead _ _ _ (show ¬(ru - 1 ≤ ru ∧ ru ≤ ru - 1 + 1 ∧ cu - 1 ≤ cu ∧ cu ≤ cu - 1 + 1 ∧ ru - 1 ≤ rv ∧ rv ≤ ru - 1 + 1 ∧ cu - 1 ≤ cv ∧ cv ≤ cu - 1 + 1) by omega)]
      rw [cellterm_dead _ _ _ (show ¬(ru - 1 ≤ ru ∧ ru ≤ ru - 1 + 1 ∧ cu ≤ cu ∧ cu ≤ cu + 1 ∧ ru - 1 ≤ rv ∧ rv ≤ ru - 1 + 1 ∧ cu ≤ cv ∧ cv ≤ cu + 1) by omega)]
      rw [cellterm_dead _ _ _ (show ¬(ru ≤ ru ∧ ru ≤ ru + 1 ∧ cu - 1 ≤ cu ∧ cu ≤ cu - 1 + 1 ∧ ru ≤ rv ∧ rv ≤ ru + 1 ∧ cu - 1 ≤ cv ∧ cv ≤ cu - 1 + 1) by omega)]
      rw [cellterm_dead _ _ _ (show ¬(ru ≤ ru ∧ ru ≤ ru + 1 ∧ cu ≤ cu ∧ cu ≤ cu + 1 ∧ ru ≤ rv ∧ rv ≤ ru + 1 ∧ cu ≤ cv ∧ cv ≤ cu + 1) by omega)]
      simp
    · have hrowd : ru = rv ∨ rv = ru + 1 ∨ ru = rv + 1 := by omega
      have hcold : cu = cv ∨ cv = cu + 1 ∨ cu = cv + 1 := by omega
      by_cases hru0 : ru = 0
      · subst hru0
        rcases hrowd with hrw | hrw | hrw
        · subst hrw
          by_cases hcu0 : cu = 0
          · subst hcu0
            rcases hcold with hcw | hcw | hcw
            · subst hcw
              simp only [guard_zero]
              rw [cellterm_alive _ _ _ (show 0 - 1 < R - 1 ∧ 0 - 1 < C - 1 by omega) (show 0 - 1 ≤ 0 ∧ 0 ≤ 0 - 1 + 1 ∧ 0 - 1 ≤ 0 ∧ 0 ≤ 0 - 1 + 1 ∧ 0 - 1 ≤ 0 ∧ 0 ≤ 0 - 1 + 1 ∧ 0 - 1 ≤ 0 ∧ 0 ≤ 0 - 1 + 1 by omega)]
              rw [show 0 - (0 - 1) = 0 from by omega]
              rw [show decide (R - 1 ≤ 0 - 1 + 1) = decide (R - 1 ≤ 1) from decide_eq_decide.mpr (by omega)]
              rw [show decide (C - 1 ≤ 0 - 1 + 1) = decide (C - 1 ≤ 1) from decide_eq_decide.mpr (by omega)]
              have hlulv : lu ≠ lv := fun he => hne (by rw [hru2, hrv2, he])
              rw [show lu = (bif decide (lu = 0) then 0 else 1) from by rcases Nat.le_one_iff_eq_zero_or_eq_one.mp hlu with h | h <;> rw [h] <;> rfl]
              rw [show lv = (bif decide (lu = 0) then 1 else 0) from by rcases Nat.le_one_iff_eq_zero_or_eq_one.mp hlu with h | h <;> rcases Nat.le_one_iff_eq_zero_or_eq_one.mp hlv2 with h2 | h2 <;> rw [h, h2] <;> first | rfl | exact absurd (h.trans h2.symm) hlulv]
              cases a0 : decide (R - 1 ≤ 1) <;> cases a1 : decide (C - 1 ≤ 1) <;> cases a2 : decide (lu = 0) <;> decide
            · subst hcw
              simp only [guard_zero]
              rw [cellterm_alive _ _ _ (show 0 - 1 < R - 1 ∧ 0 - 1 < C - 1 by omega) (show 0 - 1 ≤ 0 ∧ 0 ≤ 0 - 1 + 1 ∧ 0 - 1 ≤ 0 ∧ 0 ≤ 0 - 1 + 1 ∧ 0 - 1 ≤ 0 ∧ 0 ≤ 0 - 1 + 1 ∧ 0 - 1 ≤ 0 + 1 ∧ 0 + 1 ≤ 0 - 1 + 1 by omega)]
              rw [show 0 - (0 - 1) = 0 from by omega]
              rw [show 0 + 1 - (0 - 1) = 1 from by omega]
              rw [show decide (R - 1 ≤ 0 - 1 + 1) = decide (R - 1 ≤ 1) from decide_eq_decide.mpr (by omega)]
              rw [show decide (C - 1 ≤ 0 - 1 + 1) = decide (C - 1 ≤ 1) from decide_eq_decide.mpr (by omega)]
              rw [show lu = (bif decide (lu = 0) then 0 else 1) from by rcases Nat.le_one_iff_eq_zero_or_eq_one.mp hlu with h | h <;> rw [h] <;> rfl]
              rw [show lv = (bif decide (lv = 0) then 0 else 1) from by rcases Nat.le_one_iff_eq_zero_or_eq_one.mp hlv2 with h | h <;> rw [h] <;> rfl]
              cases a0 : decide (R - 1 ≤ 1) <;> cases a1 : decide (C - 1 ≤ 1) <;> cases a2 : decide (lu = 0) <;> cases a3 : decide (lv = 0) <;> decide
            · exact absurd hcw (by omega)
          · rcases hcold with hcw | hcw | hcw
            · subst hcw
              simp only [guard_zero]
              rw [if_neg (show ¬(cu = 0) by omega)]
              rw [cellterm_alive _ _ _ (show 0 - 1 < R - 1 ∧ cu - 1 < C - 1 by omega) (show 0 - 1 ≤ 0 ∧ 0 ≤ 0 - 1 + 1 ∧ cu - 1 ≤ cu ∧ cu ≤ cu - 1 + 1 ∧ 0 - 1 ≤ 0 ∧ 0 ≤ 0 - 1 + 1 ∧ cu - 1 ≤ cu ∧ cu ≤ cu - 1 + 1 by omega)]
              rw [cellterm_cond_true _ _ _ (show 0 - 1 ≤ 0 ∧ 0 ≤ 0 - 1 + 1 ∧ cu ≤ cu ∧ cu ≤ cu + 1 ∧ 0 - 1 ≤ 0 ∧ 0 ≤ 0 - 1 + 1 ∧ cu ≤ cu ∧ cu ≤ cu + 1 by omega)]
              rw [if_congr (show (0 - 1 < R - 1 ∧ cu < C - 1) ↔ (decide (C - 1 ≤ cu) = false) from by simp only [decide_eq_false_iff_not]; omega) rfl rfl]
              rw [show 0 - (0 - 1) = 0 from by omega]
              rw [show cu - (cu - 1) = 1 from by omega]
              rw [show cu - cu = 0 from by omega]
              rw [show decide (R - 1 ≤ 0 - 1 + 1) = decide (R - 1 ≤ 1) from decide_eq_decide.mpr (by omega)]
              rw [show decide (C - 1 ≤ cu - 1 + 1) = decide (C - 1 ≤ cu) from decide_eq_decide.mpr (by omega)]
              rw [show decide (cu = 0) = false from decide_eq_false (by omega)]
              have hlulv : lu ≠ lv := fun he => hne (by rw [hru2, hrv2, he])
              rw [show lu = (bif decide (lu = 0) then 0 else 1) from by rcases Nat.le_one_iff_eq_zero_or_eq_one.mp hlu with h | h <;> rw [h] <;> rfl]
              rw [show lv = (bif decide (lu = 0) then 1 else 0) from by rcases Nat.le_one_iff_eq_zero_or_eq_one.mp hlu with h | h <;> rcases Nat.le_one_iff_eq_zero_or_eq_one.mp hlv2 with h2 | h2 <;> rw [h, h2] <;> first | rfl | exact absurd (h.trans h2.symm) hlulv]
              cases a0 : decide (R - 1 ≤ 1) <;> cases a1 : decide (C - 1 ≤ cu) <;> cases a2 : decide (cu - 1 = 0) <;> cases a3 : decide (C - 1 ≤ cu + 1) <;> cases a4 : decide (lu = 0) <;> decide
            · subst hcw
              simp only [guard_zero]
              rw [if_neg (show ¬(cu = 0) by omega)]
              rw [cellterm_dead _ _ _ (show ¬(0 - 1 ≤ 0 ∧ 0 ≤ 0 - 1 + 1 ∧ cu - 1 ≤ cu ∧ cu ≤ cu - 1 + 1 ∧ 0 - 1 ≤ 0 ∧ 0 ≤ 0 - 1 + 1 ∧ cu - 1 ≤ cu + 1 ∧ cu + 1 ≤ cu - 1 + 1) by omega)]
              rw [cellterm_alive _ _ _ (show 0 - 1 < R - 1 ∧ cu < C - 1 by omega) (show 0 - 1 ≤ 0 ∧ 0 ≤ 0 - 1 + 1 ∧ cu ≤ cu ∧ cu ≤ cu + 1 ∧ 0 - 1 ≤ 0 ∧ 0 ≤ 0 - 1 + 1 ∧ cu ≤ cu + 1 ∧ cu + 1 ≤ cu + 1 by omega)]
              rw [show 0 - (0 - 1) = 0 from by omega]
              rw [show cu - cu = 0 from by omega]
              rw [show cu + 1 - cu = 1 from by omega]
              rw [show decide (R - 1 ≤ 0 - 1 + 1) = decide (R - 1 ≤ 1) from decide_eq_decide.mpr (by omega)]
              rw [show decide (cu = 0) = false from decide_eq_false (by omega)]
              rw [show lu = (bif decide (lu = 0) then 0 else 1) from by rcases Nat.le_one_iff_eq_zero_or_eq_one.mp hlu with h | h <;> rw [h] <;> rfl]
              rw [show lv = (bif decide (lv = 0) then 0 else 1) from by rcases Nat.le_one_iff_eq_zero_or_eq_one.mp hlv2 with h | h <;> rw [h] <;> rfl]
              cases a0 : decide (R - 1 ≤ 1) <;> cases a1 : decide (C - 1 ≤ cu + 1) <;> cases a2 : decide (lu = 0) <;> cases a3 : decide (lv = 0) <;> decide
            · subst hcw
              simp only [guard_zero]
              rw [if_neg (show ¬(cv + 1 = 0) by omega)]
              rw [cellterm_alive _ _ _ (show 0 - 1 < R - 1 ∧ cv + 1 - 1 < C - 1 by omega) (show 0 - 1 ≤ 0 ∧ 0 ≤ 0 - 1 + 1 ∧ cv + 1 - 1 ≤ cv + 1 ∧ cv + 1 ≤ cv + 1 - 1 + 1 ∧ 0 - 1 ≤ 0 ∧ 0 ≤ 0 - 1 + 1 ∧ cv + 1 - 1 ≤ cv ∧ cv ≤ cv + 1 - 1 + 1 by omega)]
              rw [cellterm_dead _ _ _ (show ¬(0 - 1 ≤ 0 ∧ 0 ≤ 0 - 1 + 1 ∧ cv + 1 ≤ cv + 1 ∧ cv + 1 ≤ cv + 1 + 1 ∧ 0 - 1 ≤ 0 ∧ 0 ≤ 0 - 1 + 1 ∧ cv + 1 ≤ cv ∧ cv ≤ cv + 1 + 1) by omega)]
              rw [show 0 - (0 - 1) = 0 from by omega]
              rw [show cv + 1 - (cv + 1 - 1) = 1 from by omega]
              rw [show cv - (cv + 1 - 1) = 0 from by omega]
              rw [show decide (R - 1 ≤ 0 - 1 + 1) = decide (R - 1 ≤ 1) from decide_eq_decide.mpr (by omega)]
              rw [show decide (C - 1 ≤ cv + 1 - 1 + 1) = decide (C - 1 ≤ cv + 1) from decide_eq_decide.mpr (by omega)]
              rw [show decide (cv + 1 - 1 = 0) = decide (cv = 0) from decide_eq_decide.mpr (by omega)]
              rw [show lu = (bif decide (lu = 0) then 0 else 1) from by rcases Nat.le_one_iff_eq_zero_or_eq_one.mp hlu with h | h <;> rw [h] <;> rfl]
              rw [show lv = (bif decide (lv = 0) then 0 else 1) from by rcases Nat.le_one_iff_eq_zero_or_eq_one.mp hlv2 with h | h <;> rw [h] <;> rfl]
              cases a0 : decide (R - 1 ≤ 1) <;> cases a1 : decide (C - 1 ≤ cv + 1) <;> cases a2 : decide (cv = 0) <;> cases a3 : decide (lu = 0) <;> cases a4 : decide (lv = 0) <;> decide
        · subst hrw
          by_cases hcu0 : cu = 0
          · subst hcu0
            rcases hcold with hcw | hcw | hcw
            · subst hcw
              simp only [guard_zero]
              rw [cellterm_alive _ _ _ (show 0 - 1 < R - 1 ∧ 0 - 1 < C - 1 by omega) (show 0 - 1 ≤ 0 ∧ 0 ≤ 0 - 1 + 1 ∧ 0 - 1 ≤ 0 ∧ 0 ≤ 0 - 1 + 1 ∧ 0 - 1 ≤ 0 + 1 ∧ 0 + 1 ≤ 0 - 1 + 1 ∧ 0 - 1 ≤ 0 ∧ 0 ≤ 0 - 1 + 1 by omega)]
              rw [show 0 - (0 - 1) = 0 from by omega]
              rw [show 0 + 1 - (0 - 1) = 1 from by omega]
              rw [show decide (R - 1 ≤ 0 - 1 + 1) = decide (R - 1 ≤ 1) from decide_eq_decide.mpr (by omega)]
              rw [show decide (C - 1 ≤ 0 - 1 + 1) = decide (C - 1 ≤ 1) from decide_eq_decide.mpr (by omega)]
              rw [show lu = (bif decide (lu = 0) then 0 else 1) from by rcases Nat.le_one_iff_eq_zero_or_eq_one.mp hlu with h | h <;> rw [h] <;> rfl]
              rw [show lv = (bif decide (lv = 0) then 0 else 1) from by rcases Nat.le_one_iff_eq_zero_or_eq_one.mp hlv2 with h | h <;> rw [h] <;> rfl]
              cases a0 : decide (R - 1 ≤ 1) <;> cases a1 : decide (C - 1 ≤ 1) <;> cases a2 : decide (lu = 0) <;> cases a3 : decide (lv = 0) <;> decide
            · subst hcw
              simp only [guard_zero]
              rw [cellterm_alive _ _ _ (show 0 - 1 < R - 1 ∧ 0 - 1 < C - 1 by omega) (show 0 - 1 ≤ 0 ∧ 0 ≤ 0 - 1 + 1 ∧ 0 - 1 ≤ 0 ∧ 0 ≤ 0 - 1 + 1 ∧ 0 - 1 ≤ 0 + 1 ∧ 0 + 1 ≤ 0 - 1 + 1 ∧ 0 - 1 ≤ 0 + 1 ∧ 0 + 1 ≤ 0 - 1 + 1 by omega)]
              rw [show 0 - (0 - 1) = 0 from by omega]
              rw [show 0 + 1 - (0 - 1) = 1 from by omega]
              rw [show decide (R - 1 ≤ 0 - 1 + 1) = decide (R - 1 ≤ 1) from decide_eq_decide.mpr (by omega)]
              rw [show decide (C - 1 ≤ 0 - 1 + 1) = decide (C - 1 ≤ 1) from decide_eq_decide.mpr (by omega)]
              rw [show lu = (bif decide (lu = 0) then 0 else 1) from by rcases Nat.le_one_iff_eq_zero_or_eq_one.mp hlu with h | h <;> rw [h] <;> rfl]
              rw [show lv = (bif decide (lv = 0) then 0 else 1) from by rcases Nat.le_one_iff_eq_zero_or_eq_one.mp hlv2 with h | h <;> rw [h] <;> rfl]
              cases a0 : decide (R - 1 ≤ 1) <;> cases a1 : decide (C - 1 ≤ 1) <;> cases a2 : decide (lu = 0) <;> cases a3 : decide (lv = 0) <;> decide
            · exact absurd hcw (by omega)
          · rcases hcold with hcw | hcw | hcw
            · subst hcw
              simp only [guard_zero]
              rw [if_neg (show ¬(cu = 0) by omega)]
              rw [cellterm_alive _ _ _ (show 0 - 1 < R - 1 ∧ cu - 1 < C - 1 by omega) (show 0 - 1 ≤ 0 ∧ 0 ≤ 0 - 1 + 1 ∧ cu - 1 ≤ cu ∧ cu ≤ cu - 1 + 1 ∧ 0 - 1 ≤ 0 + 1 ∧ 0 + 1 ≤ 0 - 1 + 1 ∧ cu - 1 ≤ cu ∧ cu ≤ cu - 1 + 1 by omega)]
              rw [cellterm_cond_true _ _ _ (show 0 - 1 ≤ 0 ∧ 0 ≤ 0 - 1 + 1 ∧ cu ≤ cu ∧ cu ≤ cu + 1 ∧ 0 - 1 ≤ 0 + 1 ∧ 0 + 1 ≤ 0 - 1 + 1 ∧ cu ≤ cu ∧ cu ≤ cu + 1 by omega)]
              rw [if_congr (show (0 - 1 < R - 1 ∧ cu < C - 1) ↔ (decide (C - 1 ≤ cu) = false) from by simp only [decide_eq_false_iff_not]; omega) rfl rfl]
              rw [show 0 - (0 - 1) = 0 from by omega]
              rw [show cu - (cu - 1) = 1 from by omega]
              rw [show 0 + 1 - (0 - 1) = 1 from by omega]
              rw [show cu - cu = 0 from by omega]
              rw [show decide (R - 1 ≤ 0 - 1 + 1) = decide (R - 1 ≤ 1) from decide_eq_decide.mpr (by omega)]
              rw [show decide (C - 1 ≤ cu - 1 + 1) = decide (C - 1 ≤ cu) from decide_eq_decide.mpr (by omega)]
              rw [show decide (cu = 0) = false from decide_eq_false (by omega)]
              rw [show lu = (bif decide (lu = 0) then 0 else 1) from by rcases Nat.le_one_iff_eq_zero_or_eq_one.mp hlu with h | h <;> rw [h] <;> rfl]
              rw [show lv = (bif decide (lv = 0) then 0 else 1) from by rcases Nat.le_one_iff_eq_zero_or_eq_one.mp hlv2 with h | h <;> rw [h] <;> rfl]
              cases a0 : decide (R - 1 ≤ 1) <;> cases a1 : decide (C - 1 ≤ cu) <;> cases a2 : decide (cu - 1 = 0) <;> cases a3 : decide (C - 1 ≤ cu + 1) <;> cases a4 : decide (lu = 0) <;> cases a5 : decide (lv = 0) <;> decide
            · subst hcw
              simp only [guard_zero]
              rw [if_neg (show ¬(cu = 0) by omega)]
              rw [cellterm_dead _ _ _ (show ¬(0 - 1 ≤ 0 ∧ 0 ≤ 0 - 1 + 1 ∧ cu - 1 ≤ cu ∧ cu ≤ cu - 1 + 1 ∧ 0 - 1 ≤ 0 + 1 ∧ 0 + 1 ≤ 0 - 1 + 1 ∧ cu - 1 ≤ cu + 1 ∧ cu + 1 ≤ cu - 1 + 1) by omega)]
              rw [cellterm_alive _ _ _ (show 0 - 1 < R - 1 ∧ cu < C - 1 by omega) (show 0 - 1 ≤ 0 ∧ 0 ≤ 0 - 1 + 1 ∧ cu ≤ cu ∧ cu ≤ cu + 1 ∧ 0 - 1 ≤ 0 + 1 ∧ 0 + 1 ≤ 0 - 1 + 1 ∧ cu ≤ cu + 1 ∧ cu + 1 ≤ cu + 1 by omega)]
              rw [show 0 - (0 - 1) = 0 from by omega]
              rw [show cu - cu = 0 from by omega]
              rw [show 0 + 1 - (0 - 1) = 1 from by omega]
              rw [show cu + 1 - cu = 1 from by omega]
              rw [show decide (R - 1 ≤ 0 - 1 + 1) = decide (R - 1 ≤ 1) from decide_eq_decide.mpr (by omega)]
              rw [show decide (cu = 0) = false from decide_eq_false (by omega)]
              rw [show lu = (bif decide (lu = 0) then 0 else 1) from by rcases Nat.le_one_iff_eq_zero_or_eq_one.mp hlu with h | h <;> rw [h] <;> rfl]
              rw [show lv = (bif decide (lv = 0) then 0 else 1) from by rcases Nat.le_one_iff_eq_zero_or_eq_one.mp hlv2 with h | h <;> rw [h] <;> rfl]
              cases a0 : decide (R - 1 ≤ 1) <;> cases a1 : decide (C - 1 ≤ cu + 1) <;> cases a2 : decide (lu = 0) <;> cases a3 : decide (lv = 0) <;> decide
            · subst hcw
              simp only [guard_zero]
              rw [if_neg (show ¬(cv + 1 = 0) by omega)]
              rw [cellterm_alive _ _ _ (show 0 - 1 < R - 1 ∧ cv + 1 - 1 < C - 1 by omega) (show 0 - 1 ≤ 0 ∧ 0 ≤ 0 - 1 + 1 ∧ cv + 1 - 1 ≤ cv + 1 ∧ cv + 1 ≤ cv + 1 - 1 + 1 ∧ 0 - 1 ≤ 0 + 1 ∧ 0 + 1 ≤ 0 - 1 + 1 ∧ cv + 1 - 1 ≤ cv ∧ cv ≤ cv + 1 - 1 + 1 by omega)]
              rw [cellterm_dead _ _ _ (show ¬(0 - 1 ≤ 0 ∧ 0 ≤ 0 - 1 + 1 ∧ cv + 1 ≤ cv + 1 ∧ cv + 1 ≤ cv + 1 + 1 ∧ 0 - 1 ≤ 0 + 1 ∧ 0 + 1 ≤ 0 - 1 + 1 ∧ cv + 1 ≤ cv ∧ cv ≤ cv + 1 + 1) by omega)]
              rw [show 0 - (0 - 1) = 0 from by omega]
              rw [show cv + 1 - (cv + 1 - 1) = 1 from by omega]
              rw [show 0 + 1 - (0 - 1) = 1 from by omega]
              rw [show cv - (cv + 1 - 1) = 0 from by omega]
              rw [show decide (R - 1 ≤ 0 - 1 + 1) = decide (R - 1 ≤ 1) from decide_eq_decide.mpr (by omega)]
              rw [show decide (C - 1 ≤ cv + 1 - 1 + 1) = decide (C - 1 ≤ cv + 1) from decide_eq_decide.mpr (by omega)]
              rw [show decide (cv + 1 - 1 = 0) = decide (cv = 0) from decide_eq_decide.mpr (by omega)]
              rw [show lu = (bif decide (lu = 0) then 0 else 1) from by rcases Nat.le_one_iff_eq_zero_or_eq_one.mp hlu with h | h <;> rw [h] <;> rfl]
              rw [show lv = (bif decide (lv = 0) then 0 else 1) from by rcases Nat.le_one_iff_eq_zero_or_eq_one.mp hlv2 with h | h <;> rw [h] <;> rfl]
              cases a0 : decide (R - 1 ≤ 1) <;> cases a1 : decide (C - 1 ≤ cv + 1) <;> cases a2 : decide (cv = 0) <;> cases a3 : decide (lu = 0) <;> cases a4 : decide (lv = 0) <;> decide
        · exact absurd hrw (by omega)
      · rcases hrowd with hrw | hrw | hrw
        · subst hrw
          by_cases hcu0 : cu = 0
          · subst hcu0
            rcases hcold with hcw | hcw | hcw
            · subst hcw
              rw [if_neg (show ¬(ru = 0) by omega)]
              simp only [guard_zero]
              rw [cellterm_alive _ _ _ (show ru - 1 < R - 1 ∧ 0 - 1 < C - 1 by omega) (show ru - 1 ≤ ru ∧ ru ≤ ru - 1 + 1 ∧ 0 - 1 ≤ 0 ∧ 0 ≤ 0 - 1 + 1 ∧ ru - 1 ≤ ru ∧ ru ≤ ru - 1 + 1 ∧ 0 - 1 ≤ 0 ∧ 0 ≤ 0 - 1 + 1 by omega)]
              rw [cellterm_cond_true _ _ _ (show ru ≤ ru ∧ ru ≤ ru + 1 ∧ 0 - 1 ≤ 0 ∧ 0 ≤ 0 - 1 + 1 ∧ ru ≤ ru ∧ ru ≤ ru + 1 ∧ 0 - 1 ≤ 0 ∧ 0 ≤ 0 - 1 + 1 by omega)]
              rw [if_congr (show (ru < R - 1 ∧ 0 - 1 < C - 1) ↔ (decide (R - 1 ≤ ru) = false) from by simp only [decide_eq_false_iff_not]; omega) rfl rfl]
              rw [show ru - (ru - 1) = 1 from by omega]
              rw [show 0 - (0 - 1) = 0 from by omega]
              rw [show ru - ru = 0 from by omega]
              rw [show decide (R - 1 ≤ ru - 1 + 1) = decide (R - 1 ≤ ru) from decide_eq_decide.mpr (by omega)]
              rw [show decide (C - 1 ≤ 0 - 1 + 1) = decide (C - 1 ≤ 1) from decide_eq_decide.mpr (by omega)]
              rw [show decide (ru = 0) = false from decide_eq_false (by omega)]
              have hlulv : lu ≠ lv := fun he => hne (by rw [hru2, hrv2, he])
              rw [show lu = (bif decide (lu = 0) then 0 else 1) from by rcases Nat.le_one_iff_eq_zero_or_eq_one.mp hlu with h | h <;> rw [h] <;> rfl]
              rw [show lv = (bif decide (lu = 0) then 1 else 0) from by rcases Nat.le_one_iff_eq_zero_or_eq_one.mp hlu with h | h <;> rcases Nat.le_one_iff_eq_zero_or_eq_one.mp hlv2 with h2 | h2 <;> rw [h, h2] <;> first | rfl | exact absurd (h.trans h2.symm) hlulv]
              cases a0 : decide (R - 1 ≤ ru) <;> cases a1 : decide (ru - 1 = 0) <;> cases a2 : decide (C - 1 ≤ 1) <;> cases a3 : decide (R - 1 ≤ ru + 1) <;> cases a4 : decide (lu = 0) <;> decide
            · subst hcw
              rw [if_neg (show ¬(ru = 0) by omega)]
              simp only [guard_zero]
              rw [cellterm_alive _ _ _ (show ru - 1 < R - 1 ∧ 0 - 1 < C - 1 by omega) (show ru - 1 ≤ ru ∧ ru ≤ ru - 1 + 1 ∧ 0 - 1 ≤ 0 ∧ 0 ≤ 0 - 1 + 1 ∧ ru - 1 ≤ ru ∧ ru ≤ ru - 1 + 1 ∧ 0 - 1 ≤ 0 + 1 ∧ 0 + 1 ≤ 0 - 1 + 1 by omega)]
              rw [cellterm_cond_true _ _ _ (show ru ≤ ru ∧ ru ≤ ru + 1 ∧ 0 - 1 ≤ 0 ∧ 0 ≤ 0 - 1 + 1 ∧ ru ≤ ru ∧ ru ≤ ru + 1 ∧ 0 - 1 ≤ 0 + 1 ∧ 0 + 1 ≤ 0 - 1 + 1 by omega)]
              rw [if_congr (show (ru < R - 1 ∧ 0 - 1 < C - 1) ↔ (decide (R - 1 ≤ ru) = false) from by simp only [decide_eq_false_iff_not]; omega) rfl rfl]
              rw [show ru - (ru - 1) = 1 from by omega]
              rw [show 0 - (0 - 1) = 0 from by omega]
              rw [show 0 + 1 - (0 - 1) = 1 from by omega]
              rw [show ru - ru = 0 from by omega]
              rw [show decide (R - 1 ≤ ru - 1 + 1) = decide (R - 1 ≤ ru) from decide_eq_decide.mpr (by omega)]
              rw [show decide (C - 1 ≤ 0 - 1 + 1) = decide (C - 1 ≤ 1) from decide_eq_decide.mpr (by omega)]
              rw [show decide (ru = 0) = false from decide_eq_false (by omega)]
              rw [show lu = (bif decide (lu = 0) then 0 else 1) from by rcases Nat.le_one_iff_eq_zero_or_eq_one.mp hlu with h | h <;> rw [h] <;> rfl]
              rw [show lv = (bif decide (lv = 0) then 0 else 1) from by rcases Nat.le_one_iff_eq_zero_or_eq_one.mp hlv2 with h | h <;> rw [h] <;> rfl]
              cases a0 : decide (R - 1 ≤ ru) <;> cases a1 : decide (ru - 1 = 0) <;> cases a2 : decide (C - 1 ≤ 1) <;> cases a3 : decide (R - 1 ≤ ru + 1) <;> cases a4 : decide (lu = 0) <;> cases a5 : decide (lv = 0) <;> decide
            · exact absurd hcw (by omega)
          · rcases hcold with hcw | hcw | hcw
            · subst hcw
              rw [if_neg (show ¬(ru = 0) by omega)]
              rw [if_neg (show ¬(cu = 0) by omega), if_neg (show ¬(cu = 0) by omega)]
              rw [cellterm_alive _ _ _ (show ru - 1 < R - 1 ∧ cu - 1 < C - 1 by omega) (show ru - 1 ≤ ru ∧ ru ≤ ru - 1 + 1 ∧ cu - 1 ≤ cu ∧ cu ≤ cu - 1 + 1 ∧ ru - 1 ≤ ru ∧ ru ≤ ru - 1 + 1 ∧ cu - 1 ≤ cu ∧ cu ≤ cu - 1 + 1 by omega)]
              rw [cellterm_cond_true _ _ _ (show ru - 1 ≤ ru ∧ ru ≤ ru - 1 + 1 ∧ cu ≤ cu ∧ cu ≤ cu + 1 ∧ ru - 1 ≤ ru ∧ ru ≤ ru - 1 + 1 ∧ cu ≤ cu ∧ cu ≤ cu + 1 by omega)]
              rw [if_congr (show (ru - 1 < R - 1 ∧ cu < C - 1) ↔ (decide (C - 1 ≤ cu) = false) from by simp only [decide_eq_false_iff_not]; omega) rfl rfl]
              rw [cellterm_cond_true _ _ _ (show ru ≤ ru ∧ ru ≤ ru + 1 ∧ cu - 1 ≤ cu ∧ cu ≤ cu - 1 + 1 ∧ ru ≤ ru ∧ ru ≤ ru + 1 ∧ cu - 1 ≤ cu ∧ cu ≤ cu - 1 + 1 by omega)]
              rw [if_congr (show (ru < R - 1 ∧ cu - 1 < C - 1) ↔ (decide (R - 1 ≤ ru) = false) from by simp only [decide_eq_false_iff_not]; omega) rfl rfl]
              rw [cellterm_cond_true _ _ _ (show ru ≤ ru ∧ ru ≤ ru + 1 ∧ cu ≤ cu ∧ cu ≤ cu + 1 ∧ ru ≤ ru ∧ ru ≤ ru + 1 ∧ cu ≤ cu ∧ cu ≤ cu + 1 by omega)]
              rw [if_congr (show (ru < R - 1 ∧ cu < C - 1) ↔ (decide (R - 1 ≤ ru) = false ∧ decide (C - 1 ≤ cu) = false) from by simp only [decide_eq_false_iff_not]; omega) rfl rfl]
              rw [show ru - (ru - 1) = 1 from by omega]
              rw [show cu - (cu - 1) = 1 from by omega]
              rw [show cu - cu = 0 from by omega]
              rw [show ru - ru = 0 from by omega]
              rw [show decide (R - 1 ≤ ru - 1 + 1) = decide (R - 1 ≤ ru) from decide_eq_decide.mpr (by omega)]
              rw [show decide (C - 1 ≤ cu - 1 + 1) = decide (C - 1 ≤ cu) from decide_eq_decide.mpr (by omega)]
              rw [show decide (cu = 0) = false from decide_eq_false (by omega)]
              rw [show decide (ru = 0) = false from decide_eq_false (by omega)]
              have hlulv : lu ≠ lv := fun he => hne (by rw [hru2, hrv2, he])
              rw [show lu = (bif decide (lu = 0) then 0 else 1) from by rcases Nat.le_one_iff_eq_zero_or_eq_one.mp hlu with h | h <;> rw [h] <;> rfl]
              rw [show lv = (bif decide (lu = 0) then 1 else 0) from by rcases Nat.le_one_iff_eq_zero_or_eq_one.mp hlu with h | h <;> rcases Nat.le_one_iff_eq_zero_or_eq_one.mp hlv2 with h2 | h2 <;> rw [h, h2] <;> first | rfl | exact absurd (h.trans h2.symm) hlulv]
              cases a0 : decide (R - 1 ≤ ru) <;> cases a1 : decide (ru - 1 = 0) <;> cases a2 : decide (C - 1 ≤ cu) <;> cases a3 : decide (cu - 1 = 0) <;> cases a4 : decide (C - 1 ≤ cu + 1) <;> cases a5 : decide (R - 1 ≤ ru + 1) <;> cases a6 : decide (lu = 0) <;> decide
            · subst hcw
              rw [if_neg (show ¬(ru = 0) by omega)]
              rw [if_neg (show ¬(cu = 0) by omega), if_neg (show ¬(cu = 0) by omega)]
              rw [cellterm_dead _ _ _ (show ¬(ru - 1 ≤ ru ∧ ru ≤ ru - 1 + 1 ∧ cu - 1 ≤ cu ∧ cu ≤ cu - 1 + 1 ∧ ru - 1 ≤ ru ∧ ru ≤ ru - 1 + 1 ∧ cu - 1 ≤ cu + 1 ∧ cu + 1 ≤ cu - 1 + 1) by omega)]
              rw [cellterm_alive _ _ _ (show ru - 1 < R - 1 ∧ cu < C - 1 by omega) (show ru - 1 ≤ ru ∧ ru ≤ ru - 1 + 1 ∧ cu ≤ cu ∧ cu ≤ cu + 1 ∧ ru - 1 ≤ ru ∧ ru ≤ ru - 1 + 1 ∧ cu ≤ cu + 1 ∧ cu + 1 ≤ cu + 1 by omega)]
              rw [cellterm_dead _ _ _ (show ¬(ru ≤ ru ∧ ru ≤ ru + 1 ∧ cu - 1 ≤ cu ∧ cu ≤ cu - 1 + 1 ∧ ru ≤ ru ∧ ru ≤ ru + 1 ∧ cu - 1 ≤ cu + 1 ∧ cu + 1 ≤ cu - 1 + 1) by omega)]
              rw [cellterm_cond_true _ _ _ (show ru ≤ ru ∧ ru ≤ ru + 1 ∧ cu ≤ cu ∧ cu ≤ cu + 1 ∧ ru ≤ ru ∧ ru ≤ ru + 1 ∧ cu ≤ cu + 1 ∧ cu + 1 ≤ cu + 1 by omega)]
              rw [if_congr (show (ru < R - 1 ∧ cu < C - 1) ↔ (decide (R - 1 ≤ ru) = false) from by simp only [decide_eq_false_iff_not]; omega) rfl rfl]
              rw [show ru - (ru - 1) = 1 from by omega]
              rw [show cu - cu = 0 from by omega]
              rw [show cu + 1 - cu = 1 from by omega]
              rw [show ru - ru = 0 from by omega]
              rw [show decide (R - 1 ≤ ru - 1 + 1) = decide (R - 1 ≤ ru) from decide_eq_decide.mpr (by omega)]
              rw [show decide (cu = 0) = false from decide_eq_false (by omega)]
              rw [show decide (ru = 0) = false from decide_eq_false (by omega)]
              rw [show lu = (bif decide (lu = 0) then 0 else 1) from by rcases Nat.le_one_iff_eq_zero_or_eq_one.mp hlu with h | h <;> rw [h] <;> rfl]
              rw [show lv = (bif decide (lv = 0) then 0 else 1) from by rcases Nat.le_one_iff_eq_zero_or_eq_one.mp hlv2 with h | h <;> rw [h] <;> rfl]
              cases a0 : decide (R - 1 ≤ ru) <;> cases a1 : decide (ru - 1 = 0) <;> cases a2 : decide (C - 1 ≤ cu + 1) <;> cases a3 : decide (R - 1 ≤ ru + 1) <;> cases a4 : decide (lu = 0) <;> cases a5 : decide (lv = 0) <;> decide
            · subst hcw
              rw [if_neg (show ¬(ru = 0) by omega)]
              rw [if_neg (show ¬(cv + 1 = 0) by omega), if_neg (show ¬(cv + 1 = 0) by omega)]
              rw [cellterm_alive _ _ _ (show ru - 1 < R - 1 ∧ cv + 1 - 1 < C - 1 by omega) (show ru - 1 ≤ ru ∧ ru ≤ ru - 1 + 1 ∧ cv + 1 - 1 ≤ cv + 1 ∧ cv + 1 ≤ cv + 1 - 1 + 1 ∧ ru - 1 ≤ ru ∧ ru ≤ ru - 1 + 1 ∧ cv + 1 - 1 ≤ cv ∧ cv ≤ cv + 1 - 1 + 1 by omega)]
              rw [cellterm_dead _ _ _ (show ¬(ru - 1 ≤ ru ∧ ru ≤ ru - 1 + 1 ∧ cv + 1 ≤ cv + 1 ∧ cv + 1 ≤ cv + 1 + 1 ∧ ru - 1 ≤ ru ∧ ru ≤ ru - 1 + 1 ∧ cv + 1 ≤ cv ∧ cv ≤ cv + 1 + 1) by omega)]
              rw [cellterm_cond_true _ _ _ (show ru ≤ ru ∧ ru ≤ ru + 1 ∧ cv + 1 - 1 ≤ cv + 1 ∧ cv + 1 ≤ cv + 1 - 1 + 1 ∧ ru ≤ ru ∧ ru ≤ ru + 1 ∧ cv + 1 - 1 ≤ cv ∧ cv ≤ cv + 1 - 1 + 1 by omega)]
              rw [if_congr (show (ru < R - 1 ∧ cv + 1 - 1 < C - 1) ↔ (decide (R - 1 ≤ ru) = false) from by simp only [decide_eq_false_iff_not]; omega) rfl rfl]
              rw [cellterm_dead _ _ _ (show ¬(ru ≤ ru ∧ ru ≤ ru + 1 ∧ cv + 1 ≤ cv + 1 ∧ cv + 1 ≤ cv + 1 + 1 ∧ ru ≤ ru ∧ ru ≤ ru + 1 ∧ cv + 1 ≤ cv ∧ cv ≤ cv + 1 + 1) by omega)]
              rw [show ru - (ru - 1) = 1 from by omega]
              rw [show cv + 1 - (cv + 1 - 1) = 1 from by omega]
              rw [show cv - (cv + 1 - 1) = 0 from by omega]
              rw [show ru - ru = 0 from by omega]
              rw [show decide (R - 1 ≤ ru - 1 + 1) = decide (R - 1 ≤ ru) from decide_eq_decide.mpr (by omega)]
              rw [show decide (C - 1 ≤ cv + 1 - 1 + 1) = decide (C - 1 ≤ cv + 1) from decide_eq_decide.mpr (by omega)]
              rw [show decide (cv + 1 - 1 = 0) = decide (cv = 0) from decide_eq_decide.mpr (by omega)]
              rw [show decide (ru = 0) = false from decide_eq_false (by omega)]
              rw [show lu = (bif decide (lu = 0) then 0 else 1) from by rcases Nat.le_one_iff_eq_zero_or_eq_one.mp hlu with h | h <;> rw [h] <;> rfl]
              rw [show lv = (bif decide (lv = 0) then 0 else 1) from by rcases Nat.le_one_iff_eq_zero_or_eq_one.mp hlv2 with h | h <;> rw [h] <;> rfl]
              cases a0 : decide (R - 1 ≤ ru) <;> cases a1 : decide (ru - 1 = 0) <;> cases a2 : decide (C - 1 ≤ cv + 1) <;> cases a3 : decide (cv = 0) <;> cases a4 : decide (R - 1 ≤ ru + 1) <;> cases a5 : decide (lu = 0) <;> cases a6 : decide (lv = 0) <;> decide
        · subst hrw
          by_cases hcu0 : cu = 0
          · subst hcu0
            rcases hcold with hcw | hcw | hcw
            · subst hcw
              rw [if_neg (show ¬(ru = 0) by omega)]
              simp only [guard_zero]
              rw [cellterm_dead _ _ _ (show ¬(ru - 1 ≤ ru ∧ ru ≤ ru - 1 + 1 ∧ 0 - 1 ≤ 0 ∧ 0 ≤ 0 - 1 + 1 ∧ ru - 1 ≤ ru + 1 ∧ ru + 1 ≤ ru - 1 + 1 ∧ 0 - 1 ≤ 0 ∧ 0 ≤ 0 - 1 + 1) by omega)]
              rw [cellterm_alive _ _ _ (show ru < R - 1 ∧ 0 - 1 < C - 1 by omega) (show ru ≤ ru ∧ ru ≤ ru + 1 ∧ 0 - 1 ≤ 0 ∧ 0 ≤ 0 - 1 + 1 ∧ ru ≤ ru + 1 ∧ ru + 1 ≤ ru + 1 ∧ 0 - 1 ≤ 0 ∧ 0 ≤ 0 - 1 + 1 by omega)]
              rw [show ru - ru = 0 from by omega]
              rw [show 0 - (0 - 1) = 0 from by omega]
              rw [show ru + 1 - ru = 1 from by omega]
              rw [show decide (ru = 0) = false from decide_eq_false (by omega)]
              rw [show decide (C - 1 ≤ 0 - 1 + 1) = decide (C - 1 ≤ 1) from decide_eq_decide.mpr (by omega)]
              rw [show lu = (bif decide (lu = 0) then 0 else 1) from by rcases Nat.le_one_iff_eq_zero_or_eq_one.mp hlu with h | h <;> rw [h] <;> rfl]
              rw [show lv = (bif decide (lv = 0) then 0 else 1) from by rcases Nat.le_one_iff_eq_zero_or_eq_one.mp hlv2 with h | h <;> rw [h] <;> rfl]
              cases a0 : decide (R - 1 ≤ ru + 1) <;> cases a1 : decide (C - 1 ≤ 1) <;> cases a2 : decide (lu = 0) <;> cases a3 : decide (lv = 0) <;> decide
            · subst hcw
              rw [if_neg (show ¬(ru = 0) by omega)]
              simp only [guard_zero]
              rw [cellterm_dead _ _ _ (show ¬(ru - 1 ≤ ru ∧ ru ≤ ru - 1 + 1 ∧ 0 - 1 ≤ 0 ∧ 0 ≤ 0 - 1 + 1 ∧ ru - 1 ≤ ru + 1 ∧ ru + 1 ≤ ru - 1 + 1 ∧ 0 - 1 ≤ 0 + 1 ∧ 0 + 1 ≤ 0 - 1 + 1) by omega)]
              rw [cellterm_alive _ _ _ (show ru < R - 1 ∧ 0 - 1 < C - 1 by omega) (show ru ≤ ru ∧ ru ≤ ru + 1 ∧ 0 - 1 ≤ 0 ∧ 0 ≤ 0 - 1 + 1 ∧ ru ≤ ru + 1 ∧ ru + 1 ≤ ru + 1 ∧ 0 - 1 ≤ 0 + 1 ∧ 0 + 1 ≤ 0 - 1 + 1 by omega)]
              rw [show ru - ru = 0 from by omega]
              rw [show 0 - (0 - 1) = 0 from by omega]
              rw [show ru + 1 - ru = 1 from by omega]
              rw [show 0 + 1 - (0 - 1) = 1 from by omega]
              rw [show decide (ru = 0) = false from decide_eq_false (by omega)]
              rw [show decide (C - 1 ≤ 0 - 1 + 1) = decide (C - 1 ≤ 1) from decide_eq_decide.mpr (by omega)]
              rw [show lu = (bif decide (lu = 0) then 0 else 1) from by rcases Nat.le_one_iff_eq_zero_or_eq_one.mp hlu with h | h <;> rw [h] <;> rfl]
              rw [show lv = (bif decide (lv = 0) then 0 else 1) from by rcases Nat.le_one_iff_eq_zero_or_eq_one.mp hlv2 with h | h <;> rw [h] <;> rfl]
              cases a0 : decide (R - 1 ≤ ru + 1) <;> cases a1 : decide (C - 1 ≤ 1) <;> cases a2 : decide (lu = 0) <;> cases a3 : decide (lv = 0) <;> decide
            · exact absurd hcw (by omega)
          · rcases hcold with hcw | hcw | hcw
            · subst hcw
              rw [if_neg (show ¬(ru = 0) by omega)]
              rw [if_neg (show ¬(cu = 0) by omega), if_neg (show ¬(cu = 0) by omega)]
              rw [cellterm_dead _ _ _ (show ¬(ru - 1 ≤ ru ∧ ru ≤ ru - 1 + 1 ∧ cu - 1 ≤ cu ∧ cu ≤ cu - 1 + 1 ∧ ru - 1 ≤ ru + 1 ∧ ru + 1 ≤ ru - 1 + 1 ∧ cu - 1 ≤ cu ∧ cu ≤ cu - 1 + 1) by omega)]
              rw [cellterm_dead _ _ _ (show ¬(ru - 1 ≤ ru ∧ ru ≤ ru - 1 + 1 ∧ cu ≤ cu ∧ cu ≤ cu + 1 ∧ ru - 1 ≤ ru + 1 ∧ ru + 1 ≤ ru - 1 + 1 ∧ cu ≤ cu ∧ cu ≤ cu + 1) by omega)]
              rw [cellterm_alive _ _ _ (show ru < R - 1 ∧ cu - 1 < C - 1 by omega) (show ru ≤ ru ∧ ru ≤ ru + 1 ∧ cu - 1 ≤ cu ∧ cu ≤ cu - 1 + 1 ∧ ru ≤ ru + 1 ∧ ru + 1 ≤ ru + 1 ∧ cu - 1 ≤ cu ∧ cu ≤ cu - 1 + 1 by omega)]
              rw [cellterm_cond_true _ _ _ (show ru ≤ ru ∧ ru ≤ ru + 1 ∧ cu ≤ cu ∧ cu ≤ cu + 1 ∧ ru ≤ ru + 1 ∧ ru + 1 ≤ ru + 1 ∧ cu ≤ cu ∧ cu ≤ cu + 1 by omega)]
              rw [if_congr (show (ru < R - 1 ∧ cu < C - 1) ↔ (decide (C - 1 ≤ cu) = false) from by simp only [decide_eq_false_iff_not]; omega) rfl rfl]
              rw [show ru - ru = 0 from by omega]
              rw [show cu - (cu - 1) = 1 from by omega]
              rw [show ru + 1 - ru = 1 from by omega]
              rw [show cu - cu = 0 from by omega]
              rw [show decide (ru = 0) = false from decide_eq_false (by omega)]
              rw [show decide (C - 1 ≤ cu - 1 + 1) = decide (C - 1 ≤ cu) from decide_eq_decide.mpr (by omega)]
              rw [show decide (cu = 0) = false from decide_eq_false (by omega)]
              rw [show lu = (bif decide (lu = 0) then 0 else 1) from by rcases Nat.le_one_iff_eq_zero_or_eq_one.mp hlu with h | h <;> rw [h] <;> rfl]
              rw [show lv = (bif decide (lv = 0) then 0 else 1) from by rcases Nat.le_one_iff_eq_zero_or_eq_one.mp hlv2 with h | h <;> rw [h] <;> rfl]
              cases a0 : decide (R - 1 ≤ ru + 1) <;> cases a1 : decide (C - 1 ≤ cu) <;> cases a2 : decide (cu - 1 = 0) <;> cases a3 : decide (C - 1 ≤ cu + 1) <;> cases a4 : decide (lu = 0) <;> cases a5 : decide (lv = 0) <;> decide
            · subst hcw
              rw [if_neg (show ¬(ru = 0) by omega)]
              rw [if_neg (show ¬(cu = 0) by omega), if_neg (show ¬(cu = 0) by omega)]
              rw [cellterm_dead _ _ _ (show ¬(ru - 1 ≤ ru ∧ ru ≤ ru - 1 + 1 ∧ cu - 1 ≤ cu ∧ cu ≤ cu - 1 + 1 ∧ ru - 1 ≤ ru + 1 ∧ ru + 1 ≤ ru - 1 + 1 ∧ cu - 1 ≤ cu + 1 ∧ cu + 1 ≤ cu - 1 + 1) by omega)]
              rw [cellterm_dead _ _ _ (show ¬(ru - 1 ≤ ru ∧ ru ≤ ru - 1 + 1 ∧ cu ≤ cu ∧ cu ≤ cu + 1 ∧ ru - 1 ≤ ru + 1 ∧ ru + 1 ≤ ru - 1 + 1 ∧ cu ≤ cu + 1 ∧ cu + 1 ≤ cu + 1) by omega)]
              rw [cellterm_dead _ _ _ (show ¬(ru ≤ ru ∧ ru ≤ ru + 1 ∧ cu - 1 ≤ cu ∧ cu ≤ cu - 1 + 1 ∧ ru ≤ ru + 1 ∧ ru + 1 ≤ ru + 1 ∧ cu - 1 ≤ cu + 1 ∧ cu + 1 ≤ cu - 1 + 1) by omega)]
              rw [cellterm_alive _ _ _ (show ru < R - 1 ∧ cu < C - 1 by omega) (show ru ≤ ru ∧ ru ≤ ru + 1 ∧ cu ≤ cu ∧ cu ≤ cu + 1 ∧ ru ≤ ru + 1 ∧ ru + 1 ≤ ru + 1 ∧ cu ≤ cu + 1 ∧ cu + 1 ≤ cu + 1 by omega)]
              rw [show ru - ru = 0 from by omega]
              rw [show cu - cu = 0 from by omega]
              rw [show ru + 1 - ru = 1 from by omega]
              rw [show cu + 1 - cu = 1 from by omega]
              rw [show decide (ru = 0) = false from decide_eq_false (by omega)]
              rw [show decide (cu = 0) = false from decide_eq_false (by omega)]
              rw [show lu = (bif decide (lu = 0) then 0 else 1) from by rcases Nat.le_one_iff_eq_zero_or_eq_one.mp hlu with h | h <;> rw [h] <;> rfl]
              rw [show lv = (bif decide (lv = 0) then 0 else 1) from by rcases Nat.le_one_iff_eq_zero_or_eq_one.mp hlv2 with h | h <;> rw [h] <;> rfl]
              cases a0 : decide (R - 1 ≤ ru + 1) <;> cases a1 : decide (C - 1 ≤ cu + 1) <;> cases a2 : decide (lu = 0) <;> cases a3 : decide (lv = 0) <;> decide
            · subst hcw
              rw [if_neg (show ¬(ru = 0) by omega)]
              rw [if_neg (show ¬(cv + 1 = 0) by omega), if_neg (show ¬(cv + 1 = 0) by omega)]
              rw [cellterm_dead _ _ _ (show ¬(ru - 1 ≤ ru ∧ ru ≤ ru - 1 + 1 ∧ cv + 1 - 1 ≤ cv + 1 ∧ cv + 1 ≤ cv + 1 - 1 + 1 ∧ ru - 1 ≤ ru + 1 ∧ ru + 1 ≤ ru - 1 + 1 ∧ cv + 1 - 1 ≤ cv ∧ cv ≤ cv + 1 - 1 + 1) by omega)]
              rw [cellterm_dead _ _ _ (show ¬(ru - 1 ≤ ru ∧ ru ≤ ru - 1 + 1 ∧ cv + 1 ≤ cv + 1 ∧ cv + 1 ≤ cv + 1 + 1 ∧ ru - 1 ≤ ru + 1 ∧ ru + 1 ≤ ru - 1 + 1 ∧ cv + 1 ≤ cv ∧ cv ≤ cv + 1 + 1) by omega)]
              rw [cellterm_alive _ _ _ (show ru < R - 1 ∧ cv + 1 - 1 < C - 1 by omega) (show ru ≤ ru ∧ ru ≤ ru + 1 ∧ cv + 1 - 1 ≤ cv + 1 ∧ cv + 1 ≤ cv + 1 - 1 + 1 ∧ ru ≤ ru + 1 ∧ ru + 1 ≤ ru + 1 ∧ cv + 1 - 1 ≤ cv ∧ cv ≤ cv + 1 - 1 + 1 by omega)]
              rw [cellterm_dead _ _ _ (show ¬(ru ≤ ru ∧ ru ≤ ru + 1 ∧ cv + 1 ≤ cv + 1 ∧ cv + 1 ≤ cv + 1 + 1 ∧ ru ≤ ru + 1 ∧ ru + 1 ≤ ru + 1 ∧ cv + 1 ≤ cv ∧ cv ≤ cv + 1 + 1) by omega)]
              rw [show ru - ru = 0 from by omega]
              rw [show cv + 1 - (cv + 1 - 1) = 1 from by omega]
              rw [show ru + 1 - ru = 1 from by omega]
              rw [show cv - (cv + 1 - 1) = 0 from by omega]
              rw [show decide (ru = 0) = false from decide_eq_false (by omega)]
              rw [show decide (C - 1 ≤ cv + 1 - 1 + 1) = decide (C - 1 ≤ cv + 1) from decide_eq_decide.mpr (by omega)]
              rw [show decide (cv + 1 - 1 = 0) = decide (cv = 0) from decide_eq_decide.mpr (by omega)]
              rw [show lu = (bif decide (lu = 0) then 0 else 1) from by rcases Nat.le_one_iff_eq_zero_or_eq_one.mp hlu with h | h <;> rw [h] <;> rfl]
              rw [show lv = (bif decide (lv = 0) then 0 else 1) from by rcases Nat.le_one_iff_eq_zero_or_eq_one.mp hlv2 with h | h <;> rw [h] <;> rfl]
              cases a0 : decide (R - 1 ≤ ru + 1) <;> cases a1 : decide (C - 1 ≤ cv + 1) <;> cases a2 : decide (cv = 0) <;> cases a3 : decide (lu = 0) <;> cases a4 : decide (lv = 0) <;> decide
        · subst hrw
          by_cases hcu0 : cu = 0
          · subst hcu0
            rcases hcold with hcw | hcw | hcw
            · subst hcw
              rw [if_neg (show ¬(rv + 1 = 0) by omega)]
              simp only [guard_zero]
              rw [cellterm_alive _ _ _ (show rv + 1 - 1 < R - 1 ∧ 0 - 1 < C - 1 by omega) (show rv + 1 - 1 ≤ rv + 1 ∧ rv + 1 ≤ rv + 1 - 1 + 1 ∧ 0 - 1 ≤ 0 ∧ 0 ≤ 0 - 1 + 1 ∧ rv + 1 - 1 ≤ rv ∧ rv ≤ rv + 1 - 1 + 1 ∧ 0 - 1 ≤ 0 ∧ 0 ≤ 0 - 1 + 1 by omega)]
              rw [cellterm_dead _ _ _ (show ¬(rv + 1 ≤ rv + 1 ∧ rv + 1 ≤ rv + 1 + 1 ∧ 0 - 1 ≤ 0 ∧ 0 ≤ 0 - 1 + 1 ∧ rv + 1 ≤ rv ∧ rv ≤ rv + 1 + 1 ∧ 0 - 1 ≤ 0 ∧ 0 ≤ 0 - 1 + 1) by omega)]
              rw [show rv + 1 - (rv + 1 - 1) = 1 from by omega]
              rw [show 0 - (0 - 1) = 0 from by omega]
              rw [show rv - (rv + 1 - 1) = 0 from by omega]
              rw [show decide (R - 1 ≤ rv + 1 - 1 + 1) = decide (R - 1 ≤ rv + 1) from decide_eq_decide.mpr (by omega)]
              rw [show decide (rv + 1 - 1 = 0) = decide (rv = 0) from decide_eq_decide.mpr (by omega)]
              rw [show decide (C - 1 ≤ 0 - 1 + 1) = decide (C - 1 ≤ 1) from decide_eq_decide.mpr (by omega)]
              rw [show lu = (bif decide (lu = 0) then 0 else 1) from by rcases Nat.le_one_iff_eq_zero_or_eq_one.mp hlu with h | h <;> rw [h] <;> rfl]
              rw [show lv = (bif decide (lv = 0) then 0 else 1) from by rcases Nat.le_one_iff_eq_zero_or_eq_one.mp hlv2 with h | h <;> rw [h] <;> rfl]
              cases a0 : decide (R - 1 ≤ rv + 1) <;> cases a1 : decide (rv = 0) <;> cases a2 : decide (C - 1 ≤ 1) <;> cases a3 : decide (lu = 0) <;> cases a4 : decide (lv = 0) <;> decide
            · subst hcw
              rw [if_neg (show ¬(rv + 1 = 0) by omega)]
              simp only [guard_zero]
              rw [cellterm_alive _ _ _ (show rv + 1 - 1 < R - 1 ∧ 0 - 1 < C - 1 by omega) (show rv + 1 - 1 ≤ rv + 1 ∧ rv + 1 ≤ rv + 1 - 1 + 1 ∧ 0 - 1 ≤ 0 ∧ 0 ≤ 0 - 1 + 1 ∧ rv + 1 - 1 ≤ rv ∧ rv ≤ rv + 1 - 1 + 1 ∧ 0 - 1 ≤ 0 + 1 ∧ 0 + 1 ≤ 0 - 1 + 1 by omega)]
              rw [cellterm_dead _ _ _ (show ¬(rv + 1 ≤ rv + 1 ∧ rv + 1 ≤ rv + 1 + 1 ∧ 0 - 1 ≤ 0 ∧ 0 ≤ 0 - 1 + 1 ∧ rv + 1 ≤ rv ∧ rv ≤ rv + 1 + 1 ∧ 0 - 1 ≤ 0 + 1 ∧ 0 + 1 ≤ 0 - 1 + 1) by omega)]
              rw [show rv + 1 - (rv + 1 - 1) = 1 from by omega]
              rw [show 0 - (0 - 1) = 0 from by omega]
              rw [show rv - (rv + 1 - 1) = 0 from by omega]
              rw [show 0 + 1 - (0 - 1) = 1 from by omega]
              rw [show decide (R - 1 ≤ rv + 1 - 1 + 1) = decide (R - 1 ≤ rv + 1) from decide_eq_decide.mpr (by omega)]
              rw [show decide (rv + 1 - 1 = 0) = decide (rv = 0) from decide_eq_decide.mpr (by omega)]
              rw [show decide (C - 1 ≤ 0 - 1 + 1) = decide (C - 1 ≤ 1) from decide_eq_decide.mpr (by omega)]
              rw [show lu = (bif decide (lu = 0) then 0 else 1) from by rcases Nat.le_one_iff_eq_zero_or_eq_one.mp hlu with h | h <;> rw [h] <;> rfl]
              rw [show lv = (bif decide (lv = 0) then 0 else 1) from by rcases Nat.le_one_iff_eq_zero_or_eq_one.mp hlv2 with h | h <;> rw [h] <;> rfl]
              cases a0 : decide (R - 1 ≤ rv + 1) <;> cases a1 : decide (rv = 0) <;> cases a2 : decide (C - 1 ≤ 1) <;> cases a3 : decide (lu = 0) <;> cases a4 : decide (lv = 0) <;> decide
            · exact absurd hcw (by omega)
          · rcases hcold with hcw | hcw | hcw
            · subst hcw
              rw [if_neg (show ¬(rv + 1 = 0) by omega)]
              rw [if_neg (show ¬(cu = 0) by omega), if_neg (show ¬(cu = 0) by omega)]
              rw [cellterm_alive _ _ _ (show rv + 1 - 1 < R - 1 ∧ cu - 1 < C - 1 by omega) (show rv + 1 - 1 ≤ rv + 1 ∧ rv + 1 ≤ rv + 1 - 1 + 1 ∧ cu - 1 ≤ cu ∧ cu ≤ cu - 1 + 1 ∧ rv + 1 - 1 ≤ rv ∧ rv ≤ rv + 1 - 1 + 1 ∧ cu - 1 ≤ cu ∧ cu ≤ cu - 1 + 1 by omega)]
              rw [cellterm_cond_true _ _ _ (show rv + 1 - 1 ≤ rv + 1 ∧ rv + 1 ≤ rv + 1 - 1 + 1 ∧ cu ≤ cu ∧ cu ≤ cu + 1 ∧ rv + 1 - 1 ≤ rv ∧ rv ≤ rv + 1 - 1 + 1 ∧ cu ≤ cu ∧ cu ≤ cu + 1 by omega)]
              rw [if_congr (show (rv + 1 - 1 < R - 1 ∧ cu < C - 1) ↔ (decide (C - 1 ≤ cu) = false) from by simp only [decide_eq_false_iff_not]; omega) rfl rfl]
              rw [cellterm_dead _ _ _ (show ¬(rv + 1 ≤ rv + 1 ∧ rv + 1 ≤ rv + 1 + 1 ∧ cu - 1 ≤ cu ∧ cu ≤ cu - 1 + 1 ∧ rv + 1 ≤ rv ∧ rv ≤ rv + 1 + 1 ∧ cu - 1 ≤ cu ∧ cu ≤ cu - 1 + 1) by omega)]
              rw [cellterm_dead _ _ _ (show ¬(rv + 1 ≤ rv + 1 ∧ rv + 1 ≤ rv + 1 + 1 ∧ cu ≤ cu ∧ cu ≤ cu + 1 ∧ rv + 1 ≤ rv ∧ rv ≤ rv + 1 + 1 ∧ cu ≤ cu ∧ cu ≤ cu + 1) by omega)]
              rw [show rv + 1 - (rv + 1 - 1) = 1 from by omega]
              rw [show cu - (cu - 1) = 1 from by omega]
              rw [show rv - (rv + 1 - 1) = 0 from by omega]
              rw [show cu - cu = 0 from by omega]
              rw [show decide (R - 1 ≤ rv + 1 - 1 + 1) = decide (R - 1 ≤ rv + 1) from decide_eq_decide.mpr (by omega)]
              rw [show decide (rv + 1 - 1 = 0) = decide (rv = 0) from decide_eq_decide.mpr (by omega)]
              rw [show decide (C - 1 ≤ cu - 1 + 1) = decide (C - 1 ≤ cu) from decide_eq_decide.mpr (by omega)]
              rw [show decide (cu = 0) = false from decide_eq_false (by omega)]
              rw [show lu = (bif decide (lu = 0) then 0 else 1) from by rcases Nat.le_one_iff_eq_zero_or_eq_one.mp hlu with h | h <;> rw [h] <;> rfl]
              rw [show lv = (bif decide (lv = 0) then 0 else 1) from by rcases Nat.le_one_iff_eq_zero_or_eq_one.mp hlv2 with h | h <;> rw [h] <;> rfl]
              cases a0 : decide (R - 1 ≤ rv + 1) <;> cases a1 : decide (rv = 0) <;> cases a2 : decide (C - 1 ≤ cu) <;> cases a3 : decide (cu - 1 = 0) <;> cases a4 : decide (C - 1 ≤ cu + 1) <;> cases a5 : decide (lu = 0) <;> cases a6 : decide (lv = 0) <;> decide
            · subst hcw
              rw [if_neg (show ¬(rv + 1 = 0) by omega)]
              rw [if_neg (show ¬(cu = 0) by omega), if_neg (show ¬(cu = 0) by omega)]
              rw [cellterm_dead _ _ _ (show ¬(rv + 1 - 1 ≤ rv + 1 ∧ rv + 1 ≤ rv + 1 - 1 + 1 ∧ cu - 1 ≤ cu ∧ cu ≤ cu - 1 + 1 ∧ rv + 1 - 1 ≤ rv ∧ rv ≤ rv + 1 - 1 + 1 ∧ cu - 1 ≤ cu + 1 ∧ cu + 1 ≤ cu - 1 + 1) by omega)]
              rw [cellterm_alive _ _ _ (show rv + 1 - 1 < R - 1 ∧ cu < C - 1 by omega) (show rv + 1 - 1 ≤ rv + 1 ∧ rv + 1 ≤ rv + 1 - 1 + 1 ∧ cu ≤ cu ∧ cu ≤ cu + 1 ∧ rv + 1 - 1 ≤ rv ∧ rv ≤ rv + 1 - 1 + 1 ∧ cu ≤ cu + 1 ∧ cu + 1 ≤ cu + 1 by omega)]
              rw [cellterm_dead _ _ _ (show ¬(rv + 1 ≤ rv + 1 ∧ rv + 1 ≤ rv + 1 + 1 ∧ cu - 1 ≤ cu ∧ cu ≤ cu - 1 + 1 ∧ rv + 1 ≤ rv ∧ rv ≤ rv + 1 + 1 ∧ cu - 1 ≤ cu + 1 ∧ cu + 1 ≤ cu - 1 + 1) by omega)]
              rw [cellterm_dead _ _ _ (show ¬(rv + 1 ≤ rv + 1 ∧ rv + 1 ≤ rv + 1 + 1 ∧ cu ≤ cu ∧ cu ≤ cu + 1 ∧ rv + 1 ≤ rv ∧ rv ≤ rv + 1 + 1 ∧ cu ≤ cu + 1 ∧ cu + 1 ≤ cu + 1) by omega)]
              rw [show rv + 1 - (rv + 1 - 1) = 1 from by omega]
              rw [show cu - cu = 0 from by omega]
              rw [show rv - (rv + 1 - 1) = 0 from by omega]
              rw [show cu + 1 - cu = 1 from by omega]
              rw [show decide (R - 1 ≤ rv + 1 - 1 + 1) = decide (R - 1 ≤ rv + 1) from decide_eq_decide.mpr (by omega)]
              rw [show decide (rv + 1 - 1 = 0) = decide (rv = 0) from decide_eq_decide.mpr (by omega)]
              rw [show decide (cu = 0) = false from decide_eq_false (by omega)]
              rw [show lu = (bif decide (lu = 0) then 0 else 1) from by rcases Nat.le_one_iff_eq_zero_or_eq_one.mp hlu with h | h <;> rw [h] <;> rfl]
              rw [show lv = (bif decide (lv = 0) then 0 else 1) from by rcases Nat.le_one_iff_eq_zero_or_eq_one.mp hlv2 with h | h <;> rw [h] <;> rfl]
              cases a0 : decide (R - 1 ≤ rv + 1) <;> cases a1 : decide (rv = 0) <;> cases a2 : decide (C - 1 ≤ cu + 1) <;> cases a3 : decide (lu = 0) <;> cases a4 : decide (lv = 0) <;> decide
            · subst hcw
              rw [if_neg (show ¬(rv + 1 = 0) by omega)]
              rw [if_neg (show ¬(cv + 1 = 0) by omega), if_neg (show ¬(cv + 1 = 0) by omega)]
              rw [cellterm_alive _ _ _ (show rv + 1 - 1 < R - 1 ∧ cv + 1 - 1 < C - 1 by omega) (show rv + 1 - 1 ≤ rv + 1 ∧ rv + 1 ≤ rv + 1 - 1 + 1 ∧ cv + 1 - 1 ≤ cv + 1 ∧ cv + 1 ≤ cv + 1 - 1 + 1 ∧ rv + 1 - 1 ≤ rv ∧ rv ≤ rv + 1 - 1 + 1 ∧ cv + 1 - 1 ≤ cv ∧ cv ≤ cv + 1 - 1 + 1 by omega)]
              rw [cellterm_dead _ _ _ (show ¬(rv + 1 - 1 ≤ rv + 1 ∧ rv + 1 ≤ rv + 1 - 1 + 1 ∧ cv + 1 ≤ cv + 1 ∧ cv + 1 ≤ cv + 1 + 1 ∧ rv + 1 - 1 ≤ rv ∧ rv ≤ rv + 1 - 1 + 1 ∧ cv + 1 ≤ cv ∧ cv ≤ cv + 1 + 1) by omega)]
              rw [cellterm_dead _ _ _ (show ¬(rv + 1 ≤ rv + 1 ∧ rv + 1 ≤ rv + 1 + 1 ∧ cv + 1 - 1 ≤ cv + 1 ∧ cv + 1 ≤ cv + 1 - 1 + 1 ∧ rv + 1 ≤ rv ∧ rv ≤ rv + 1 + 1 ∧ cv + 1 - 1 ≤ cv ∧ cv ≤ cv + 1 - 1 + 1) by omega)]
              rw [cellterm_dead _ _ _ (show ¬(rv + 1 ≤ rv + 1 ∧ rv + 1 ≤ rv + 1 + 1 ∧ cv + 1 ≤ cv + 1 ∧ cv + 1 ≤ cv + 1 + 1 ∧ rv + 1 ≤ rv ∧ rv ≤ rv + 1 + 1 ∧ cv + 1 ≤ cv ∧ cv ≤ cv + 1 + 1) by omega)]
              rw [show rv + 1 - (rv + 1 - 1) = 1 from by omega]
              rw [show cv + 1 - (cv + 1 - 1) = 1 from by omega]
              rw [show rv - (rv + 1 - 1) = 0 from by omega]
              rw [show cv - (cv + 1 - 1) = 0 from by omega]
              rw [show decide (R - 1 ≤ rv + 1 - 1 + 1) = decide (R - 1 ≤ rv + 1) from decide_eq_decide.mpr (by omega)]
              rw [show decide (rv + 1 - 1 = 0) = decide (rv = 0) from decide_eq_decide.mpr (by omega)]
              rw [show decide (C - 1 ≤ cv + 1 - 1 + 1) = decide (C - 1 ≤ cv + 1) from decide_eq_decide.mpr (by omega)]
              rw [show decide (cv + 1 - 1 = 0) = decide (cv = 0) from decide_eq_decide.mpr (by omega)]
              rw [show lu = (bif decide (lu = 0) then 0 else 1) from by rcases Nat.le_one_iff_eq_zero_or_eq_one.mp hlu with h | h <;> rw [h] <;> rfl]
              rw [show lv = (bif decide (lv = 0) then 0 else 1) from by rcases Nat.le_one_iff_eq_zero_or_eq_one.mp hlv2 with h | h <;> rw [h] <;> rfl]
              cases a0 : decide (R - 1 ≤ rv + 1) <;> cases a1 : decide (rv = 0) <;> cases a2 : decide (C - 1 ≤ cv + 1) <;> cases a3 : decide (cv = 0) <;> cases a4 : decide (lu = 0) <;> cases a5 : decide (lv = 0) <;> decide

lemma encV_lt_two (R C i j : Nat) (t : RelV) (hi : i + 1 < R) (hj : j + 1 < C)
    (h2 : t.2.1 ≤ 1) (h3 : t.2.2 ≤ 1) :
    encV R C i j t < 2 * (R * C) := by
  have hx : (i + t.2.1) * C + (j + t.2.2) < R * C :=
    cell_index_lt R C _ _ (by omega) (by omega)
  unfold encV
  split <;> omega

lemma cleanV_vertex_bound (R C : Nat) (valid : Nat → Nat → Bool)
    (hv : ∀ a b, a < R → b < C → valid a b = true) (g : Face)
    (hg : g ∈ polyhedron_faces_cleanV R C valid) :
    g.1 < 2 * (R * C) ∧ g.2.1 < 2 * (R * C) ∧ g.2.2 < 2 * (R * C) := by
  rw [cleanV_full_eq R C valid hv] at hg
  simp only [List.mem_flatMap, List.mem_filterMap, List.mem_range] at hg
  obtain ⟨i, hi, j, hj, k, hk, he⟩ := hg
  by_cases hcond : i < R - 1 ∧ j < C - 1 ∧ keepSlot R C i j k = true
  · rw [if_pos hcond] at he
    have hge : encTriple R C i j k = g := Option.some.inj he
    obtain ⟨⟨a1, a2, a3⟩, ⟨b1, b2, b3⟩, ⟨c1, c2, c3⟩⟩ := relTriple_bounds k
    rw [← hge]
    exact ⟨encV_lt_two R C i j _ (by omega) (by omega) a2 a3,
      encV_lt_two R C i j _ (by omega) (by omega) b2 b3,
      encV_lt_two R C i j _ (by omega) (by omega) c2 c3⟩
  · rw [if_neg hcond] at he
    exact absurd he (by simp)

/-- C3: on a fully valid grid (every builder-shifted sample above the -5000
cutoff) with R, C at least 2, the deduplicated face list is a closed
2-manifold along edges: every unordered pair of distinct vertex indices that
occurs inside some face of the list is shared by exactly 2 faces of the
list. -/
theorem C3_watertight_manifold (d : Dem) (s m : ℚ)
    (hR : 2 ≤ d.rows) (hC : 2 ≤ d.cols)
    (hv : ∀ i j, i < d.rows → j < d.cols → -5000 < zval d s m i j)
    (u v : Nat) (hne : u ≠ v)
    (hocc : ∃ g ∈ polyhedron_faces_clean d s m, edgeInFace u v g = true) :
    (polyhedron_faces_clean d s m).countP (edgeInFace u v) = 2 := by
  have hvB : ∀ a b, a < d.rows → b < d.cols → validB d s m a b = true :=
    fun a b ha hb => decide_eq_true (hv a b ha hb)
  obtain ⟨g, hgmem, hedge⟩ := hocc
  have hgb : g.1 < 2 * (d.rows * d.cols) ∧ g.2.1 < 2 * (d.rows * d.cols) ∧
      g.2.2 < 2 * (d.rows * d.cols) :=
    cleanV_vertex_bound d.rows d.cols (validB d s m) hvB g hgmem
  have hedgeB := hedge
  unfold edgeInFace at hedgeB
  rw [Bool.and_eq_true, Bool.or_eq_true, Bool.or_eq_true, Bool.or_eq_true,
    Bool.or_eq_true] at hedgeB
  obtain ⟨h1, h2⟩ := hedgeB
  have hu : u < 2 * (d.rows * d.cols) := by
    rcases h1 with (h | h) | h
    · rw [of_decide_eq_true h]
      exact hgb.1
    · rw [of_decide_eq_true h]
      exact hgb.2.1
    · rw [of_decide_eq_true h]
      exact hgb.2.2
  have hv2 : v < 2 * (d.rows * d.cols) := by
    rcases h2 with (h | h) | h
    · rw [of_decide_eq_true h]
      exact hgb.1
    · rw [of_decide_eq_true h]
      exact hgb.2.1
    · rw [of_decide_eq_true h]
      exact hgb.2.2
  have hcnt : 0 < (polyhedron_faces_cleanV d.rows d.cols (validB d s m)).countP
      (edgeInFace u v) :=
    List.countP_pos_iff.mpr ⟨g, hgmem, hedge⟩
  suffices hs : (polyhedron_faces_cleanV d.rows d.cols (validB d s m)).countP
      (edgeInFace u v) = 2 from hs
  rcases edge_count_zero_or_two d.rows d.cols (validB d s m) hvB hR hC u v hu hv2 hne
    with h0 | hgoal
  · omega
  · exact hgoal

/-- C3 witness: on the flat 2 by 2 grid the edge between ceiling vertices 0
and 1 lies in exactly two deduplicated faces. -/
theorem C3_watertight_manifold_witness :
    (polyhedron_faces_clean (maskedDem (flatDem 2 2)) 1 0).countP (edgeInFace 0 1) = 2 := by
  have h := C3_watertight_manifold (maskedDem (flatDem 2 2)) 1 0
    (by norm_num [maskedDem, flatDem]) (by norm_num [maskedDem, flatDem])
    (fun i j hi hj => by norm_num [zval, maskedDem, maskSample, flatDem])
    0 1 (by omega)
    (by rw [clean_flat 2 2]; decide)
  exact h

end TerrainModel
